import Mathlib

/-!
# NVIC interrupt driver (driverlib/interrupt.c)

A shallow embedding of the interrupt controller driver of the Tiva
peripheral driver library.  The memory-mapped register file is a map from byte
addresses to words; every driver function is a computation over that
register file which records each volatile load and store it performs, and
which stops with a fault when an ASSERT of the debug build fails.

C arithmetic on uint32_t is modelled on Nat with explicit reduction
modulo 2^32.
-/

namespace Interrupt

/-! ## Constants of inc/hw_nvic.h and inc/hw_ints.h -/

/-- Modelled from the spec: declared in inc/hw_nvic.h, outside driverlib/interrupt.c; address of the SysTick control and status register. -/
def NVIC_ST_CTRL : Nat := 0xE000E010

/-- Modelled from the spec: declared in inc/hw_nvic.h, outside driverlib/interrupt.c; address of the set-enable register of bank 0 (lines 0..31). -/
def NVIC_EN0 : Nat := 0xE000E100

/-- Modelled from the spec: declared in inc/hw_nvic.h, outside driverlib/interrupt.c; address of the set-enable register of bank 1 (lines 32..63). -/
def NVIC_EN1 : Nat := 0xE000E104

/-- Modelled from the spec: declared in inc/hw_nvic.h, outside driverlib/interrupt.c; address of the set-enable register of bank 2 (lines 64..95). -/
def NVIC_EN2 : Nat := 0xE000E108

/-- Modelled from the spec: declared in inc/hw_nvic.h, outside driverlib/interrupt.c; address of the set-enable register of bank 3 (lines 96..127). -/
def NVIC_EN3 : Nat := 0xE000E10C

/-- Modelled from the spec: declared in inc/hw_nvic.h, outside driverlib/interrupt.c; address of the set-enable register of bank 4 (lines 128..159). -/
def NVIC_EN4 : Nat := 0xE000E110

/-- Modelled from the spec: declared in inc/hw_nvic.h, outside driverlib/interrupt.c; address of the clear-enable register of bank 0. -/
def NVIC_DIS0 : Nat := 0xE000E180

/-- Modelled from the spec: declared in inc/hw_nvic.h, outside driverlib/interrupt.c; address of the clear-enable register of bank 1. -/
def NVIC_DIS1 : Nat := 0xE000E184

/-- Modelled from the spec: declared in inc/hw_nvic.h, outside driverlib/interrupt.c; address of the clear-enable register of bank 2. -/
def NVIC_DIS2 : Nat := 0xE000E188

/-- Modelled from the spec: declared in inc/hw_nvic.h, outside driverlib/interrupt.c; address of the clear-enable register of bank 3. -/
def NVIC_DIS3 : Nat := 0xE000E18C

/-- Modelled from the spec: declared in inc/hw_nvic.h, outside driverlib/interrupt.c; address of the clear-enable register of bank 4. -/
def NVIC_DIS4 : Nat := 0xE000E190

/-- Modelled from the spec: declared in inc/hw_nvic.h, outside driverlib/interrupt.c; address of the set-pending register of bank 0. -/
def NVIC_PEND0 : Nat := 0xE000E200

/-- Modelled from the spec: declared in inc/hw_nvic.h, outside driverlib/interrupt.c; address of the set-pending register of bank 1. -/
def NVIC_PEND1 : Nat := 0xE000E204

/-- Modelled from the spec: declared in inc/hw_nvic.h, outside driverlib/interrupt.c; address of the set-pending register of bank 2. -/
def NVIC_PEND2 : Nat := 0xE000E208

/-- Modelled from the spec: declared in inc/hw_nvic.h, outside driverlib/interrupt.c; address of the set-pending register of bank 3. -/
def NVIC_PEND3 : Nat := 0xE000E20C

/-- Modelled from the spec: declared in inc/hw_nvic.h, outside driverlib/interrupt.c; address of the set-pending register of bank 4. -/
def NVIC_PEND4 : Nat := 0xE000E210

/-- Modelled from the spec: declared in inc/hw_nvic.h, outside driverlib/interrupt.c; address of the clear-pending register of bank 0. -/
def NVIC_UNPEND0 : Nat := 0xE000E280

/-- Modelled from the spec: declared in inc/hw_nvic.h, outside driverlib/interrupt.c; address of the clear-pending register of bank 1. -/
def NVIC_UNPEND1 : Nat := 0xE000E284

/-- Modelled from the spec: declared in inc/hw_nvic.h, outside driverlib/interrupt.c; address of the clear-pending register of bank 2. -/
def NVIC_UNPEND2 : Nat := 0xE000E288

/-- Modelled from the spec: declared in inc/hw_nvic.h, outside driverlib/interrupt.c; address of the clear-pending register of bank 3. -/
def NVIC_UNPEND3 : Nat := 0xE000E28C

/-- Modelled from the spec: declared in inc/hw_nvic.h, outside driverlib/interrupt.c; address of the clear-pending register of bank 4. -/
def NVIC_UNPEND4 : Nat := 0xE000E290

/-- Modelled from the spec: declared in inc/hw_nvic.h, outside driverlib/interrupt.c; address of the priority register of lines 0..3. -/
def NVIC_PRI0 : Nat := 0xE000E400

/-- Modelled from the spec: declared in inc/hw_nvic.h, outside driverlib/interrupt.c; address of the priority register of lines 4..7. -/
def NVIC_PRI1 : Nat := 0xE000E404

/-- Modelled from the spec: declared in inc/hw_nvic.h, outside driverlib/interrupt.c; address of the priority register of lines 8..11. -/
def NVIC_PRI2 : Nat := 0xE000E408

/-- Modelled from the spec: declared in inc/hw_nvic.h, outside driverlib/interrupt.c; address of the priority register of lines 12..15. -/
def NVIC_PRI3 : Nat := 0xE000E40C

/-- Modelled from the spec: declared in inc/hw_nvic.h, outside driverlib/interrupt.c; address of the priority register of lines 16..19. -/
def NVIC_PRI4 : Nat := 0xE000E410

/-- Modelled from the spec: declared in inc/hw_nvic.h, outside driverlib/interrupt.c; address of the priority register of lines 20..23. -/
def NVIC_PRI5 : Nat := 0xE000E414

/-- Modelled from the spec: declared in inc/hw_nvic.h, outside driverlib/interrupt.c; address of the priority register of lines 24..27. -/
def NVIC_PRI6 : Nat := 0xE000E418

/-- Modelled from the spec: declared in inc/hw_nvic.h, outside driverlib/interrupt.c; address of the priority register of lines 28..31. -/
def NVIC_PRI7 : Nat := 0xE000E41C

/-- Modelled from the spec: declared in inc/hw_nvic.h, outside driverlib/interrupt.c; address of the priority register of lines 32..35. -/
def NVIC_PRI8 : Nat := 0xE000E420

/-- Modelled from the spec: declared in inc/hw_nvic.h, outside driverlib/interrupt.c; address of the priority register of lines 36..39. -/
def NVIC_PRI9 : Nat := 0xE000E424

/-- Modelled from the spec: declared in inc/hw_nvic.h, outside driverlib/interrupt.c; address of the priority register of lines 40..43. -/
def NVIC_PRI10 : Nat := 0xE000E428

/-- Modelled from the spec: declared in inc/hw_nvic.h, outside driverlib/interrupt.c; address of the priority register of lines 44..47. -/
def NVIC_PRI11 : Nat := 0xE000E42C

/-- Modelled from the spec: declared in inc/hw_nvic.h, outside driverlib/interrupt.c; address of the priority register of lines 48..51. -/
def NVIC_PRI12 : Nat := 0xE000E430

/-- Modelled from the spec: declared in inc/hw_nvic.h, outside driverlib/interrupt.c; address of the priority register of lines 52..55. -/
def NVIC_PRI13 : Nat := 0xE000E434

/-- Modelled from the spec: declared in inc/hw_nvic.h, outside driverlib/interrupt.c; address of the priority register of lines 56..59. -/
def NVIC_PRI14 : Nat := 0xE000E438

/-- Modelled from the spec: declared in inc/hw_nvic.h, outside driverlib/interrupt.c; address of the priority register of lines 60..63. -/
def NVIC_PRI15 : Nat := 0xE000E43C

/-- Modelled from the spec: declared in inc/hw_nvic.h, outside driverlib/interrupt.c; address of the priority register of lines 64..67. -/
def NVIC_PRI16 : Nat := 0xE000E440

/-- Modelled from the spec: declared in inc/hw_nvic.h, outside driverlib/interrupt.c; address of the priority register of lines 68..71. -/
def NVIC_PRI17 : Nat := 0xE000E444

/-- Modelled from the spec: declared in inc/hw_nvic.h, outside driverlib/interrupt.c; address of the priority register of lines 72..75. -/
def NVIC_PRI18 : Nat := 0xE000E448

/-- Modelled from the spec: declared in inc/hw_nvic.h, outside driverlib/interrupt.c; address of the priority register of lines 76..79. -/
def NVIC_PRI19 : Nat := 0xE000E44C

/-- Modelled from the spec: declared in inc/hw_nvic.h, outside driverlib/interrupt.c; address of the priority register of lines 80..83. -/
def NVIC_PRI20 : Nat := 0xE000E450

/-- Modelled from the spec: declared in inc/hw_nvic.h, outside driverlib/interrupt.c; address of the priority register of lines 84..87. -/
def NVIC_PRI21 : Nat := 0xE000E454

/-- Modelled from the spec: declared in inc/hw_nvic.h, outside driverlib/interrupt.c; address of the priority register of lines 88..91. -/
def NVIC_PRI22 : Nat := 0xE000E458

/-- Modelled from the spec: declared in inc/hw_nvic.h, outside driverlib/interrupt.c; address of the priority register of lines 92..95. -/
def NVIC_PRI23 : Nat := 0xE000E45C

/-- Modelled from the spec: declared in inc/hw_nvic.h, outside driverlib/interrupt.c; address of the priority register of lines 96..99. -/
def NVIC_PRI24 : Nat := 0xE000E460

/-- Modelled from the spec: declared in inc/hw_nvic.h, outside driverlib/interrupt.c; address of the priority register of lines 100..103. -/
def NVIC_PRI25 : Nat := 0xE000E464

/-- Modelled from the spec: declared in inc/hw_nvic.h, outside driverlib/interrupt.c; address of the priority register of lines 104..107. -/
def NVIC_PRI26 : Nat := 0xE000E468

/-- Modelled from the spec: declared in inc/hw_nvic.h, outside driverlib/interrupt.c; address of the priority register of lines 108..111. -/
def NVIC_PRI27 : Nat := 0xE000E46C

/-- Modelled from the spec: declared in inc/hw_nvic.h, outside driverlib/interrupt.c; address of the priority register of lines 112..115. -/
def NVIC_PRI28 : Nat := 0xE000E470

/-- Modelled from the spec: declared in inc/hw_nvic.h, outside driverlib/interrupt.c; address of the priority register of lines 116..119. -/
def NVIC_PRI29 : Nat := 0xE000E474

/-- Modelled from the spec: declared in inc/hw_nvic.h, outside driverlib/interrupt.c; address of the priority register of lines 120..123. -/
def NVIC_PRI30 : Nat := 0xE000E478

/-- Modelled from the spec: declared in inc/hw_nvic.h, outside driverlib/interrupt.c; address of the priority register of lines 124..127. -/
def NVIC_PRI31 : Nat := 0xE000E47C

/-- Modelled from the spec: declared in inc/hw_nvic.h, outside driverlib/interrupt.c; address of the priority register of lines 128..131. -/
def NVIC_PRI32 : Nat := 0xE000E480

/-- Modelled from the spec: declared in inc/hw_nvic.h, outside driverlib/interrupt.c; address of the priority register of lines 132..135. -/
def NVIC_PRI33 : Nat := 0xE000E484

/-- Modelled from the spec: declared in inc/hw_nvic.h, outside driverlib/interrupt.c; address of the priority register of lines 136..139. -/
def NVIC_PRI34 : Nat := 0xE000E488

/-- Modelled from the spec: declared in inc/hw_nvic.h, outside driverlib/interrupt.c; address of the interrupt control and state register. -/
def NVIC_INT_CTRL : Nat := 0xE000ED04

/-- Modelled from the spec: declared in inc/hw_nvic.h, outside driverlib/interrupt.c; address of the application interrupt and reset control register. -/
def NVIC_APINT : Nat := 0xE000ED0C

/-- Modelled from the spec: declared in inc/hw_nvic.h, outside driverlib/interrupt.c; address of system handler priority register 1 (exceptions 4..7). -/
def NVIC_SYS_PRI1 : Nat := 0xE000ED18

/-- Modelled from the spec: declared in inc/hw_nvic.h, outside driverlib/interrupt.c; address of system handler priority register 2 (exceptions 8..11). -/
def NVIC_SYS_PRI2 : Nat := 0xE000ED1C

/-- Modelled from the spec: declared in inc/hw_nvic.h, outside driverlib/interrupt.c; address of system handler priority register 3 (exceptions 12..15). -/
def NVIC_SYS_PRI3 : Nat := 0xE000ED20

/-- Modelled from the spec: declared in inc/hw_nvic.h, outside driverlib/interrupt.c; address of the system handler control and state register. -/
def NVIC_SYS_HND_CTRL : Nat := 0xE000ED24

/-- Modelled from the spec: declared in inc/hw_nvic.h, outside driverlib/interrupt.c; address of the software trigger interrupt register. -/
def NVIC_SW_TRIG : Nat := 0xE000EF00

/-- Modelled from the spec: declared in inc/hw_nvic.h, outside driverlib/interrupt.c; SysTick interrupt enable bit of NVIC_ST_CTRL. -/
def NVIC_ST_CTRL_INTEN : Nat := 0x00000002

/-- Modelled from the spec: declared in inc/hw_nvic.h, outside driverlib/interrupt.c; NMI set-pending bit of NVIC_INT_CTRL. -/
def NVIC_INT_CTRL_NMI_SET : Nat := 0x80000000

/-- Modelled from the spec: declared in inc/hw_nvic.h, outside driverlib/interrupt.c; PendSV set-pending bit of NVIC_INT_CTRL. -/
def NVIC_INT_CTRL_PEND_SV : Nat := 0x10000000

/-- Modelled from the spec: declared in inc/hw_nvic.h, outside driverlib/interrupt.c; PendSV clear-pending bit of NVIC_INT_CTRL. -/
def NVIC_INT_CTRL_UNPEND_SV : Nat := 0x08000000

/-- Modelled from the spec: declared in inc/hw_nvic.h, outside driverlib/interrupt.c; SysTick set-pending bit of NVIC_INT_CTRL. -/
def NVIC_INT_CTRL_PENDSTSET : Nat := 0x04000000

/-- Modelled from the spec: declared in inc/hw_nvic.h, outside driverlib/interrupt.c; SysTick clear-pending bit of NVIC_INT_CTRL. -/
def NVIC_INT_CTRL_PENDSTCLR : Nat := 0x02000000

/-- Modelled from the spec: declared in inc/hw_nvic.h, outside driverlib/interrupt.c; the unlock key 0x05FA placed in the upper half-word of NVIC_APINT. -/
def NVIC_APINT_VECTKEY : Nat := 0x05FA0000

/-- Modelled from the spec: declared in inc/hw_nvic.h, outside driverlib/interrupt.c; mask of the three-bit priority grouping field, bits 10..8 of NVIC_APINT. -/
def NVIC_APINT_PRIGROUP_M : Nat := 0x00000700

/-- Modelled from the spec: declared in inc/hw_nvic.h, outside driverlib/interrupt.c; encoding of the split with 7 bits of preemption priority and 1 bits of sub-priority, field value 0. -/
def NVIC_APINT_PRIGROUP_7_1 : Nat := 0x00000000

/-- Modelled from the spec: declared in inc/hw_nvic.h, outside driverlib/interrupt.c; encoding of the split with 6 bits of preemption priority and 2 bits of sub-priority, field value 1. -/
def NVIC_APINT_PRIGROUP_6_2 : Nat := 0x00000100

/-- Modelled from the spec: declared in inc/hw_nvic.h, outside driverlib/interrupt.c; encoding of the split with 5 bits of preemption priority and 3 bits of sub-priority, field value 2. -/
def NVIC_APINT_PRIGROUP_5_3 : Nat := 0x00000200

/-- Modelled from the spec: declared in inc/hw_nvic.h, outside driverlib/interrupt.c; encoding of the split with 4 bits of preemption priority and 4 bits of sub-priority, field value 3. -/
def NVIC_APINT_PRIGROUP_4_4 : Nat := 0x00000300

/-- Modelled from the spec: declared in inc/hw_nvic.h, outside driverlib/interrupt.c; encoding of the split with 3 bits of preemption priority and 5 bits of sub-priority, field value 4. -/
def NVIC_APINT_PRIGROUP_3_5 : Nat := 0x00000400

/-- Modelled from the spec: declared in inc/hw_nvic.h, outside driverlib/interrupt.c; encoding of the split with 2 bits of preemption priority and 6 bits of sub-priority, field value 5. -/
def NVIC_APINT_PRIGROUP_2_6 : Nat := 0x00000500

/-- Modelled from the spec: declared in inc/hw_nvic.h, outside driverlib/interrupt.c; encoding of the split with 1 bits of preemption priority and 7 bits of sub-priority, field value 6. -/
def NVIC_APINT_PRIGROUP_1_7 : Nat := 0x00000600

/-- Modelled from the spec: declared in inc/hw_nvic.h, outside driverlib/interrupt.c; encoding of the split with 0 bits of preemption priority and 8 bits of sub-priority, field value 7. -/
def NVIC_APINT_PRIGROUP_0_8 : Nat := 0x00000700

/-- Modelled from the spec: declared in inc/hw_nvic.h, outside driverlib/interrupt.c; usage fault enable bit of NVIC_SYS_HND_CTRL. -/
def NVIC_SYS_HND_CTRL_USAGE : Nat := 0x00040000

/-- Modelled from the spec: declared in inc/hw_nvic.h, outside driverlib/interrupt.c; bus fault enable bit of NVIC_SYS_HND_CTRL. -/
def NVIC_SYS_HND_CTRL_BUS : Nat := 0x00020000

/-- Modelled from the spec: declared in inc/hw_nvic.h, outside driverlib/interrupt.c; memory management fault enable bit of NVIC_SYS_HND_CTRL. -/
def NVIC_SYS_HND_CTRL_MEM : Nat := 0x00010000

/-- Modelled from the spec: declared in inc/hw_ints.h, outside driverlib/interrupt.c; identifier of the NMI fault. -/
def FAULT_NMI : Nat := 2

/-- Modelled from the spec: declared in inc/hw_ints.h, outside driverlib/interrupt.c; identifier of the hard fault. -/
def FAULT_HARD : Nat := 3

/-- Modelled from the spec: declared in inc/hw_ints.h, outside driverlib/interrupt.c; identifier of the MPU (memory management) fault. -/
def FAULT_MPU : Nat := 4

/-- Modelled from the spec: declared in inc/hw_ints.h, outside driverlib/interrupt.c; identifier of the bus fault. -/
def FAULT_BUS : Nat := 5

/-- Modelled from the spec: declared in inc/hw_ints.h, outside driverlib/interrupt.c; identifier of the usage fault. -/
def FAULT_USAGE : Nat := 6

/-- Modelled from the spec: declared in inc/hw_ints.h, outside driverlib/interrupt.c; identifier of the SVCall exception. -/
def FAULT_SVCALL : Nat := 11

/-- Modelled from the spec: declared in inc/hw_ints.h, outside driverlib/interrupt.c; identifier of the debug monitor exception. -/
def FAULT_DEBUG : Nat := 12

/-- Modelled from the spec: declared in inc/hw_ints.h, outside driverlib/interrupt.c; identifier of the PendSV exception. -/
def FAULT_PENDSV : Nat := 14

/-- Modelled from the spec: declared in inc/hw_ints.h, outside driverlib/interrupt.c; identifier of the system tick exception. -/
def FAULT_SYSTICK : Nat := 15

/-- Modelled from the spec: declared in inc/hw_ints.h, outside driverlib/interrupt.c; identifier of the UART0 interrupt line. -/
def INT_UART0 : Nat := 21

/-- Modelled from the spec: declared in inc/hw_ints.h, outside driverlib/interrupt.c; number of priority grouping values, the length of g_pui32Priority. -/
def NUM_PRIORITY : Nat := 8

/-! ## Machine model -/

/-- Reduction of a value to the range of uint32_t. -/
def u32 (x : Nat) : Nat := x % 2 ^ 32

/-- Bitwise complement of a 32-bit word (the C operator ~ on uint32_t). -/
def not32 (x : Nat) : Nat := (2 ^ 32 - 1) ^^^ (x % 2 ^ 32)

/-- The register file: the word held at each address. -/
abbrev Regs := Nat → Nat

/-- One volatile access to the register file. -/
inductive Access where
  | load (addr : Nat)
  | store (addr val : Nat)
deriving DecidableEq, Repr

/-- Reasons for a driver call not to complete. -/
inductive Fault where
  | assertion
  | tableIndex
  | fuel
deriving DecidableEq, Repr

/-- Result of a completed call: the returned value, the register file it
leaves and the accesses it performed, oldest first. -/
structure Outcome (α : Type) where
  ret : α
  regs : Regs
  trace : List Access

/-- A call that stopped: the reason, the register file at that point and the
accesses performed up to it, oldest first. -/
structure Halt where
  fault : Fault
  regs : Regs
  trace : List Access

/-- A driver computation. -/
def Drv (α : Type) : Type := Regs → Except Halt (Outcome α)

/-- Return a value without touching the register file. -/
def Drv.pure {α : Type} (a : α) : Drv α := fun r => .ok ⟨a, r, []⟩

/-- Sequencing: run m, then f on its result, in the register file m leaves. -/
def Drv.bind {α β : Type} (m : Drv α) (f : α → Drv β) : Drv β := fun r =>
  match m r with
  | .error e => .error e
  | .ok o =>
    match f o.ret o.regs with
    | .error e => .error ⟨e.fault, e.regs, o.trace ++ e.trace⟩
    | .ok o2 => .ok ⟨o2.ret, o2.regs, o.trace ++ o2.trace⟩

instance : Monad Drv where
  pure := Drv.pure
  bind := Drv.bind

/-- Value returned by a computation started in register file r. -/
def Drv.eval {α : Type} (m : Drv α) (r : Regs) : Except Fault α :=
  match m r with
  | .error e => .error e.fault
  | .ok o => .ok o.ret

/-- Register file left by a computation started in register file r. -/
def Drv.exec {α : Type} (m : Drv α) (r : Regs) : Except Fault Regs :=
  match m r with
  | .error e => .error e.fault
  | .ok o => .ok o.regs

/-- Accesses performed by a computation started in register file r. -/
def Drv.accesses {α : Type} (m : Drv α) (r : Regs) : Except Fault (List Access) :=
  match m r with
  | .error e => .error e.fault
  | .ok o => .ok o.trace

/-- The ASSERT of driverlib/debug.h in a debug build: the call stops when
the condition is false. -/
def ASSERT (c : Bool) : Drv Unit := fun r =>
  if c then .ok ⟨(), r, []⟩ else .error ⟨Fault.assertion, r, []⟩

/-- Read of HWREG(a): one volatile 32-bit load. -/
def HWREG (a : Nat) : Drv Nat := fun r => .ok ⟨u32 (r a), r, [Access.load a]⟩

/-- Assignment to HWREG(a): one volatile 32-bit store. -/
def HWREG_store (a v : Nat) : Drv Unit := fun r =>
  .ok ⟨(), Function.update r a (u32 v), [Access.store a (u32 v)]⟩

/-- Element i of a constant table; indexing past the end is a fault. -/
def tableAt (t : List Nat) (i : Nat) : Drv Nat := fun r =>
  match t[i]? with
  | some x => .ok ⟨x, r, []⟩
  | none => .error ⟨Fault.tableIndex, r, []⟩

/-- Byte lane j of a word: bits 8*j+7 .. 8*j. -/
def lane (w j : Nat) : Nat := (w >>> (8 * j)) &&& 0xFF

/-! ## Tables of interrupt.c -/

/-- Mapping between the number of preemption priority bits and the priority
grouping encoding. -/
def g_pui32Priority : List Nat :=
  [NVIC_APINT_PRIGROUP_0_8, NVIC_APINT_PRIGROUP_1_7, NVIC_APINT_PRIGROUP_2_6,
   NVIC_APINT_PRIGROUP_3_5, NVIC_APINT_PRIGROUP_4_4, NVIC_APINT_PRIGROUP_5_3,
   NVIC_APINT_PRIGROUP_6_2, NVIC_APINT_PRIGROUP_7_1]

/-- Mapping between interrupt number and the register that contains the
priority encoding for that interrupt. -/
def g_pui32Regs : List Nat :=
  [0, NVIC_SYS_PRI1, NVIC_SYS_PRI2, NVIC_SYS_PRI3, NVIC_PRI0, NVIC_PRI1, NVIC_PRI2,
   NVIC_PRI3, NVIC_PRI4, NVIC_PRI5,
   NVIC_PRI6, NVIC_PRI7, NVIC_PRI8, NVIC_PRI9, NVIC_PRI10, NVIC_PRI11, NVIC_PRI12,
   NVIC_PRI13, NVIC_PRI14, NVIC_PRI15,
   NVIC_PRI16, NVIC_PRI17, NVIC_PRI18, NVIC_PRI19, NVIC_PRI20, NVIC_PRI21, NVIC_PRI22,
   NVIC_PRI23, NVIC_PRI24, NVIC_PRI25,
   NVIC_PRI26, NVIC_PRI27, NVIC_PRI28, NVIC_PRI29, NVIC_PRI30, NVIC_PRI31, NVIC_PRI32,
   NVIC_PRI33, NVIC_PRI34]

/-- Mapping between peripheral interrupt number and the register that
contains the interrupt enable for that interrupt. -/
def g_pui32EnRegs : List Nat := [NVIC_EN0, NVIC_EN1, NVIC_EN2, NVIC_EN3, NVIC_EN4]

/-- Mapping between peripheral interrupt number and the register that
contains the interrupt disable for that interrupt. -/
def g_pui32Dii16Regs : List Nat := [NVIC_DIS0, NVIC_DIS1, NVIC_DIS2, NVIC_DIS3, NVIC_DIS4]

/-- Mapping between peripheral interrupt number and the register that
contains the interrupt pend for that interrupt. -/
def g_pui32PendRegs : List Nat := [NVIC_PEND0, NVIC_PEND1, NVIC_PEND2, NVIC_PEND3, NVIC_PEND4]

/-- Mapping between peripheral interrupt number and the register that
contains the interrupt unpend for that interrupt. -/
def g_pui32UnpendRegs : List Nat :=
  [NVIC_UNPEND0, NVIC_UNPEND1, NVIC_UNPEND2, NVIC_UNPEND3, NVIC_UNPEND4]

/-! ## Driver functions

The device constant NUM_INTERRUPTS of inc/hw_ints.h is a parameter of every
function whose ASSERT mentions it. -/

/-- Sets the priority grouping of the interrupt controller. -/
def IntPriorityGroupingSet (ui32Bits : Nat) : Drv Unit := do
  ASSERT (decide (ui32Bits < NUM_PRIORITY))
  let e ← tableAt g_pui32Priority ui32Bits
  HWREG_store NVIC_APINT (NVIC_APINT_VECTKEY ||| e)

/-- The for loop of IntPriorityGroupingGet, entered with the loop variable
at ui32Loop; each iteration uses one unit of fuel, as does the final test of
the loop condition. -/
def IntPriorityGroupingGet.loop (ui32Value : Nat) : Nat → Nat → Drv Nat
  | 0, _ => fun r => .error ⟨Fault.fuel, r, []⟩
  | fuel + 1, ui32Loop =>
    if ui32Loop < NUM_PRIORITY then do
      let e ← tableAt g_pui32Priority ui32Loop
      if ui32Value = e then
        Drv.pure ui32Loop
      else
        IntPriorityGroupingGet.loop ui32Value fuel (ui32Loop + 1)
    else
      Drv.pure ui32Loop

/-- Gets the priority grouping of the interrupt controller. -/
def IntPriorityGroupingGet : Drv Nat := do
  let v ← HWREG NVIC_APINT
  let ui32Value := v &&& NVIC_APINT_PRIGROUP_M
  IntPriorityGroupingGet.loop ui32Value (NUM_PRIORITY + 1) 0

/-- Sets the priority of an interrupt. -/
def IntPrioritySet (NUM_INTERRUPTS ui32Interrupt ui8Priority : Nat) : Drv Unit := do
  ASSERT (decide (ui32Interrupt ≥ 4) && decide (ui32Interrupt < NUM_INTERRUPTS))
  let a ← tableAt g_pui32Regs (ui32Interrupt >>> 2)
  let ui32Temp ← HWREG a
  let ui32Temp := ui32Temp &&& not32 (0xFF <<< (8 * (ui32Interrupt &&& 3)))
  let ui32Temp := ui32Temp ||| u32 (ui8Priority <<< (8 * (ui32Interrupt &&& 3)))
  let b ← tableAt g_pui32Regs (ui32Interrupt >>> 2)
  HWREG_store b ui32Temp

/-- Gets the priority of an interrupt. -/
def IntPriorityGet (NUM_INTERRUPTS ui32Interrupt : Nat) : Drv Nat := do
  ASSERT (decide (ui32Interrupt ≥ 4) && decide (ui32Interrupt < NUM_INTERRUPTS))
  let a ← tableAt g_pui32Regs (ui32Interrupt >>> 2)
  let v ← HWREG a
  Drv.pure ((v >>> (8 * (ui32Interrupt &&& 3))) &&& 0xFF)

/-- Enables an interrupt. -/
def IntEnable (NUM_INTERRUPTS ui32Interrupt : Nat) : Drv Unit := do
  ASSERT (decide (ui32Interrupt < NUM_INTERRUPTS))
  if ui32Interrupt = FAULT_MPU then do
    let v ← HWREG NVIC_SYS_HND_CTRL
    HWREG_store NVIC_SYS_HND_CTRL (v ||| NVIC_SYS_HND_CTRL_MEM)
  else if ui32Interrupt = FAULT_BUS then do
    let v ← HWREG NVIC_SYS_HND_CTRL
    HWREG_store NVIC_SYS_HND_CTRL (v ||| NVIC_SYS_HND_CTRL_BUS)
  else if ui32Interrupt = FAULT_USAGE then do
    let v ← HWREG NVIC_SYS_HND_CTRL
    HWREG_store NVIC_SYS_HND_CTRL (v ||| NVIC_SYS_HND_CTRL_USAGE)
  else if ui32Interrupt = FAULT_SYSTICK then do
    let v ← HWREG NVIC_ST_CTRL
    HWREG_store NVIC_ST_CTRL (v ||| NVIC_ST_CTRL_INTEN)
  else if ui32Interrupt ≥ 16 then do
    let a ← tableAt g_pui32EnRegs ((ui32Interrupt - 16) / 32)
    HWREG_store a (1 <<< ((ui32Interrupt - 16) &&& 31))
  else
    Drv.pure ()

/-- Disables an interrupt. -/
def IntDisable (NUM_INTERRUPTS ui32Interrupt : Nat) : Drv Unit := do
  ASSERT (decide (ui32Interrupt < NUM_INTERRUPTS))
  if ui32Interrupt = FAULT_MPU then do
    let v ← HWREG NVIC_SYS_HND_CTRL
    HWREG_store NVIC_SYS_HND_CTRL (v &&& not32 NVIC_SYS_HND_CTRL_MEM)
  else if ui32Interrupt = FAULT_BUS then do
    let v ← HWREG NVIC_SYS_HND_CTRL
    HWREG_store NVIC_SYS_HND_CTRL (v &&& not32 NVIC_SYS_HND_CTRL_BUS)
  else if ui32Interrupt = FAULT_USAGE then do
    let v ← HWREG NVIC_SYS_HND_CTRL
    HWREG_store NVIC_SYS_HND_CTRL (v &&& not32 NVIC_SYS_HND_CTRL_USAGE)
  else if ui32Interrupt = FAULT_SYSTICK then do
    let v ← HWREG NVIC_ST_CTRL
    HWREG_store NVIC_ST_CTRL (v &&& not32 NVIC_ST_CTRL_INTEN)
  else if ui32Interrupt ≥ 16 then do
    let a ← tableAt g_pui32Dii16Regs ((ui32Interrupt - 16) / 32)
    HWREG_store a (1 <<< ((ui32Interrupt - 16) &&& 31))
  else
    Drv.pure ()

/-- Returns if a peripheral interrupt is enabled. -/
def IntIsEnabled (NUM_INTERRUPTS ui32Interrupt : Nat) : Drv Nat := do
  ASSERT (decide (ui32Interrupt < NUM_INTERRUPTS))
  let ui32Ret := 0
  if ui32Interrupt = FAULT_MPU then do
    let v ← HWREG NVIC_SYS_HND_CTRL
    Drv.pure (v &&& NVIC_SYS_HND_CTRL_MEM)
  else if ui32Interrupt = FAULT_BUS then do
    let v ← HWREG NVIC_SYS_HND_CTRL
    Drv.pure (v &&& NVIC_SYS_HND_CTRL_BUS)
  else if ui32Interrupt = FAULT_USAGE then do
    let v ← HWREG NVIC_SYS_HND_CTRL
    Drv.pure (v &&& NVIC_SYS_HND_CTRL_USAGE)
  else if ui32Interrupt = FAULT_SYSTICK then do
    let v ← HWREG NVIC_ST_CTRL
    Drv.pure (v &&& NVIC_ST_CTRL_INTEN)
  else if ui32Interrupt ≥ 16 then do
    let a ← tableAt g_pui32EnRegs ((ui32Interrupt - 16) / 32)
    let v ← HWREG a
    Drv.pure (v &&& u32 (1 <<< ((ui32Interrupt - 16) &&& 31)))
  else
    Drv.pure ui32Ret

/-- Pends an interrupt. -/
def IntPendSet (NUM_INTERRUPTS ui32Interrupt : Nat) : Drv Unit := do
  ASSERT (decide (ui32Interrupt < NUM_INTERRUPTS))
  if ui32Interrupt = FAULT_NMI then do
    let v ← HWREG NVIC_INT_CTRL
    HWREG_store NVIC_INT_CTRL (v ||| NVIC_INT_CTRL_NMI_SET)
  else if ui32Interrupt = FAULT_PENDSV then do
    let v ← HWREG NVIC_INT_CTRL
    HWREG_store NVIC_INT_CTRL (v ||| NVIC_INT_CTRL_PEND_SV)
  else if ui32Interrupt = FAULT_SYSTICK then do
    let v ← HWREG NVIC_INT_CTRL
    HWREG_store NVIC_INT_CTRL (v ||| NVIC_INT_CTRL_PENDSTSET)
  else if ui32Interrupt ≥ 16 then do
    let a ← tableAt g_pui32PendRegs ((ui32Interrupt - 16) / 32)
    HWREG_store a (1 <<< ((ui32Interrupt - 16) &&& 31))
  else
    Drv.pure ()

/-- Un-pends an interrupt. -/
def IntPendClear (NUM_INTERRUPTS ui32Interrupt : Nat) : Drv Unit := do
  ASSERT (decide (ui32Interrupt < NUM_INTERRUPTS))
  if ui32Interrupt = FAULT_PENDSV then do
    let v ← HWREG NVIC_INT_CTRL
    HWREG_store NVIC_INT_CTRL (v ||| NVIC_INT_CTRL_UNPEND_SV)
  else if ui32Interrupt = FAULT_SYSTICK then do
    let v ← HWREG NVIC_INT_CTRL
    HWREG_store NVIC_INT_CTRL (v ||| NVIC_INT_CTRL_PENDSTCLR)
  else if ui32Interrupt ≥ 16 then do
    let a ← tableAt g_pui32UnpendRegs ((ui32Interrupt - 16) / 32)
    HWREG_store a (1 <<< ((ui32Interrupt - 16) &&& 31))
  else
    Drv.pure ()

/-- Triggers an interrupt. -/
def IntTrigger (NUM_INTERRUPTS ui32Interrupt : Nat) : Drv Unit := do
  ASSERT (decide (ui32Interrupt ≥ 16) && decide (ui32Interrupt < NUM_INTERRUPTS))
  HWREG_store NVIC_SW_TRIG (ui32Interrupt - 16)

/-- The word IntPrioritySet stores for byte lane j and priority p, as a
function of the word t it loaded: the two assignments to ui32Temp. -/
def setLane (t j p : Nat) : Nat :=
  u32 ((t &&& not32 (0xFF <<< (8 * j))) ||| u32 (p <<< (8 * j)))

/-! ## IntPrioritySet as two steps

The read-modify-write of IntPrioritySet split at the point where another
call can run: the load of the register word into ui32Temp, and the store of
the updated word. -/

/-- First step of IntPrioritySet: the argument check and the load of the
priority register word into ui32Temp. -/
def IntPrioritySet.load (NUM_INTERRUPTS ui32Interrupt : Nat) : Drv Nat := do
  ASSERT (decide (ui32Interrupt ≥ 4) && decide (ui32Interrupt < NUM_INTERRUPTS))
  let a ← tableAt g_pui32Regs (ui32Interrupt >>> 2)
  HWREG a

/-- Second step of IntPrioritySet: the two updates of ui32Temp and the store
of the result. -/
def IntPrioritySet.store (ui32Interrupt ui8Priority ui32Temp : Nat) : Drv Unit := do
  let ui32Temp := ui32Temp &&& not32 (0xFF <<< (8 * (ui32Interrupt &&& 3)))
  let ui32Temp := ui32Temp ||| u32 (ui8Priority <<< (8 * (ui32Interrupt &&& 3)))
  let b ← tableAt g_pui32Regs (ui32Interrupt >>> 2)
  HWREG_store b ui32Temp

/-- A call of IntPrioritySet in progress: its arguments, its position (0 before
the load, 1 between the load and the store, 2 returned) and its local
ui32Temp. -/
structure SetCall where
  ui32Interrupt : Nat
  ui8Priority : Nat
  pc : Nat
  ui32Temp : Nat

/-- One step of a call in progress; a returned call does nothing. -/
def SetCall.step (NUM_INTERRUPTS : Nat) (c : SetCall) : Drv SetCall :=
  if c.pc = 0 then do
    let t ← IntPrioritySet.load NUM_INTERRUPTS c.ui32Interrupt
    Drv.pure ⟨c.ui32Interrupt, c.ui8Priority, 1, t⟩
  else if c.pc = 1 then do
    IntPrioritySet.store c.ui32Interrupt c.ui8Priority c.ui32Temp
    Drv.pure ⟨c.ui32Interrupt, c.ui8Priority, 2, c.ui32Temp⟩
  else
    Drv.pure c

/-- Two calls run under a schedule: true steps the first call, false the
second. -/
def interleave (NUM_INTERRUPTS : Nat) : List Bool → SetCall → SetCall → Drv (SetCall × SetCall)
  | [], c1, c2 => Drv.pure (c1, c2)
  | true :: s, c1, c2 => do
    let c ← SetCall.step NUM_INTERRUPTS c1
    interleave NUM_INTERRUPTS s c c2
  | false :: s, c1, c2 => do
    let c ← SetCall.step NUM_INTERRUPTS c2
    interleave NUM_INTERRUPTS s c1 c

/-! ## Bit-level lemmas -/

theorem testBit_byte_high {p i : Nat} (hp : p < 256) (hi : 8 ≤ i) : p.testBit i = false := by
  apply Nat.testBit_lt_two_pow
  calc p < 2 ^ 8 := by simpa using hp
    _ ≤ 2 ^ i := Nat.pow_le_pow_right (by decide) hi

theorem testBit_0xFF (i : Nat) : Nat.testBit 0xFF i = decide (i < 8) := by
  have : (0xFF : Nat) = 2 ^ 8 - 1 := by norm_num
  rw [this, Nat.testBit_two_pow_sub_one]

theorem testBit_not32 (x i : Nat) :
    (not32 x).testBit i = (decide (i < 32) && !x.testBit i) := by
  unfold not32
  rw [Nat.testBit_xor, Nat.testBit_two_pow_sub_one, Nat.testBit_mod_two_pow]
  by_cases h : i < 32 <;> simp [h]

theorem testBit_u32 (x i : Nat) : (u32 x).testBit i = (decide (i < 32) && x.testBit i) := by
  unfold u32
  rw [Nat.testBit_mod_two_pow]


theorem testBit_setLane (t j p i : Nat) (hj : j < 4) (hp : p < 256) :
    (setLane t j p).testBit i =
      if 8 * j ≤ i ∧ i < 8 * j + 8 then p.testBit (i - 8 * j) else (decide (i < 32) && t.testBit i) := by
  unfold setLane
  simp only [testBit_u32, Nat.testBit_or, Nat.testBit_and, testBit_not32, Nat.testBit_shiftLeft, testBit_0xFF]
  by_cases h1 : 8 * j ≤ i
  · by_cases h2 : i < 8 * j + 8
    · have h3 : i < 32 := by omega
      have h4 : i - 8 * j < 8 := by omega
      simp [h1, h2, h3, h4]
    · have h4 : ¬ (i - 8 * j < 8) := by omega
      have h5 : p.testBit (i - 8 * j) = false := testBit_byte_high hp (by omega)
      simp [h1, h2, h4, h5]
      by_cases h32 : i < 32 <;> simp [h32]
  · have h1' : ¬ (i ≥ 8 * j) := h1
    simp [h1, h1']
    by_cases h32 : i < 32 <;> simp [h32]

theorem lane_setLane_same (t j p : Nat) (hj : j < 4) (hp : p < 256) :
    lane (setLane t j p) j = p := by
  apply Nat.eq_of_testBit_eq
  intro i
  unfold lane
  rw [Nat.testBit_and, Nat.testBit_shiftRight, testBit_0xFF, testBit_setLane t j p _ hj hp]
  by_cases h : i < 8
  · have : 8 * j ≤ 8 * j + i ∧ 8 * j + i < 8 * j + 8 := by omega
    simp [this, h]
  · have : p.testBit i = false := testBit_byte_high hp (by omega)
    simp [h, this]

theorem lane_setLane_other (t j k p : Nat) (hj : j < 4) (hk : k < 4) (hjk : k ≠ j) (hp : p < 256) :
    lane (setLane t j p) k = lane t k := by
  apply Nat.eq_of_testBit_eq
  intro i
  unfold lane
  rw [Nat.testBit_and, Nat.testBit_and, Nat.testBit_shiftRight, Nat.testBit_shiftRight, testBit_0xFF, testBit_setLane t j p _ hj hp]
  by_cases h : i < 8
  · have h1 : ¬ (8 * j ≤ 8 * k + i ∧ 8 * k + i < 8 * j + 8) := by omega
    have h2 : 8 * k + i < 32 := by omega
    simp [h1, h, h2]
  · simp [h]

theorem lane_u32 (x k : Nat) (hk : k < 4) : lane (u32 x) k = lane x k := by
  apply Nat.eq_of_testBit_eq
  intro i
  unfold lane
  rw [Nat.testBit_and, Nat.testBit_and, Nat.testBit_shiftRight, Nat.testBit_shiftRight, testBit_0xFF, testBit_u32]
  by_cases h : i < 8
  · have h2 : 8 * k + i < 32 := by omega
    simp [h, h2]
  · simp [h]


theorem bind_run {α β : Type} (m : Drv α) (f : α → Drv β) (r : Regs) :
    (m >>= f) r = Drv.bind m f r := rfl

theorem g_pui32Regs_nodup : g_pui32Regs.Nodup := by decide

theorem g_pui32Regs_inj {i j a : Nat} (hi : g_pui32Regs[i]? = some a)
    (hj : g_pui32Regs[j]? = some a) : i = j := by
  have hlt : i < g_pui32Regs.length := by
    rcases Nat.lt_or_ge i g_pui32Regs.length with h | h
    · exact h
    · rw [List.getElem?_eq_none h] at hi; cases hi
  exact List.getElem?_inj hlt g_pui32Regs_nodup (hi.trans hj.symm)

theorem g_pui32Regs_lookup {N id : Nat} (hN : N ≤ 156) (hid : id < N) :
    ∃ a, g_pui32Regs[id >>> 2]? = some a := by
  have hl : id >>> 2 < g_pui32Regs.length := by
    rw [Nat.shiftRight_eq_div_pow]
    have : g_pui32Regs.length = 39 := rfl
    omega
  exact ⟨g_pui32Regs[id >>> 2], List.getElem?_eq_getElem hl⟩

theorem and_three_lt (id : Nat) : id &&& 3 < 4 := by
  have : id &&& 3 = id % 4 := Nat.and_pow_two_sub_one_eq_mod id 2
  omega

theorem split_id (id : Nat) : id = 4 * (id >>> 2) + (id &&& 3) := by
  have h1 : id &&& 3 = id % 4 := Nat.and_pow_two_sub_one_eq_mod id 2
  have h2 : id >>> 2 = id / 4 := Nat.shiftRight_eq_div_pow id 2
  omega

theorem IntPrioritySet_run (N id p a : Nat) (r : Regs) (h4 : 4 ≤ id) (hid : id < N)
    (ha : g_pui32Regs[id >>> 2]? = some a) :
    IntPrioritySet N id p r =
      .ok ⟨(), Function.update r a (setLane (u32 (r a)) (id &&& 3) p),
        [Access.load a, Access.store a (setLane (u32 (r a)) (id &&& 3) p)]⟩ := by
  simp [IntPrioritySet, bind_run, Drv.bind, ASSERT, tableAt, HWREG, HWREG_store, h4, hid, ha,
    setLane]

theorem IntPriorityGet_run (N id a : Nat) (r : Regs) (h4 : 4 ≤ id) (hid : id < N)
    (ha : g_pui32Regs[id >>> 2]? = some a) :
    IntPriorityGet N id r = .ok ⟨lane (u32 (r a)) (id &&& 3), r, [Access.load a]⟩ := by
  simp [IntPriorityGet, bind_run, Drv.bind, Drv.pure, ASSERT, tableAt, HWREG, h4, hid, ha, lane]

theorem setLane_lt (t j p : Nat) : setLane t j p < 2 ^ 32 := by
  unfold setLane u32
  exact Nat.mod_lt _ (by decide)

/-- C1. Priority round trip: for every register file, every identifier id
with 4 <= id < N (N at most 156) and every priority p in 0..255,
IntPrioritySet(id, p) completes and IntPriorityGet(id), evaluated on the
register file it leaves, returns exactly p. -/
theorem priority_round_trip (N id p : Nat) (r : Regs) (hN : N ≤ 156) (h4 : 4 ≤ id)
    (hid : id < N) (hp : p < 256) :
    ∃ r', (IntPrioritySet N id p).exec r = .ok r' ∧
      (IntPriorityGet N id).eval r' = .ok p := by
  obtain ⟨a, ha⟩ := g_pui32Regs_lookup hN hid
  refine ⟨Function.update r a (setLane (u32 (r a)) (id &&& 3) p), ?_, ?_⟩
  · simp [Drv.exec, IntPrioritySet_run N id p a r h4 hid ha]
  · simp only [Drv.eval, IntPriorityGet_run N id a _ h4 hid ha, Function.update_same]
    rw [lane_u32 _ _ (and_three_lt id), lane_setLane_same _ _ _ (and_three_lt id) hp]

theorem priority_round_trip_witness :
    (155 ≤ 156 ∧ 4 ≤ INT_UART0 ∧ INT_UART0 < 155 ∧ 0xE0 < 256) ∧
    ∃ r', (IntPrioritySet 155 INT_UART0 0xE0).exec (fun _ => 0) = .ok r' ∧
      (IntPriorityGet 155 INT_UART0).eval r' = .ok 0xE0 :=
  ⟨by decide, priority_round_trip 155 INT_UART0 0xE0 (fun _ => 0) (by decide) (by decide) (by decide) (by decide)⟩


/-- C2. Priority frame: for id in [4,N) and p in 0..255, IntPrioritySet(id, p)
performs one load and one store, both on the single word g_pui32Regs[id >> 2];
every other register is unchanged; in that word the byte lane id & 3 becomes p
and the other three lanes are unchanged; and IntPriorityGet(id2) returns the
same value as before for every other id2 in [4,N). -/
theorem priority_set_frame (N id p : Nat) (r : Regs) (hN : N ≤ 156) (h4 : 4 ≤ id)
    (hid : id < N) (hp : p < 256) :
    ∃ a r', g_pui32Regs[id >>> 2]? = some a ∧
      (IntPrioritySet N id p).exec r = .ok r' ∧
      (IntPrioritySet N id p).accesses r = .ok [Access.load a, Access.store a (r' a)] ∧
      (∀ x, x ≠ a → r' x = r x) ∧
      lane (r' a) (id &&& 3) = p ∧
      (∀ k, k < 4 → k ≠ id &&& 3 → lane (r' a) k = lane (r a) k) ∧
      (∀ id', 4 ≤ id' → id' < N → id' ≠ id →
        ∃ v, (IntPriorityGet N id').eval r' = .ok v ∧ (IntPriorityGet N id').eval r = .ok v) := by
  obtain ⟨a, ha⟩ := g_pui32Regs_lookup hN hid
  have hj := and_three_lt id
  refine ⟨a, Function.update r a (setLane (u32 (r a)) (id &&& 3) p), ha, ?_, ?_, ?_, ?_, ?_, ?_⟩
  · simp [Drv.exec, IntPrioritySet_run N id p a r h4 hid ha]
  · simp [Drv.accesses, IntPrioritySet_run N id p a r h4 hid ha]
  · intro x hx
    exact Function.update_noteq hx _ _
  · rw [Function.update_same, lane_setLane_same _ _ _ hj hp]
  · intro k hk hne
    rw [Function.update_same, lane_setLane_other _ _ _ _ hj hk hne hp, lane_u32 _ _ hk]
  · intro id' h4' hid' hne
    obtain ⟨b, hb⟩ := g_pui32Regs_lookup hN hid'
    have hk := and_three_lt id'
    refine ⟨lane (u32 (r b)) (id' &&& 3), ?_, ?_⟩
    swap
    · simp only [Drv.eval, IntPriorityGet_run N id' b _ h4' hid' hb]
    simp only [Drv.eval, IntPriorityGet_run N id' b _ h4' hid' hb]
    congr 1
    by_cases hab : b = a
    · subst hab
      have hidx : id' >>> 2 = id >>> 2 := g_pui32Regs_inj hb ha
      have hlane : id' &&& 3 ≠ id &&& 3 := by
        intro h
        apply hne
        rw [split_id id', split_id id, hidx, h]
      rw [Function.update_same, lane_u32 _ _ hk, lane_u32 _ _ hk,
        lane_setLane_other _ _ _ _ hj hk hlane hp, lane_u32 _ _ hk]
    · rw [Function.update_noteq hab]

theorem priority_set_frame_witness :
    (155 ≤ 156 ∧ 4 ≤ INT_UART0 ∧ INT_UART0 < 155 ∧ 0xE0 < 256) ∧
    ∃ a r', g_pui32Regs[INT_UART0 >>> 2]? = some a ∧
      (IntPrioritySet 155 INT_UART0 0xE0).exec (fun _ => 0) = .ok r' ∧
      (IntPrioritySet 155 INT_UART0 0xE0).accesses (fun _ => 0) =
        .ok [Access.load a, Access.store a (r' a)] ∧
      (∀ x, x ≠ a → r' x = (fun _ => 0) x) ∧
      lane (r' a) (INT_UART0 &&& 3) = 0xE0 ∧
      (∀ k, k < 4 → k ≠ INT_UART0 &&& 3 → lane (r' a) k = lane ((fun _ => 0) a) k) ∧
      (∀ id', 4 ≤ id' → id' < 155 → id' ≠ INT_UART0 →
        ∃ v, (IntPriorityGet 155 id').eval r' = .ok v ∧
          (IntPriorityGet 155 id').eval (fun _ => 0) = .ok v) :=
  ⟨by decide, priority_set_frame 155 INT_UART0 0xE0 (fun _ => 0) (by decide) (by decide) (by decide) (by decide)⟩


theorem g_pui32Priority_nodup : g_pui32Priority.Nodup := by decide

theorem g_pui32Priority_lookup {i : Nat} (hi : i < 8) :
    ∃ e, g_pui32Priority[i]? = some e := by
  have hl : i < g_pui32Priority.length := hi
  exact ⟨g_pui32Priority[i], List.getElem?_eq_getElem hl⟩

theorem loop_spec (v : Nat) (r : Regs) :
    ∀ (fuel i : Nat), i ≤ 8 → 9 - i ≤ fuel →
      ∃ n, IntPriorityGroupingGet.loop v fuel i r = .ok ⟨n, r, []⟩ ∧ i ≤ n ∧ n ≤ 8 ∧
        (n < 8 → g_pui32Priority[n]? = some v) ∧
        (∀ j, i ≤ j → j < n → g_pui32Priority[j]? ≠ some v) := by
  intro fuel
  induction fuel with
  | zero =>
    intro i hi hf
    omega
  | succ fuel ih =>
    intro i hi hf
    by_cases hlt : i < 8
    · obtain ⟨e, he⟩ := g_pui32Priority_lookup hlt
      by_cases hv : v = e
      · refine ⟨i, ?_, le_refl i, hi, ?_, ?_⟩
        · simp [IntPriorityGroupingGet.loop, NUM_PRIORITY, hlt, bind_run, Drv.bind, tableAt, he,
            hv, Drv.pure]
        · intro _
          rw [he, hv]
        · intro j h1 h2
          omega
      · obtain ⟨n, hrun, h1, h2, h3, h4⟩ := ih (i + 1) (by omega) (by omega)
        refine ⟨n, ?_, by omega, h2, h3, ?_⟩
        · simp [IntPriorityGroupingGet.loop, NUM_PRIORITY, hlt, bind_run, Drv.bind, tableAt, he,
            hv, hrun]
        · intro j hj1 hj2
          by_cases hji : j = i
          · subst hji
            rw [he]
            intro h
            exact hv (Option.some.inj h).symm
          · exact h4 j (by omega) hj2
    · have hi8 : i = 8 := by omega
      subst hi8
      refine ⟨8, ?_, le_refl 8, le_refl 8, ?_, ?_⟩
      · simp [IntPriorityGroupingGet.loop, NUM_PRIORITY, Drv.pure]
      · intro h
        omega
      · intro j h1 h2
        omega

theorem IntPriorityGroupingGet_spec (r : Regs) :
    ∃ n, IntPriorityGroupingGet r = .ok ⟨n, r, [Access.load NVIC_APINT]⟩ ∧ n ≤ 8 ∧
      (n < 8 → g_pui32Priority[n]? = some (u32 (r NVIC_APINT) &&& NVIC_APINT_PRIGROUP_M)) ∧
      (∀ j, j < n → g_pui32Priority[j]? ≠ some (u32 (r NVIC_APINT) &&& NVIC_APINT_PRIGROUP_M)) := by
  obtain ⟨n, hrun, _, h2, h3, h4⟩ :=
    loop_spec (u32 (r NVIC_APINT) &&& NVIC_APINT_PRIGROUP_M) r 9 0 (by omega) (by omega)
  refine ⟨n, ?_, h2, h3, fun j hj => h4 j (Nat.zero_le j) hj⟩
  simp [IntPriorityGroupingGet, bind_run, Drv.bind, HWREG, NUM_PRIORITY, hrun]


theorem g_pui32Priority_value {g : Nat} (hg : g < 8) :
    g_pui32Priority[g]? = some ((7 - g) * 256) := by
  interval_cases g <;> rfl

theorem stored_grouping_word {g : Nat} (hg : g < 8) :
    NVIC_APINT_VECTKEY ||| ((7 - g) * 256) = 0x05FA0000 + (7 - g) * 256 := by
  interval_cases g <;> decide

theorem masked_grouping_word {g : Nat} (hg : g < 8) :
    u32 (u32 (NVIC_APINT_VECTKEY ||| ((7 - g) * 256))) &&& NVIC_APINT_PRIGROUP_M
      = (7 - g) * 256 := by
  interval_cases g <;> decide

theorem IntPriorityGroupingSet_run (bits e : Nat) (r : Regs) (h : bits < 8)
    (he : g_pui32Priority[bits]? = some e) :
    IntPriorityGroupingSet bits r =
      .ok ⟨(), Function.update r NVIC_APINT (u32 (NVIC_APINT_VECTKEY ||| e)),
        [Access.store NVIC_APINT (u32 (NVIC_APINT_VECTKEY ||| e))]⟩ := by
  simp [IntPriorityGroupingSet, bind_run, Drv.bind, ASSERT, tableAt, HWREG_store, NUM_PRIORITY,
    h, he]

/-- C3. Grouping round trip: for every register file and every g in 0..7,
IntPriorityGroupingSet(g) completes and IntPriorityGroupingGet(), evaluated on
the register file it leaves, returns g. -/
theorem grouping_round_trip (g : Nat) (r : Regs) (hg : g < 8) :
    ∃ r', (IntPriorityGroupingSet g).exec r = .ok r' ∧
      IntPriorityGroupingGet.eval r' = .ok g := by
  have he := g_pui32Priority_value hg
  refine ⟨Function.update r NVIC_APINT (u32 (NVIC_APINT_VECTKEY ||| ((7 - g) * 256))), ?_, ?_⟩
  · simp [Drv.exec, IntPriorityGroupingSet_run g _ r hg he]
  · obtain ⟨n, hrun, h8, hhit, hmiss⟩ := IntPriorityGroupingGet_spec
      (Function.update r NVIC_APINT (u32 (NVIC_APINT_VECTKEY ||| ((7 - g) * 256))))
    rw [Function.update_same, masked_grouping_word hg] at hhit hmiss
    have hng : n ≤ g := by
      by_contra hcon
      exact hmiss g (by omega) he
    have hn : n = g :=
      List.getElem?_inj (by show n < 8; omega) g_pui32Priority_nodup ((hhit (by omega)).trans he.symm)
    simp [Drv.eval, hrun, hn]

theorem grouping_round_trip_witness :
    (2 < 8) ∧ ∃ r', (IntPriorityGroupingSet 2).exec (fun _ => 0) = .ok r' ∧
      IntPriorityGroupingGet.eval r' = .ok 2 :=
  ⟨by decide, grouping_round_trip 2 (fun _ => 0) (by decide)⟩


/-- C4, counterexample. The grouping values 3 and 4 do not collapse: the table
entries are 0x400 and 0x300, and IntPriorityGroupingSet(3) stores 0x05FA0400
to NVIC_APINT while IntPriorityGroupingSet(4) stores 0x05FA0300. -/
theorem grouping_collapse_counterexample :
    g_pui32Priority[3]? = some 0x400 ∧ g_pui32Priority[4]? = some 0x300 ∧
    (IntPriorityGroupingSet 3).accesses (fun _ => 0)
      = .ok [Access.store NVIC_APINT 0x05FA0400] ∧
    (IntPriorityGroupingSet 4).accesses (fun _ => 0)
      = .ok [Access.store NVIC_APINT 0x05FA0300] ∧
    g_pui32Priority[3]? ≠ g_pui32Priority[4]? := by
  refine ⟨rfl, rfl, ?_, ?_, by decide⟩
  · rw [Drv.accesses, IntPriorityGroupingSet_run 3 0x400 _ (by decide) rfl]
    rfl
  · rw [Drv.accesses, IntPriorityGroupingSet_run 4 0x300 _ (by decide) rfl]
    rfl

/-- C4, amended. For grouping values g1, g2 in 3..7 the table entry of g is
(7 - g) << 8, a PRIGROUP field of at most 4, and IntPriorityGroupingSet(g1)
and IntPriorityGroupingSet(g2) write the same encoding to NVIC_APINT exactly
when g1 = g2. -/
theorem grouping_encoding_distinct (g1 g2 : Nat) (r : Regs)
    (h1 : 3 ≤ g1 ∧ g1 ≤ 7) (h2 : 3 ≤ g2 ∧ g2 ≤ 7) :
    g_pui32Priority[g1]? = some ((7 - g1) <<< 8) ∧
    g_pui32Priority[g2]? = some ((7 - g2) <<< 8) ∧
    7 - g1 ≤ 4 ∧ 7 - g2 ≤ 4 ∧
    (g_pui32Priority[g1]? = g_pui32Priority[g2]? ↔ g1 = g2) ∧
    ((IntPriorityGroupingSet g1).accesses r = (IntPriorityGroupingSet g2).accesses r
      ↔ g1 = g2) := by
  obtain ⟨h1a, h1b⟩ := h1
  obtain ⟨h2a, h2b⟩ := h2
  have e1 := g_pui32Priority_value (show g1 < 8 by omega)
  have e2 := g_pui32Priority_value (show g2 < 8 by omega)
  have s1 := stored_grouping_word (show g1 < 8 by omega)
  have s2 := stored_grouping_word (show g2 < 8 by omega)
  have hsh : ∀ x : Nat, x <<< 8 = x * 256 := fun x => by rw [Nat.shiftLeft_eq]
  refine ⟨by rw [hsh]; exact e1, by rw [hsh]; exact e2, by omega, by omega, ?_, ?_⟩
  · rw [e1, e2]
    constructor
    · intro h
      have := Option.some.inj h
      omega
    · intro h
      rw [h]
  · rw [Drv.accesses, Drv.accesses, IntPriorityGroupingSet_run g1 _ r (by omega) e1,
      IntPriorityGroupingSet_run g2 _ r (by omega) e2, s1, s2]
    constructor
    · intro h
      have hu1 : u32 (0x05FA0000 + (7 - g1) * 256) = 0x05FA0000 + (7 - g1) * 256 := by
        unfold u32; omega
      have hu2 : u32 (0x05FA0000 + (7 - g2) * 256) = 0x05FA0000 + (7 - g2) * 256 := by
        unfold u32; omega
      simp only [Except.ok.injEq, List.cons.injEq, Access.store.injEq, true_and, and_true,
        hu1, hu2] at h
      omega
    · intro h
      rw [h]

theorem grouping_encoding_distinct_witness :
    ((3 ≤ 3 ∧ 3 ≤ 7) ∧ (3 ≤ 4 ∧ 4 ≤ 7)) ∧
    (g_pui32Priority[3]? = some ((7 - 3) <<< 8) ∧
    g_pui32Priority[4]? = some ((7 - 4) <<< 8) ∧
    7 - 3 ≤ 4 ∧ 7 - 4 ≤ 4 ∧
    (g_pui32Priority[3]? = g_pui32Priority[4]? ↔ 3 = 4) ∧
    ((IntPriorityGroupingSet 3).accesses (fun _ => 0)
        = (IntPriorityGroupingSet 4).accesses (fun _ => 0)
      ↔ 3 = 4)) :=
  ⟨by decide, grouping_encoding_distinct 3 4 (fun _ => 0) (by decide) (by decide)⟩

/-- C5. For every bits in 0..7, IntPriorityGroupingSet(bits) performs exactly
one access, a store to NVIC_APINT of the word NVIC_APINT_VECTKEY (0x05FA0000)
OR g_pui32Priority[bits]; no register is read and no other register changes;
the upper 16 bits of the stored word are 0x05FA, its bits 10..8 hold
7 - bits, and every other bit is 0. -/
theorem grouping_set_single_store (bits : Nat) (r : Regs) (h : bits < 8) :
    ∃ e w, g_pui32Priority[bits]? = some e ∧ w = NVIC_APINT_VECTKEY ||| e ∧
      NVIC_APINT_VECTKEY = 0x05FA0000 ∧
      IntPriorityGroupingSet bits r =
        .ok ⟨(), Function.update r NVIC_APINT w, [Access.store NVIC_APINT w]⟩ ∧
      (∀ x, x ≠ NVIC_APINT → Function.update r NVIC_APINT w x = r x) ∧
      w >>> 16 = 0x05FA ∧
      (w >>> 8) &&& 7 = 7 - bits ∧
      w = (0x05FA <<< 16) ||| ((7 - bits) <<< 8) := by
  have he := g_pui32Priority_value h
  have hu : u32 (NVIC_APINT_VECTKEY ||| ((7 - bits) * 256))
      = NVIC_APINT_VECTKEY ||| ((7 - bits) * 256) := by
    interval_cases bits <;> decide
  refine ⟨(7 - bits) * 256, NVIC_APINT_VECTKEY ||| ((7 - bits) * 256), he, rfl, rfl, ?_, ?_,
    ?_, ?_, ?_⟩
  · rw [IntPriorityGroupingSet_run bits _ r h he, hu]
  · intro x hx
    exact Function.update_noteq hx _ _
  · interval_cases bits <;> decide
  · interval_cases bits <;> decide
  · interval_cases bits <;> decide

theorem grouping_set_single_store_witness :
    (2 < 8) ∧
    ∃ e w, g_pui32Priority[2]? = some e ∧ w = NVIC_APINT_VECTKEY ||| e ∧
      NVIC_APINT_VECTKEY = 0x05FA0000 ∧
      IntPriorityGroupingSet 2 (fun _ => 0) =
        .ok ⟨(), Function.update (fun _ => 0) NVIC_APINT w, [Access.store NVIC_APINT w]⟩ ∧
      (∀ x, x ≠ NVIC_APINT → Function.update (fun _ => 0) NVIC_APINT w x = (fun _ => 0) x) ∧
      w >>> 16 = 0x05FA ∧
      (w >>> 8) &&& 7 = 7 - 2 ∧
      w = (0x05FA <<< 16) ||| ((7 - 2) <<< 8) :=
  ⟨by decide, grouping_set_single_store 2 (fun _ => 0) (by decide)⟩

/-- C6. For every register file, IntPriorityGroupingGet() performs one load of
NVIC_APINT, modifies no register, and returns n <= 8 such that: when n < 8,
g_pui32Priority[n] equals NVIC_APINT masked with NVIC_APINT_PRIGROUP_M and no
smaller index does (n is the least matching index); and n is the sentinel 8
exactly when no table entry equals the masked value. -/
theorem grouping_get_least_index (r : Regs) :
    ∃ n, IntPriorityGroupingGet r = .ok ⟨n, r, [Access.load NVIC_APINT]⟩ ∧ n ≤ 8 ∧
      (n < 8 → g_pui32Priority[n]? = some (u32 (r NVIC_APINT) &&& NVIC_APINT_PRIGROUP_M)) ∧
      (∀ j, j < n →
        g_pui32Priority[j]? ≠ some (u32 (r NVIC_APINT) &&& NVIC_APINT_PRIGROUP_M)) ∧
      (n = 8 ↔ ∀ j, j < 8 →
        g_pui32Priority[j]? ≠ some (u32 (r NVIC_APINT) &&& NVIC_APINT_PRIGROUP_M)) := by
  obtain ⟨n, hrun, h8, hhit, hmiss⟩ := IntPriorityGroupingGet_spec r
  refine ⟨n, hrun, h8, hhit, hmiss, ?_, ?_⟩
  · intro hn j hj
    exact hmiss j (by omega)
  · intro hall
    by_contra hne
    have hlt : n < 8 := by omega
    exact hall n hlt (hhit hlt)


theorem one_bit_word (id : Nat) : u32 (1 <<< ((id - 16) &&& 31)) = 2 ^ ((id - 16) % 32) := by
  have h : (id - 16) &&& 31 = (id - 16) % 32 := Nat.and_pow_two_sub_one_eq_mod (id - 16) 5
  rw [h, Nat.one_shiftLeft]
  unfold u32
  apply Nat.mod_eq_of_lt
  exact Nat.pow_lt_pow_right (by decide) (Nat.mod_lt _ (by decide))

theorem bank_lookup (t : List Nat) (ht : t.length = 5) {N id : Nat} (hN : N ≤ 156)
    (hid : id < N) : ∃ a, t[(id - 16) / 32]? = some a := by
  have hl : (id - 16) / 32 < t.length := by omega
  exact ⟨t[(id - 16) / 32], List.getElem?_eq_getElem hl⟩

theorem IntEnable_general (N id a : Nat) (r : Regs) (h16 : 16 ≤ id) (hid : id < N)
    (ha : g_pui32EnRegs[(id - 16) / 32]? = some a) :
    IntEnable N id r = .ok ⟨(), Function.update r a (2 ^ ((id - 16) % 32)),
      [Access.store a (2 ^ ((id - 16) % 32))]⟩ := by
  have h1 : id ≠ 4 := by omega
  have h2 : id ≠ 5 := by omega
  have h3 : id ≠ 6 := by omega
  have h4 : id ≠ 15 := by omega
  simp [IntEnable, bind_run, Drv.bind, ASSERT, tableAt, HWREG_store, FAULT_MPU, FAULT_BUS,
    FAULT_USAGE, FAULT_SYSTICK, h1, h2, h3, h4, h16, hid, ha, one_bit_word]

theorem IntDisable_general (N id a : Nat) (r : Regs) (h16 : 16 ≤ id) (hid : id < N)
    (ha : g_pui32Dii16Regs[(id - 16) / 32]? = some a) :
    IntDisable N id r = .ok ⟨(), Function.update r a (2 ^ ((id - 16) % 32)),
      [Access.store a (2 ^ ((id - 16) % 32))]⟩ := by
  have h1 : id ≠ 4 := by omega
  have h2 : id ≠ 5 := by omega
  have h3 : id ≠ 6 := by omega
  have h4 : id ≠ 15 := by omega
  simp [IntDisable, bind_run, Drv.bind, ASSERT, tableAt, HWREG_store, FAULT_MPU, FAULT_BUS,
    FAULT_USAGE, FAULT_SYSTICK, h1, h2, h3, h4, h16, hid, ha, one_bit_word]

theorem IntPendSet_general (N id a : Nat) (r : Regs) (h16 : 16 ≤ id) (hid : id < N)
    (ha : g_pui32PendRegs[(id - 16) / 32]? = some a) :
    IntPendSet N id r = .ok ⟨(), Function.update r a (2 ^ ((id - 16) % 32)),
      [Access.store a (2 ^ ((id - 16) % 32))]⟩ := by
  have h1 : id ≠ 2 := by omega
  have h2 : id ≠ 14 := by omega
  have h4 : id ≠ 15 := by omega
  simp [IntPendSet, bind_run, Drv.bind, ASSERT, tableAt, HWREG_store, FAULT_NMI, FAULT_PENDSV,
    FAULT_SYSTICK, h1, h2, h4, h16, hid, ha, one_bit_word]

theorem IntPendClear_general (N id a : Nat) (r : Regs) (h16 : 16 ≤ id) (hid : id < N)
    (ha : g_pui32UnpendRegs[(id - 16) / 32]? = some a) :
    IntPendClear N id r = .ok ⟨(), Function.update r a (2 ^ ((id - 16) % 32)),
      [Access.store a (2 ^ ((id - 16) % 32))]⟩ := by
  have h2 : id ≠ 14 := by omega
  have h4 : id ≠ 15 := by omega
  simp [IntPendClear, bind_run, Drv.bind, ASSERT, tableAt, HWREG_store, FAULT_PENDSV,
    FAULT_SYSTICK, h2, h4, h16, hid, ha, one_bit_word]

/-- C7. Bank addressing of general lines: for 16 <= id < N, each of IntEnable,
IntDisable, IntPendSet and IntPendClear performs exactly one access, a store
of the one-bit word 2^((id-16) mod 32) to entry (id-16)/32 of g_pui32EnRegs,
g_pui32Dii16Regs, g_pui32PendRegs and g_pui32UnpendRegs respectively, and
changes no other register; IntEnable(16) stores bit 0 to NVIC_EN0,
IntEnable(47) stores bit 31 to NVIC_EN0 and IntEnable(48) stores bit 0 to
NVIC_EN1. -/
theorem bank_addressing (N id : Nat) (r : Regs) (hN : N ≤ 156) (h16 : 16 ≤ id)
    (hid : id < N) :
    (∃ aE aD aP aU,
      g_pui32EnRegs[(id - 16) / 32]? = some aE ∧
      g_pui32Dii16Regs[(id - 16) / 32]? = some aD ∧
      g_pui32PendRegs[(id - 16) / 32]? = some aP ∧
      g_pui32UnpendRegs[(id - 16) / 32]? = some aU ∧
      IntEnable N id r = .ok ⟨(), Function.update r aE (2 ^ ((id - 16) % 32)),
        [Access.store aE (2 ^ ((id - 16) % 32))]⟩ ∧
      IntDisable N id r = .ok ⟨(), Function.update r aD (2 ^ ((id - 16) % 32)),
        [Access.store aD (2 ^ ((id - 16) % 32))]⟩ ∧
      IntPendSet N id r = .ok ⟨(), Function.update r aP (2 ^ ((id - 16) % 32)),
        [Access.store aP (2 ^ ((id - 16) % 32))]⟩ ∧
      IntPendClear N id r = .ok ⟨(), Function.update r aU (2 ^ ((id - 16) % 32)),
        [Access.store aU (2 ^ ((id - 16) % 32))]⟩ ∧
      (∀ x, x ≠ aE → Function.update r aE (2 ^ ((id - 16) % 32)) x = r x) ∧
      (∀ x, x ≠ aD → Function.update r aD (2 ^ ((id - 16) % 32)) x = r x) ∧
      (∀ x, x ≠ aP → Function.update r aP (2 ^ ((id - 16) % 32)) x = r x) ∧
      (∀ x, x ≠ aU → Function.update r aU (2 ^ ((id - 16) % 32)) x = r x)) ∧
    (16 < N → IntEnable N 16 r =
      .ok ⟨(), Function.update r NVIC_EN0 (2 ^ 0), [Access.store NVIC_EN0 (2 ^ 0)]⟩) ∧
    (47 < N → IntEnable N 47 r =
      .ok ⟨(), Function.update r NVIC_EN0 (2 ^ 31), [Access.store NVIC_EN0 (2 ^ 31)]⟩) ∧
    (48 < N → IntEnable N 48 r =
      .ok ⟨(), Function.update r NVIC_EN1 (2 ^ 0), [Access.store NVIC_EN1 (2 ^ 0)]⟩) := by
  obtain ⟨aE, hE⟩ := bank_lookup g_pui32EnRegs rfl hN hid
  obtain ⟨aD, hD⟩ := bank_lookup g_pui32Dii16Regs rfl hN hid
  obtain ⟨aP, hP⟩ := bank_lookup g_pui32PendRegs rfl hN hid
  obtain ⟨aU, hU⟩ := bank_lookup g_pui32UnpendRegs rfl hN hid
  refine ⟨⟨aE, aD, aP, aU, hE, hD, hP, hU, IntEnable_general N id aE r h16 hid hE,
    IntDisable_general N id aD r h16 hid hD, IntPendSet_general N id aP r h16 hid hP,
    IntPendClear_general N id aU r h16 hid hU, ?_, ?_, ?_, ?_⟩, ?_, ?_, ?_⟩
  · intro x hx; exact Function.update_noteq hx _ _
  · intro x hx; exact Function.update_noteq hx _ _
  · intro x hx; exact Function.update_noteq hx _ _
  · intro x hx; exact Function.update_noteq hx _ _
  · intro h; exact IntEnable_general N 16 NVIC_EN0 r (by decide) h rfl
  · intro h; exact IntEnable_general N 47 NVIC_EN0 r (by decide) h rfl
  · intro h; exact IntEnable_general N 48 NVIC_EN1 r (by decide) h rfl

theorem bank_addressing_witness :
    (155 ≤ 156 ∧ 16 ≤ INT_UART0 ∧ INT_UART0 < 155) ∧
    ((∃ aE aD aP aU,
      g_pui32EnRegs[(INT_UART0 - 16) / 32]? = some aE ∧
      g_pui32Dii16Regs[(INT_UART0 - 16) / 32]? = some aD ∧
      g_pui32PendRegs[(INT_UART0 - 16) / 32]? = some aP ∧
      g_pui32UnpendRegs[(INT_UART0 - 16) / 32]? = some aU ∧
      IntEnable 155 INT_UART0 (fun _ => 0) = .ok ⟨(), Function.update (fun _ => 0) aE (2 ^ ((INT_UART0 - 16) % 32)),
        [Access.store aE (2 ^ ((INT_UART0 - 16) % 32))]⟩ ∧
      IntDisable 155 INT_UART0 (fun _ => 0) = .ok ⟨(), Function.update (fun _ => 0) aD (2 ^ ((INT_UART0 - 16) % 32)),
        [Access.store aD (2 ^ ((INT_UART0 - 16) % 32))]⟩ ∧
      IntPendSet 155 INT_UART0 (fun _ => 0) = .ok ⟨(), Function.update (fun _ => 0) aP (2 ^ ((INT_UART0 - 16) % 32)),
        [Access.store aP (2 ^ ((INT_UART0 - 16) % 32))]⟩ ∧
      IntPendClear 155 INT_UART0 (fun _ => 0) = .ok ⟨(), Function.update (fun _ => 0) aU (2 ^ ((INT_UART0 - 16) % 32)),
        [Access.store aU (2 ^ ((INT_UART0 - 16) % 32))]⟩ ∧
      (∀ x, x ≠ aE → Function.update (fun _ => 0) aE (2 ^ ((INT_UART0 - 16) % 32)) x = (fun _ => 0) x) ∧
      (∀ x, x ≠ aD → Function.update (fun _ => 0) aD (2 ^ ((INT_UART0 - 16) % 32)) x = (fun _ => 0) x) ∧
      (∀ x, x ≠ aP → Function.update (fun _ => 0) aP (2 ^ ((INT_UART0 - 16) % 32)) x = (fun _ => 0) x) ∧
      (∀ x, x ≠ aU → Function.update (fun _ => 0) aU (2 ^ ((INT_UART0 - 16) % 32)) x = (fun _ => 0) x)) ∧
    (16 < 155 → IntEnable 155 16 (fun _ => 0) =
      .ok ⟨(), Function.update (fun _ => 0) NVIC_EN0 (2 ^ 0), [Access.store NVIC_EN0 (2 ^ 0)]⟩) ∧
    (47 < 155 → IntEnable 155 47 (fun _ => 0) =
      .ok ⟨(), Function.update (fun _ => 0) NVIC_EN0 (2 ^ 31), [Access.store NVIC_EN0 (2 ^ 31)]⟩) ∧
    (48 < 155 → IntEnable 155 48 (fun _ => 0) =
      .ok ⟨(), Function.update (fun _ => 0) NVIC_EN1 (2 ^ 0), [Access.store NVIC_EN1 (2 ^ 0)]⟩)) :=
  ⟨by decide, bank_addressing 155 INT_UART0 (fun _ => 0) (by decide) (by decide) (by decide)⟩

/-- C8. No read-modify-write on general lines: for 16 <= id < N and any two
register files r1 and r2, each of IntEnable, IntDisable, IntPendSet and
IntPendClear performs on r1 and on r2 the same access sequence, which is a
single store (same address, same value) and contains no load. -/
theorem general_line_store_independent (N id : Nat) (r1 r2 : Regs) (hN : N ≤ 156)
    (h16 : 16 ≤ id) (hid : id < N) :
    (∃ a v, (IntEnable N id).accesses r1 = .ok [Access.store a v] ∧
      (IntEnable N id).accesses r2 = .ok [Access.store a v]) ∧
    (∃ a v, (IntDisable N id).accesses r1 = .ok [Access.store a v] ∧
      (IntDisable N id).accesses r2 = .ok [Access.store a v]) ∧
    (∃ a v, (IntPendSet N id).accesses r1 = .ok [Access.store a v] ∧
      (IntPendSet N id).accesses r2 = .ok [Access.store a v]) ∧
    (∃ a v, (IntPendClear N id).accesses r1 = .ok [Access.store a v] ∧
      (IntPendClear N id).accesses r2 = .ok [Access.store a v]) := by
  obtain ⟨aE, hE⟩ := bank_lookup g_pui32EnRegs rfl hN hid
  obtain ⟨aD, hD⟩ := bank_lookup g_pui32Dii16Regs rfl hN hid
  obtain ⟨aP, hP⟩ := bank_lookup g_pui32PendRegs rfl hN hid
  obtain ⟨aU, hU⟩ := bank_lookup g_pui32UnpendRegs rfl hN hid
  refine ⟨⟨aE, 2 ^ ((id - 16) % 32), ?_, ?_⟩, ⟨aD, 2 ^ ((id - 16) % 32), ?_, ?_⟩,
    ⟨aP, 2 ^ ((id - 16) % 32), ?_, ?_⟩, ⟨aU, 2 ^ ((id - 16) % 32), ?_, ?_⟩⟩
  · rw [Drv.accesses, IntEnable_general N id aE r1 h16 hid hE]
  · rw [Drv.accesses, IntEnable_general N id aE r2 h16 hid hE]
  · rw [Drv.accesses, IntDisable_general N id aD r1 h16 hid hD]
  · rw [Drv.accesses, IntDisable_general N id aD r2 h16 hid hD]
  · rw [Drv.accesses, IntPendSet_general N id aP r1 h16 hid hP]
  · rw [Drv.accesses, IntPendSet_general N id aP r2 h16 hid hP]
  · rw [Drv.accesses, IntPendClear_general N id aU r1 h16 hid hU]
  · rw [Drv.accesses, IntPendClear_general N id aU r2 h16 hid hU]


theorem general_line_store_independent_witness :
    (155 ≤ 156 ∧ 16 ≤ INT_UART0 ∧ INT_UART0 < 155) ∧
    ((∃ a v, (IntEnable 155 INT_UART0).accesses (fun _ => 0) = .ok [Access.store a v] ∧
      (IntEnable 155 INT_UART0).accesses (fun _ => 0xFFFFFFFF) = .ok [Access.store a v]) ∧
    (∃ a v, (IntDisable 155 INT_UART0).accesses (fun _ => 0) = .ok [Access.store a v] ∧
      (IntDisable 155 INT_UART0).accesses (fun _ => 0xFFFFFFFF) = .ok [Access.store a v]) ∧
    (∃ a v, (IntPendSet 155 INT_UART0).accesses (fun _ => 0) = .ok [Access.store a v] ∧
      (IntPendSet 155 INT_UART0).accesses (fun _ => 0xFFFFFFFF) = .ok [Access.store a v]) ∧
    (∃ a v, (IntPendClear 155 INT_UART0).accesses (fun _ => 0) = .ok [Access.store a v] ∧
      (IntPendClear 155 INT_UART0).accesses (fun _ => 0xFFFFFFFF) = .ok [Access.store a v])) :=
  ⟨by decide, general_line_store_independent 155 INT_UART0 (fun _ => 0) (fun _ => 0xFFFFFFFF)
    (by decide) (by decide) (by decide)⟩

theorem or_bit (w b : Nat) (hb : b < 32) :
    (u32 (u32 w ||| 2 ^ b)).testBit b = true ∧
    (∀ k, k < 32 → k ≠ b → (u32 (u32 w ||| 2 ^ b)).testBit k = w.testBit k) ∧
    u32 (u32 w ||| 2 ^ b) < 2 ^ 32 := by
  refine ⟨?_, ?_, Nat.mod_lt _ (by decide)⟩
  · simp [testBit_u32, Nat.testBit_or, Nat.testBit_two_pow, hb]
  · intro k hk hne
    have : ¬ b = k := fun h => hne h.symm
    simp [testBit_u32, Nat.testBit_or, Nat.testBit_two_pow, hk, this]

theorem andnot_bit (w b : Nat) (hb : b < 32) :
    (u32 (u32 w &&& not32 (2 ^ b))).testBit b = false ∧
    (∀ k, k < 32 → k ≠ b → (u32 (u32 w &&& not32 (2 ^ b))).testBit k = w.testBit k) ∧
    u32 (u32 w &&& not32 (2 ^ b)) < 2 ^ 32 := by
  refine ⟨?_, ?_, Nat.mod_lt _ (by decide)⟩
  · simp [testBit_u32, Nat.testBit_and, testBit_not32, Nat.testBit_two_pow, hb]
  · intro k hk hne
    have : ¬ b = k := fun h => hne h.symm
    simp [testBit_u32, Nat.testBit_and, testBit_not32, Nat.testBit_two_pow, hk, this]

theorem IntEnable_fault (N id a b : Nat) (r : Regs) (hid : id < N)
    (hm : (id, a, b) ∈ [(FAULT_MPU, NVIC_SYS_HND_CTRL, NVIC_SYS_HND_CTRL_MEM),
      (FAULT_BUS, NVIC_SYS_HND_CTRL, NVIC_SYS_HND_CTRL_BUS),
      (FAULT_USAGE, NVIC_SYS_HND_CTRL, NVIC_SYS_HND_CTRL_USAGE),
      (FAULT_SYSTICK, NVIC_ST_CTRL, NVIC_ST_CTRL_INTEN)]) :
    IntEnable N id r = .ok ⟨(), Function.update r a (u32 (u32 (r a) ||| b)),
      [Access.load a, Access.store a (u32 (u32 (r a) ||| b))]⟩ := by
  simp only [List.mem_cons, Prod.mk.injEq, List.mem_singleton, List.not_mem_nil, or_false] at hm
  rcases hm with ⟨h1, h2, h3⟩ | ⟨h1, h2, h3⟩ | ⟨h1, h2, h3⟩ | ⟨h1, h2, h3⟩ <;>
    subst h1 h2 h3 <;>
    simp [IntEnable, bind_run, Drv.bind, ASSERT, HWREG, HWREG_store, hid] <;>
    simp [FAULT_MPU, FAULT_BUS, FAULT_USAGE, FAULT_SYSTICK, bind_run, Drv.bind, HWREG, HWREG_store]

theorem IntDisable_fault (N id a b : Nat) (r : Regs) (hid : id < N)
    (hm : (id, a, b) ∈ [(FAULT_MPU, NVIC_SYS_HND_CTRL, NVIC_SYS_HND_CTRL_MEM),
      (FAULT_BUS, NVIC_SYS_HND_CTRL, NVIC_SYS_HND_CTRL_BUS),
      (FAULT_USAGE, NVIC_SYS_HND_CTRL, NVIC_SYS_HND_CTRL_USAGE),
      (FAULT_SYSTICK, NVIC_ST_CTRL, NVIC_ST_CTRL_INTEN)]) :
    IntDisable N id r = .ok ⟨(), Function.update r a (u32 (u32 (r a) &&& not32 b)),
      [Access.load a, Access.store a (u32 (u32 (r a) &&& not32 b))]⟩ := by
  simp only [List.mem_cons, Prod.mk.injEq, List.mem_singleton, List.not_mem_nil, or_false] at hm
  rcases hm with ⟨h1, h2, h3⟩ | ⟨h1, h2, h3⟩ | ⟨h1, h2, h3⟩ | ⟨h1, h2, h3⟩ <;>
    subst h1 h2 h3 <;>
    simp [IntDisable, bind_run, Drv.bind, ASSERT, HWREG, HWREG_store, hid] <;>
    simp [FAULT_MPU, FAULT_BUS, FAULT_USAGE, FAULT_SYSTICK, bind_run, Drv.bind, HWREG, HWREG_store]

theorem IntIsEnabled_fault (N id a b : Nat) (r : Regs) (hid : id < N)
    (hm : (id, a, b) ∈ [(FAULT_MPU, NVIC_SYS_HND_CTRL, NVIC_SYS_HND_CTRL_MEM),
      (FAULT_BUS, NVIC_SYS_HND_CTRL, NVIC_SYS_HND_CTRL_BUS),
      (FAULT_USAGE, NVIC_SYS_HND_CTRL, NVIC_SYS_HND_CTRL_USAGE),
      (FAULT_SYSTICK, NVIC_ST_CTRL, NVIC_ST_CTRL_INTEN)]) :
    IntIsEnabled N id r = .ok ⟨u32 (r a) &&& b, r, [Access.load a]⟩ := by
  simp only [List.mem_cons, Prod.mk.injEq, List.mem_singleton, List.not_mem_nil, or_false] at hm
  rcases hm with ⟨h1, h2, h3⟩ | ⟨h1, h2, h3⟩ | ⟨h1, h2, h3⟩ | ⟨h1, h2, h3⟩ <;>
    subst h1 h2 h3 <;>
    simp [IntIsEnabled, bind_run, Drv.bind, Drv.pure, ASSERT, HWREG, hid] <;>
    simp [FAULT_MPU, FAULT_BUS, FAULT_USAGE, FAULT_SYSTICK, bind_run, Drv.bind, Drv.pure, HWREG]

theorem IntIsEnabled_general (N id a : Nat) (r : Regs) (h16 : 16 ≤ id) (hid : id < N)
    (ha : g_pui32EnRegs[(id - 16) / 32]? = some a) :
    IntIsEnabled N id r = .ok ⟨u32 (r a) &&& 2 ^ ((id - 16) % 32), r, [Access.load a]⟩ := by
  have h1 : id ≠ 4 := by omega
  have h2 : id ≠ 5 := by omega
  have h3 : id ≠ 6 := by omega
  have h4 : id ≠ 15 := by omega
  simp [IntIsEnabled, bind_run, Drv.bind, Drv.pure, ASSERT, tableAt, HWREG, FAULT_MPU,
    FAULT_BUS, FAULT_USAGE, FAULT_SYSTICK, h1, h2, h3, h4, h16, hid, ha, one_bit_word]


theorem fault_mask_bit {id a m : Nat}
    (hm : (id, a, m) ∈ [(FAULT_MPU, NVIC_SYS_HND_CTRL, NVIC_SYS_HND_CTRL_MEM),
      (FAULT_BUS, NVIC_SYS_HND_CTRL, NVIC_SYS_HND_CTRL_BUS),
      (FAULT_USAGE, NVIC_SYS_HND_CTRL, NVIC_SYS_HND_CTRL_USAGE),
      (FAULT_SYSTICK, NVIC_ST_CTRL, NVIC_ST_CTRL_INTEN)]) :
    ∃ b, b < 32 ∧ m = 2 ^ b := by
  simp only [List.mem_cons, Prod.mk.injEq, List.mem_singleton, List.not_mem_nil, or_false] at hm
  rcases hm with ⟨_, _, h3⟩ | ⟨_, _, h3⟩ | ⟨_, _, h3⟩ | ⟨_, _, h3⟩
  · exact ⟨16, by decide, by rw [h3]; rfl⟩
  · exact ⟨17, by decide, by rw [h3]; rfl⟩
  · exact ⟨18, by decide, by rw [h3]; rfl⟩
  · exact ⟨1, by decide, by rw [h3]; rfl⟩

theorem ne_zero_of_testBit {v b : Nat} (h : v.testBit b = true) : v ≠ 0 := by
  intro h0
  rw [h0, Nat.zero_testBit] at h
  cases h

/-- C9. Fault-line dispatch of Enable/Disable: for (id, register, mask) one of
(FAULT_MPU, NVIC_SYS_HND_CTRL, NVIC_SYS_HND_CTRL_MEM),
(FAULT_BUS, NVIC_SYS_HND_CTRL, NVIC_SYS_HND_CTRL_BUS),
(FAULT_USAGE, NVIC_SYS_HND_CTRL, NVIC_SYS_HND_CTRL_USAGE) and
(FAULT_SYSTICK, NVIC_ST_CTRL, NVIC_ST_CTRL_INTEN), the mask is a single bit b;
IntEnable(id) sets bit b of the register and IntDisable(id) clears it, and in
both cases every other bit of that register and every other register are
unchanged. -/
theorem fault_line_dispatch (N id a m : Nat) (r : Regs) (hid : id < N)
    (hm : (id, a, m) ∈ [(FAULT_MPU, NVIC_SYS_HND_CTRL, NVIC_SYS_HND_CTRL_MEM),
      (FAULT_BUS, NVIC_SYS_HND_CTRL, NVIC_SYS_HND_CTRL_BUS),
      (FAULT_USAGE, NVIC_SYS_HND_CTRL, NVIC_SYS_HND_CTRL_USAGE),
      (FAULT_SYSTICK, NVIC_ST_CTRL, NVIC_ST_CTRL_INTEN)]) :
    ∃ b, b < 32 ∧ m = 2 ^ b ∧
      (∃ r', (IntEnable N id).exec r = .ok r' ∧
        (∀ x, x ≠ a → r' x = r x) ∧
        (r' a).testBit b = true ∧
        (∀ k, k < 32 → k ≠ b → (r' a).testBit k = (r a).testBit k) ∧
        r' a < 2 ^ 32) ∧
      (∃ r', (IntDisable N id).exec r = .ok r' ∧
        (∀ x, x ≠ a → r' x = r x) ∧
        (r' a).testBit b = false ∧
        (∀ k, k < 32 → k ≠ b → (r' a).testBit k = (r a).testBit k) ∧
        r' a < 2 ^ 32) := by
  obtain ⟨b, hb, hmb⟩ := fault_mask_bit hm
  refine ⟨b, hb, hmb, ⟨Function.update r a (u32 (u32 (r a) ||| m)), ?_, ?_, ?_⟩,
    ⟨Function.update r a (u32 (u32 (r a) &&& not32 m)), ?_, ?_, ?_⟩⟩
  · rw [Drv.exec, IntEnable_fault N id a m r hid hm]
  · intro x hx
    exact Function.update_noteq hx _ _
  · rw [Function.update_same, hmb]
    exact or_bit (r a) b hb
  · rw [Drv.exec, IntDisable_fault N id a m r hid hm]
  · intro x hx
    exact Function.update_noteq hx _ _
  · rw [Function.update_same, hmb]
    exact andnot_bit (r a) b hb

theorem fault_line_dispatch_witness :
    (FAULT_SYSTICK < 155 ∧
      (FAULT_SYSTICK, NVIC_ST_CTRL, NVIC_ST_CTRL_INTEN) ∈
        [(FAULT_MPU, NVIC_SYS_HND_CTRL, NVIC_SYS_HND_CTRL_MEM),
         (FAULT_BUS, NVIC_SYS_HND_CTRL, NVIC_SYS_HND_CTRL_BUS),
         (FAULT_USAGE, NVIC_SYS_HND_CTRL, NVIC_SYS_HND_CTRL_USAGE),
         (FAULT_SYSTICK, NVIC_ST_CTRL, NVIC_ST_CTRL_INTEN)]) ∧
    ∃ b, b < 32 ∧ NVIC_ST_CTRL_INTEN = 2 ^ b ∧
      (∃ r', (IntEnable 155 FAULT_SYSTICK).exec (fun _ => 0) = .ok r' ∧
        (∀ x, x ≠ NVIC_ST_CTRL → r' x = (fun _ => 0) x) ∧
        (r' NVIC_ST_CTRL).testBit b = true ∧
        (∀ k, k < 32 → k ≠ b →
          (r' NVIC_ST_CTRL).testBit k = ((fun _ => 0) NVIC_ST_CTRL : Nat).testBit k) ∧
        r' NVIC_ST_CTRL < 2 ^ 32) ∧
      (∃ r', (IntDisable 155 FAULT_SYSTICK).exec (fun _ => 0) = .ok r' ∧
        (∀ x, x ≠ NVIC_ST_CTRL → r' x = (fun _ => 0) x) ∧
        (r' NVIC_ST_CTRL).testBit b = false ∧
        (∀ k, k < 32 → k ≠ b →
          (r' NVIC_ST_CTRL).testBit k = ((fun _ => 0) NVIC_ST_CTRL : Nat).testBit k) ∧
        r' NVIC_ST_CTRL < 2 ^ 32) :=
  ⟨⟨by decide, by decide⟩,
    fault_line_dispatch 155 FAULT_SYSTICK NVIC_ST_CTRL NVIC_ST_CTRL_INTEN (fun _ => 0)
      (by decide) (by decide)⟩

/-! ## Enable state of the fault lines -/

theorem and_bit_congr {x y b : Nat} (h : x.testBit b = y.testBit b) :
    x &&& 2 ^ b = y &&& 2 ^ b := by
  apply Nat.eq_of_testBit_eq
  intro i
  rw [Nat.testBit_and, Nat.testBit_and, Nat.testBit_two_pow]
  by_cases hbi : b = i
  · subst hbi
    rw [h]
  · simp [hbi]

theorem fault_triple {id : Nat}
    (hc : id ∈ [FAULT_MPU, FAULT_BUS, FAULT_USAGE, FAULT_SYSTICK]) :
    ∃ a b, b < 32 ∧ (id, a, 2 ^ b) ∈ [(FAULT_MPU, NVIC_SYS_HND_CTRL, NVIC_SYS_HND_CTRL_MEM),
      (FAULT_BUS, NVIC_SYS_HND_CTRL, NVIC_SYS_HND_CTRL_BUS),
      (FAULT_USAGE, NVIC_SYS_HND_CTRL, NVIC_SYS_HND_CTRL_USAGE),
      (FAULT_SYSTICK, NVIC_ST_CTRL, NVIC_ST_CTRL_INTEN)] := by
  simp only [List.mem_cons, List.mem_singleton, List.not_mem_nil, or_false] at hc
  rcases hc with h | h | h | h
  · exact ⟨NVIC_SYS_HND_CTRL, 16, by decide, by rw [h]; decide⟩
  · exact ⟨NVIC_SYS_HND_CTRL, 17, by decide, by rw [h]; decide⟩
  · exact ⟨NVIC_SYS_HND_CTRL, 18, by decide, by rw [h]; decide⟩
  · exact ⟨NVIC_ST_CTRL, 1, by decide, by rw [h]; decide⟩

theorem fault_triple_distinct {id a b id2 a2 b2 : Nat}
    (h1 : (id, a, 2 ^ b) ∈ [(FAULT_MPU, NVIC_SYS_HND_CTRL, NVIC_SYS_HND_CTRL_MEM),
      (FAULT_BUS, NVIC_SYS_HND_CTRL, NVIC_SYS_HND_CTRL_BUS),
      (FAULT_USAGE, NVIC_SYS_HND_CTRL, NVIC_SYS_HND_CTRL_USAGE),
      (FAULT_SYSTICK, NVIC_ST_CTRL, NVIC_ST_CTRL_INTEN)])
    (h2 : (id2, a2, 2 ^ b2) ∈ [(FAULT_MPU, NVIC_SYS_HND_CTRL, NVIC_SYS_HND_CTRL_MEM),
      (FAULT_BUS, NVIC_SYS_HND_CTRL, NVIC_SYS_HND_CTRL_BUS),
      (FAULT_USAGE, NVIC_SYS_HND_CTRL, NVIC_SYS_HND_CTRL_USAGE),
      (FAULT_SYSTICK, NVIC_ST_CTRL, NVIC_ST_CTRL_INTEN)])
    (hne : id2 ≠ id) : a2 ≠ a ∨ b2 ≠ b := by
  by_cases ha : a2 = a
  · right
    intro hb
    subst ha hb
    simp only [List.mem_cons, Prod.mk.injEq, List.mem_singleton, List.not_mem_nil,
      or_false] at h1 h2
    rcases h1 with ⟨i1, a1, m1⟩ | ⟨i1, a1, m1⟩ | ⟨i1, a1, m1⟩ | ⟨i1, a1, m1⟩ <;>
      rcases h2 with ⟨i2, _, m2⟩ | ⟨i2, _, m2⟩ | ⟨i2, _, m2⟩ | ⟨i2, _, m2⟩ <;>
      first
        | exact hne (i2.trans i1.symm)
        | (rw [m1] at m2; revert m2; decide)
  · exact Or.inl ha

/-- C10. IsEnabled mirrors Enable: for every register file and every id below
N that is FAULT_MPU, FAULT_BUS, FAULT_USAGE, FAULT_SYSTICK or at least 16,
there are a register a and a bit b (entry (id-16)/32 of g_pui32EnRegs and bit
(id-16) mod 32 for a general line, the dedicated register and mask bit for a
fault line) such that IntEnable(id) completes with a single store, to a, of a
word with bit b set, preceded at most by a load of a; IntIsEnabled(id), on
every register file, performs one load of a and returns the content of a
masked with bit b; so IntIsEnabled(id), evaluated on the register file
IntEnable(id) leaves, returns the non-zero value 2^b. -/
theorem enable_then_is_enabled (N id : Nat) (r : Regs) (hN : N ≤ 156) (hid : id < N)
    (hc : id = FAULT_MPU ∨ id = FAULT_BUS ∨ id = FAULT_USAGE ∨ id = FAULT_SYSTICK ∨ 16 ≤ id) :
    ∃ a b w, b < 32 ∧
      (16 ≤ id → g_pui32EnRegs[(id - 16) / 32]? = some a ∧ b = (id - 16) % 32) ∧
      (id < 16 → (id, a, 2 ^ b) ∈ [(FAULT_MPU, NVIC_SYS_HND_CTRL, NVIC_SYS_HND_CTRL_MEM),
        (FAULT_BUS, NVIC_SYS_HND_CTRL, NVIC_SYS_HND_CTRL_BUS),
        (FAULT_USAGE, NVIC_SYS_HND_CTRL, NVIC_SYS_HND_CTRL_USAGE),
        (FAULT_SYSTICK, NVIC_ST_CTRL, NVIC_ST_CTRL_INTEN)]) ∧
      (∃ t, (t = [] ∨ t = [Access.load a]) ∧
        IntEnable N id r = .ok ⟨(), Function.update r a w, t ++ [Access.store a w]⟩) ∧
      w.testBit b = true ∧ w < 2 ^ 32 ∧
      (∀ r2 : Regs,
        IntIsEnabled N id r2 = .ok ⟨u32 (r2 a) &&& 2 ^ b, r2, [Access.load a]⟩) ∧
      ∃ r' v, (IntEnable N id).exec r = .ok r' ∧ (IntIsEnabled N id).eval r' = .ok v ∧
        v = 2 ^ b ∧ v ≠ 0 := by
  have readback : ∀ a b w : Nat, b < 32 → w.testBit b = true →
      u32 (Function.update r a w a) &&& 2 ^ b = 2 ^ b := by
    intro a b w hb hw
    rw [Function.update_same]
    have h : (u32 w).testBit b = (2 ^ b).testBit b := by
      rw [testBit_u32, hw, Nat.testBit_two_pow_self]
      simp [hb]
    rw [and_bit_congr h, Nat.and_self]
  by_cases h16 : 16 ≤ id
  · obtain ⟨a, ha⟩ := bank_lookup g_pui32EnRegs rfl hN hid
    have hk : (id - 16) % 32 < 32 := Nat.mod_lt _ (by decide)
    have hw : (2 ^ ((id - 16) % 32)).testBit ((id - 16) % 32) = true :=
      Nat.testBit_two_pow_self
    refine ⟨a, (id - 16) % 32, 2 ^ ((id - 16) % 32), hk, fun _ => ⟨ha, rfl⟩,
      fun h => absurd h16 (by omega), ⟨[], Or.inl rfl, ?_⟩, hw,
      Nat.pow_lt_pow_right (by decide) hk,
      fun r2 => IntIsEnabled_general N id a r2 h16 hid ha,
      Function.update r a (2 ^ ((id - 16) % 32)), 2 ^ ((id - 16) % 32), ?_, ?_, rfl,
      Nat.pos_iff_ne_zero.mp (Nat.pow_pos (by decide))⟩
    · rw [IntEnable_general N id a r h16 hid ha]
      rfl
    · rw [Drv.exec, IntEnable_general N id a r h16 hid ha]
    · rw [Drv.eval, IntIsEnabled_general N id a _ h16 hid ha, readback a _ _ hk hw]
  · have hmem : id ∈ [FAULT_MPU, FAULT_BUS, FAULT_USAGE, FAULT_SYSTICK] := by
      simp only [List.mem_cons, List.mem_singleton, List.not_mem_nil, or_false]
      rcases hc with h | h | h | h | h
      · exact Or.inl h
      · exact Or.inr (Or.inl h)
      · exact Or.inr (Or.inr (Or.inl h))
      · exact Or.inr (Or.inr (Or.inr h))
      · exact absurd h h16
    obtain ⟨a, b, hb, hm⟩ := fault_triple hmem
    have hor := or_bit (r a) b hb
    refine ⟨a, b, u32 (u32 (r a) ||| 2 ^ b), hb, fun h => absurd h h16, fun _ => hm,
      ⟨[Access.load a], Or.inr rfl, ?_⟩, hor.1, hor.2.2,
      fun r2 => IntIsEnabled_fault N id a (2 ^ b) r2 hid hm,
      Function.update r a (u32 (u32 (r a) ||| 2 ^ b)), 2 ^ b, ?_, ?_, rfl,
      Nat.pos_iff_ne_zero.mp (Nat.pow_pos (by decide))⟩
    · rw [IntEnable_fault N id a (2 ^ b) r hid hm]
      rfl
    · rw [Drv.exec, IntEnable_fault N id a (2 ^ b) r hid hm]
    · rw [Drv.eval, IntIsEnabled_fault N id a (2 ^ b) _ hid hm, readback a b _ hb hor.1]

theorem enable_then_is_enabled_witness :
    (155 ≤ 156 ∧ INT_UART0 < 155 ∧
      (INT_UART0 = FAULT_MPU ∨ INT_UART0 = FAULT_BUS ∨ INT_UART0 = FAULT_USAGE ∨
        INT_UART0 = FAULT_SYSTICK ∨ 16 ≤ INT_UART0)) ∧
    ∃ a b w, b < 32 ∧
      (16 ≤ INT_UART0 → g_pui32EnRegs[(INT_UART0 - 16) / 32]? = some a ∧
        b = (INT_UART0 - 16) % 32) ∧
      (INT_UART0 < 16 →
        (INT_UART0, a, 2 ^ b) ∈ [(FAULT_MPU, NVIC_SYS_HND_CTRL, NVIC_SYS_HND_CTRL_MEM),
        (FAULT_BUS, NVIC_SYS_HND_CTRL, NVIC_SYS_HND_CTRL_BUS),
        (FAULT_USAGE, NVIC_SYS_HND_CTRL, NVIC_SYS_HND_CTRL_USAGE),
        (FAULT_SYSTICK, NVIC_ST_CTRL, NVIC_ST_CTRL_INTEN)]) ∧
      (∃ t, (t = [] ∨ t = [Access.load a]) ∧
        IntEnable 155 INT_UART0 (fun _ => 0) =
          .ok ⟨(), Function.update (fun _ => 0) a w, t ++ [Access.store a w]⟩) ∧
      w.testBit b = true ∧ w < 2 ^ 32 ∧
      (∀ r2 : Regs,
        IntIsEnabled 155 INT_UART0 r2 = .ok ⟨u32 (r2 a) &&& 2 ^ b, r2, [Access.load a]⟩) ∧
      ∃ r' v, (IntEnable 155 INT_UART0).exec (fun _ => 0) = .ok r' ∧
        (IntIsEnabled 155 INT_UART0).eval r' = .ok v ∧ v = 2 ^ b ∧ v ≠ 0 :=
  ⟨by decide, enable_then_is_enabled 155 INT_UART0 (fun _ => 0) (by decide) (by decide)
    (by decide)⟩

/-- C11. IsEnabled mirrors Disable for the read-modify-write faults: for id
one of FAULT_MPU, FAULT_BUS, FAULT_USAGE, FAULT_SYSTICK (below N),
IntDisable(id) completes, IntIsEnabled(id) on the register file it leaves
returns 0, and IntIsEnabled(id2) returns the same value as before for every
other id2 of that set. -/
theorem disable_then_is_enabled (N id : Nat) (r : Regs) (hid : id < N)
    (hc : id ∈ [FAULT_MPU, FAULT_BUS, FAULT_USAGE, FAULT_SYSTICK]) :
    ∃ r', (IntDisable N id).exec r = .ok r' ∧
      (IntIsEnabled N id).eval r' = .ok 0 ∧
      ∀ id2, id2 ∈ [FAULT_MPU, FAULT_BUS, FAULT_USAGE, FAULT_SYSTICK] → id2 ≠ id → id2 < N →
        ∃ v, (IntIsEnabled N id2).eval r' = .ok v ∧ (IntIsEnabled N id2).eval r = .ok v := by
  obtain ⟨a, b, hb, hm⟩ := fault_triple hc
  refine ⟨Function.update r a (u32 (u32 (r a) &&& not32 (2 ^ b))), ?_, ?_, ?_⟩
  · rw [Drv.exec, IntDisable_fault N id a (2 ^ b) r hid hm]
  · rw [Drv.eval, IntIsEnabled_fault N id a (2 ^ b) _ hid hm, Function.update_same]
    have h0 : (u32 (u32 (u32 (r a) &&& not32 (2 ^ b)))).testBit b = (0 : Nat).testBit b := by
      rw [testBit_u32, (andnot_bit (r a) b hb).1, Nat.zero_testBit]
      simp
    simp only [and_bit_congr h0, Nat.zero_and]
  · intro id2 hc2 hne hid2
    obtain ⟨a2, b2, hb2, hm2⟩ := fault_triple hc2
    have hv : u32 (Function.update r a (u32 (u32 (r a) &&& not32 (2 ^ b))) a2) &&& 2 ^ b2
        = u32 (r a2) &&& 2 ^ b2 := by
      rcases fault_triple_distinct hm hm2 hne with ha | hbb
      · rw [Function.update_noteq ha]
      · by_cases ha : a2 = a
        · subst ha
          rw [Function.update_same]
          apply and_bit_congr
          rw [testBit_u32, (andnot_bit (r a2) b hb).2.1 b2 hb2 hbb, testBit_u32]
        · rw [Function.update_noteq ha]
    refine ⟨u32 (r a2) &&& 2 ^ b2, ?_, ?_⟩
    · rw [Drv.eval, IntIsEnabled_fault N id2 a2 (2 ^ b2) _ hid2 hm2, hv]
    · rw [Drv.eval, IntIsEnabled_fault N id2 a2 (2 ^ b2) _ hid2 hm2]

theorem disable_then_is_enabled_witness :
    (FAULT_BUS < 155 ∧ FAULT_BUS ∈ [FAULT_MPU, FAULT_BUS, FAULT_USAGE, FAULT_SYSTICK]) ∧
    ∃ r', (IntDisable 155 FAULT_BUS).exec (fun _ => 0xFFFFFFFF) = .ok r' ∧
      (IntIsEnabled 155 FAULT_BUS).eval r' = .ok 0 ∧
      ∀ id2, id2 ∈ [FAULT_MPU, FAULT_BUS, FAULT_USAGE, FAULT_SYSTICK] → id2 ≠ FAULT_BUS →
        id2 < 155 →
        ∃ v, (IntIsEnabled 155 id2).eval r' = .ok v ∧
          (IntIsEnabled 155 id2).eval (fun _ => 0xFFFFFFFF) = .ok v :=
  ⟨by decide, disable_then_is_enabled 155 FAULT_BUS (fun _ => 0xFFFFFFFF) (by decide)
    (by decide)⟩

/-! ## System identifiers below 16 -/

theorem IntEnable_noop (N id : Nat) (r : Regs) (hid : id < N) (h16 : id < 16)
    (hn : id ∉ [FAULT_MPU, FAULT_BUS, FAULT_USAGE, FAULT_SYSTICK]) :
    IntEnable N id r = .ok ⟨(), r, []⟩ := by
  simp only [List.mem_cons, List.mem_singleton, List.not_mem_nil, or_false, not_or] at hn
  obtain ⟨h1, h2, h3, h4⟩ := hn
  have h5 : ¬ 16 ≤ id := by omega
  simp [IntEnable, bind_run, Drv.bind, Drv.pure, ASSERT, hid, h1, h2, h3, h4, h5]

theorem IntDisable_noop (N id : Nat) (r : Regs) (hid : id < N) (h16 : id < 16)
    (hn : id ∉ [FAULT_MPU, FAULT_BUS, FAULT_USAGE, FAULT_SYSTICK]) :
    IntDisable N id r = .ok ⟨(), r, []⟩ := by
  simp only [List.mem_cons, List.mem_singleton, List.not_mem_nil, or_false, not_or] at hn
  obtain ⟨h1, h2, h3, h4⟩ := hn
  have h5 : ¬ 16 ≤ id := by omega
  simp [IntDisable, bind_run, Drv.bind, Drv.pure, ASSERT, hid, h1, h2, h3, h4, h5]

theorem IntIsEnabled_noop (N id : Nat) (r : Regs) (hid : id < N) (h16 : id < 16)
    (hn : id ∉ [FAULT_MPU, FAULT_BUS, FAULT_USAGE, FAULT_SYSTICK]) :
    IntIsEnabled N id r = .ok ⟨0, r, []⟩ := by
  simp only [List.mem_cons, List.mem_singleton, List.not_mem_nil, or_false, not_or] at hn
  obtain ⟨h1, h2, h3, h4⟩ := hn
  have h5 : ¬ 16 ≤ id := by omega
  simp [IntIsEnabled, bind_run, Drv.bind, Drv.pure, ASSERT, hid, h1, h2, h3, h4, h5]

theorem IntPendSet_noop (N id : Nat) (r : Regs) (hid : id < N) (h16 : id < 16)
    (hn : id ∉ [FAULT_NMI, FAULT_PENDSV, FAULT_SYSTICK]) :
    IntPendSet N id r = .ok ⟨(), r, []⟩ := by
  simp only [List.mem_cons, List.mem_singleton, List.not_mem_nil, or_false, not_or] at hn
  obtain ⟨h1, h2, h3⟩ := hn
  have h5 : ¬ 16 ≤ id := by omega
  simp [IntPendSet, bind_run, Drv.bind, Drv.pure, ASSERT, hid, h1, h2, h3, h5]

theorem IntPendClear_noop (N id : Nat) (r : Regs) (hid : id < N) (h16 : id < 16)
    (hn : id ∉ [FAULT_PENDSV, FAULT_SYSTICK]) :
    IntPendClear N id r = .ok ⟨(), r, []⟩ := by
  simp only [List.mem_cons, List.mem_singleton, List.not_mem_nil, or_false, not_or] at hn
  obtain ⟨h1, h2⟩ := hn
  have h5 : ¬ 16 ≤ id := by omega
  simp [IntPendClear, bind_run, Drv.bind, Drv.pure, ASSERT, hid, h1, h2, h5]

theorem IntPendSet_fault (N id m : Nat) (r : Regs) (hid : id < N)
    (hm : (id, m) ∈ [(FAULT_NMI, NVIC_INT_CTRL_NMI_SET), (FAULT_PENDSV, NVIC_INT_CTRL_PEND_SV),
      (FAULT_SYSTICK, NVIC_INT_CTRL_PENDSTSET)]) :
    IntPendSet N id r = .ok ⟨(), Function.update r NVIC_INT_CTRL (u32 (u32 (r NVIC_INT_CTRL) ||| m)),
      [Access.load NVIC_INT_CTRL,
       Access.store NVIC_INT_CTRL (u32 (u32 (r NVIC_INT_CTRL) ||| m))]⟩ := by
  simp only [List.mem_cons, Prod.mk.injEq, List.mem_singleton, List.not_mem_nil, or_false] at hm
  rcases hm with ⟨h1, h2⟩ | ⟨h1, h2⟩ | ⟨h1, h2⟩ <;>
    subst h1 h2 <;>
    simp [IntPendSet, bind_run, Drv.bind, ASSERT, HWREG, HWREG_store, hid] <;>
    simp [FAULT_NMI, FAULT_PENDSV, FAULT_SYSTICK, bind_run, Drv.bind, HWREG, HWREG_store]

theorem IntPendClear_fault (N id m : Nat) (r : Regs) (hid : id < N)
    (hm : (id, m) ∈ [(FAULT_PENDSV, NVIC_INT_CTRL_UNPEND_SV),
      (FAULT_SYSTICK, NVIC_INT_CTRL_PENDSTCLR)]) :
    IntPendClear N id r = .ok ⟨(), Function.update r NVIC_INT_CTRL (u32 (u32 (r NVIC_INT_CTRL) ||| m)),
      [Access.load NVIC_INT_CTRL,
       Access.store NVIC_INT_CTRL (u32 (u32 (r NVIC_INT_CTRL) ||| m))]⟩ := by
  simp only [List.mem_cons, Prod.mk.injEq, List.mem_singleton, List.not_mem_nil, or_false] at hm
  rcases hm with ⟨h1, h2⟩ | ⟨h1, h2⟩
  · subst h1 h2
    simp [IntPendClear, bind_run, Drv.bind, ASSERT, HWREG, HWREG_store, hid]
  · subst h1 h2
    simp [IntPendClear, bind_run, Drv.bind, ASSERT, HWREG, HWREG_store, hid]
    simp [FAULT_PENDSV, FAULT_SYSTICK, bind_run, Drv.bind, HWREG, HWREG_store]

/-- C12. Unnamed system identifiers are a silent no-op: for every register file
and every id in 4..15 (below N) that is not FAULT_MPU, FAULT_BUS, FAULT_USAGE,
FAULT_SYSTICK, FAULT_NMI or FAULT_PENDSV, the calls IntEnable(id),
IntDisable(id), IntPendSet(id) and IntPendClear(id) complete without any
access and leave the register file unchanged, and IntIsEnabled(id) returns 0
without any access. -/
theorem unnamed_system_id_noop (N id : Nat) (r : Regs) (hid : id < N)
    (hr : 4 ≤ id ∧ id ≤ 15)
    (hn : id ∉ [FAULT_MPU, FAULT_BUS, FAULT_USAGE, FAULT_SYSTICK, FAULT_NMI, FAULT_PENDSV]) :
    IntEnable N id r = .ok ⟨(), r, []⟩ ∧
    IntDisable N id r = .ok ⟨(), r, []⟩ ∧
    IntPendSet N id r = .ok ⟨(), r, []⟩ ∧
    IntPendClear N id r = .ok ⟨(), r, []⟩ ∧
    IntIsEnabled N id r = .ok ⟨0, r, []⟩ := by
  have h16 : id < 16 := by omega
  simp only [List.mem_cons, List.mem_singleton, List.not_mem_nil, or_false, not_or] at hn
  obtain ⟨h1, h2, h3, h4, h5, h6⟩ := hn
  have hE : id ∉ [FAULT_MPU, FAULT_BUS, FAULT_USAGE, FAULT_SYSTICK] := by
    simp [h1, h2, h3, h4]
  have hP : id ∉ [FAULT_NMI, FAULT_PENDSV, FAULT_SYSTICK] := by
    simp [h4, h5, h6]
  have hC : id ∉ [FAULT_PENDSV, FAULT_SYSTICK] := by
    simp [h4, h6]
  exact ⟨IntEnable_noop N id r hid h16 hE, IntDisable_noop N id r hid h16 hE,
    IntPendSet_noop N id r hid h16 hP, IntPendClear_noop N id r hid h16 hC,
    IntIsEnabled_noop N id r hid h16 hE⟩

theorem unnamed_system_id_noop_witness :
    (FAULT_SVCALL < 155 ∧ (4 ≤ FAULT_SVCALL ∧ FAULT_SVCALL ≤ 15) ∧
      FAULT_SVCALL ∉
        [FAULT_MPU, FAULT_BUS, FAULT_USAGE, FAULT_SYSTICK, FAULT_NMI, FAULT_PENDSV]) ∧
    (IntEnable 155 FAULT_SVCALL (fun _ => 0) = .ok ⟨(), fun _ => 0, []⟩ ∧
    IntDisable 155 FAULT_SVCALL (fun _ => 0) = .ok ⟨(), fun _ => 0, []⟩ ∧
    IntPendSet 155 FAULT_SVCALL (fun _ => 0) = .ok ⟨(), fun _ => 0, []⟩ ∧
    IntPendClear 155 FAULT_SVCALL (fun _ => 0) = .ok ⟨(), fun _ => 0, []⟩ ∧
    IntIsEnabled 155 FAULT_SVCALL (fun _ => 0) = .ok ⟨0, fun _ => 0, []⟩) :=
  ⟨by decide, unnamed_system_id_noop 155 FAULT_SVCALL (fun _ => 0) (by decide) (by decide)
    (by decide)⟩

/-- C13, counterexample. The identifier 2 is FAULT_NMI, which is below 4, and
IntPendSet(2) on the all-zero register file performs a load and a store on
NVIC_INT_CTRL and leaves 0x80000000 there: the register file changes. -/
theorem reserved_id_counterexample :
    FAULT_NMI = 2 ∧ ¬ (4 ≤ FAULT_NMI ∧ FAULT_NMI ≤ 15) ∧
    ∃ r', (IntPendSet 155 2).exec (fun _ => 0) = .ok r' ∧
      (IntPendSet 155 2).accesses (fun _ => 0) =
        .ok [Access.load NVIC_INT_CTRL, Access.store NVIC_INT_CTRL 0x80000000] ∧
      r' NVIC_INT_CTRL = 0x80000000 ∧ r' ≠ (fun _ => 0) := by
  have hrun := IntPendSet_fault 155 2 NVIC_INT_CTRL_NMI_SET (fun _ => 0) (by decide) (by decide)
  have hv : u32 (u32 ((fun _ => 0 : Regs) NVIC_INT_CTRL) ||| NVIC_INT_CTRL_NMI_SET)
      = 0x80000000 := by decide
  rw [hv] at hrun
  refine ⟨rfl, by decide, Function.update (fun _ => 0) NVIC_INT_CTRL 0x80000000, ?_, ?_, ?_, ?_⟩
  · rw [Drv.exec, hrun]
  · rw [Drv.accesses, hrun]
  · rw [Function.update_same]
  · intro h
    have h2 := congrFun h NVIC_INT_CTRL
    rw [Function.update_same] at h2
    exact absurd h2 (by decide)

/-- C13, amended. For every register file and every id in 0..3 (below N),
IntEnable(id), IntDisable(id) and IntPendClear(id) complete without any access
and leave the register file unchanged, and IntIsEnabled(id) returns 0; so does
IntPendSet(id) for id other than 2. The identifier 2 is FAULT_NMI:
IntPendSet(2) sets bit 31 (NVIC_INT_CTRL_NMI_SET) of NVIC_INT_CTRL and changes
no other bit and no other register. The other five named faults have
identifiers in 4..15. -/
theorem reserved_id_behaviour (N id : Nat) (r : Regs) (hid : id < N) (h3 : id ≤ 3) :
    IntEnable N id r = .ok ⟨(), r, []⟩ ∧
    IntDisable N id r = .ok ⟨(), r, []⟩ ∧
    IntPendClear N id r = .ok ⟨(), r, []⟩ ∧
    IntIsEnabled N id r = .ok ⟨0, r, []⟩ ∧
    (id ≠ 2 → IntPendSet N id r = .ok ⟨(), r, []⟩) ∧
    (id = 2 → ∃ r', (IntPendSet N id).exec r = .ok r' ∧
      (∀ x, x ≠ NVIC_INT_CTRL → r' x = r x) ∧
      (r' NVIC_INT_CTRL).testBit 31 = true ∧
      (∀ k, k < 32 → k ≠ 31 → (r' NVIC_INT_CTRL).testBit k = (r NVIC_INT_CTRL).testBit k)) ∧
    FAULT_NMI = 2 ∧ NVIC_INT_CTRL_NMI_SET = 2 ^ 31 ∧
    (∀ f, f ∈ [FAULT_MPU, FAULT_BUS, FAULT_USAGE, FAULT_SYSTICK, FAULT_PENDSV] →
      4 ≤ f ∧ f ≤ 15) := by
  have h16 : id < 16 := by omega
  have hE : id ∉ [FAULT_MPU, FAULT_BUS, FAULT_USAGE, FAULT_SYSTICK] := by
    simp [FAULT_MPU, FAULT_BUS, FAULT_USAGE, FAULT_SYSTICK]
    omega
  have hC : id ∉ [FAULT_PENDSV, FAULT_SYSTICK] := by
    simp [FAULT_PENDSV, FAULT_SYSTICK]
    omega
  refine ⟨IntEnable_noop N id r hid h16 hE, IntDisable_noop N id r hid h16 hE,
    IntPendClear_noop N id r hid h16 hC, IntIsEnabled_noop N id r hid h16 hE, ?_, ?_, rfl, rfl,
    by decide⟩
  · intro hne
    have hP : id ∉ [FAULT_NMI, FAULT_PENDSV, FAULT_SYSTICK] := by
      simp [FAULT_NMI, FAULT_PENDSV, FAULT_SYSTICK]
      omega
    exact IntPendSet_noop N id r hid h16 hP
  · intro h2
    subst h2
    have hm : NVIC_INT_CTRL_NMI_SET = 2 ^ 31 := rfl
    refine ⟨Function.update r NVIC_INT_CTRL (u32 (u32 (r NVIC_INT_CTRL) ||| 2 ^ 31)), ?_, ?_, ?_, ?_⟩
    · rw [Drv.exec, IntPendSet_fault N 2 NVIC_INT_CTRL_NMI_SET r hid (by decide), hm]
    · intro x hx
      exact Function.update_noteq hx _ _
    · rw [Function.update_same]
      exact (or_bit (r NVIC_INT_CTRL) 31 (by decide)).1
    · rw [Function.update_same]
      exact (or_bit (r NVIC_INT_CTRL) 31 (by decide)).2.1

theorem reserved_id_behaviour_witness :
    (2 < 155 ∧ 2 ≤ 3) ∧
    (IntEnable 155 2 (fun _ => 0) = .ok ⟨(), fun _ => 0, []⟩ ∧
    IntDisable 155 2 (fun _ => 0) = .ok ⟨(), fun _ => 0, []⟩ ∧
    IntPendClear 155 2 (fun _ => 0) = .ok ⟨(), fun _ => 0, []⟩ ∧
    IntIsEnabled 155 2 (fun _ => 0) = .ok ⟨0, fun _ => 0, []⟩ ∧
    (2 ≠ 2 → IntPendSet 155 2 (fun _ => 0) = .ok ⟨(), fun _ => 0, []⟩) ∧
    (2 = 2 → ∃ r', (IntPendSet 155 2).exec (fun _ => 0) = .ok r' ∧
      (∀ x, x ≠ NVIC_INT_CTRL → r' x = (fun _ => 0) x) ∧
      (r' NVIC_INT_CTRL).testBit 31 = true ∧
      (∀ k, k < 32 → k ≠ 31 →
        (r' NVIC_INT_CTRL).testBit k = ((fun _ => 0) NVIC_INT_CTRL : Nat).testBit k)) ∧
    FAULT_NMI = 2 ∧ NVIC_INT_CTRL_NMI_SET = 2 ^ 31 ∧
    (∀ f, f ∈ [FAULT_MPU, FAULT_BUS, FAULT_USAGE, FAULT_SYSTICK, FAULT_PENDSV] →
      4 ≤ f ∧ f ≤ 15)) :=
  ⟨by decide, reserved_id_behaviour 155 2 (fun _ => 0) (by decide) (by decide)⟩

theorem pend_set_mask_bit {id m : Nat}
    (hm : (id, m) ∈ [(FAULT_NMI, NVIC_INT_CTRL_NMI_SET), (FAULT_PENDSV, NVIC_INT_CTRL_PEND_SV),
      (FAULT_SYSTICK, NVIC_INT_CTRL_PENDSTSET)]) :
    ∃ b, b < 32 ∧ m = 2 ^ b := by
  simp only [List.mem_cons, Prod.mk.injEq, List.mem_singleton, List.not_mem_nil, or_false] at hm
  rcases hm with ⟨_, h⟩ | ⟨_, h⟩ | ⟨_, h⟩
  · exact ⟨31, by decide, by rw [h]; rfl⟩
  · exact ⟨28, by decide, by rw [h]; rfl⟩
  · exact ⟨26, by decide, by rw [h]; rfl⟩

theorem pend_clear_mask_bit {id m : Nat}
    (hm : (id, m) ∈ [(FAULT_PENDSV, NVIC_INT_CTRL_UNPEND_SV),
      (FAULT_SYSTICK, NVIC_INT_CTRL_PENDSTCLR)]) :
    ∃ b, b < 32 ∧ m = 2 ^ b := by
  simp only [List.mem_cons, Prod.mk.injEq, List.mem_singleton, List.not_mem_nil, or_false] at hm
  rcases hm with ⟨_, h⟩ | ⟨_, h⟩
  · exact ⟨27, by decide, by rw [h]; rfl⟩
  · exact ⟨25, by decide, by rw [h]; rfl⟩

/-- C14. PendSet dispatch: for (id, mask) one of
(FAULT_NMI, NVIC_INT_CTRL_NMI_SET), (FAULT_PENDSV, NVIC_INT_CTRL_PEND_SV) and
(FAULT_SYSTICK, NVIC_INT_CTRL_PENDSTSET), the mask is a single bit b and
IntPendSet(id) sets bit b of NVIC_INT_CTRL, leaving every other bit of
NVIC_INT_CTRL and every other register unchanged; the three masks are pairwise
distinct; for every other id below 16, IntPendSet(id) performs no access and
changes nothing. -/
theorem pend_set_dispatch (N id : Nat) (r : Regs) (hid : id < N) (h16 : id < 16) :
    (∀ m, (id, m) ∈ [(FAULT_NMI, NVIC_INT_CTRL_NMI_SET), (FAULT_PENDSV, NVIC_INT_CTRL_PEND_SV),
        (FAULT_SYSTICK, NVIC_INT_CTRL_PENDSTSET)] →
      ∃ b, b < 32 ∧ m = 2 ^ b ∧
        ∃ r', (IntPendSet N id).exec r = .ok r' ∧
          (∀ x, x ≠ NVIC_INT_CTRL → r' x = r x) ∧
          (r' NVIC_INT_CTRL).testBit b = true ∧
          (∀ k, k < 32 → k ≠ b →
            (r' NVIC_INT_CTRL).testBit k = (r NVIC_INT_CTRL).testBit k) ∧
          r' NVIC_INT_CTRL < 2 ^ 32) ∧
    (id ∉ [FAULT_NMI, FAULT_PENDSV, FAULT_SYSTICK] → IntPendSet N id r = .ok ⟨(), r, []⟩) ∧
    (NVIC_INT_CTRL_NMI_SET ≠ NVIC_INT_CTRL_PEND_SV ∧
      NVIC_INT_CTRL_NMI_SET ≠ NVIC_INT_CTRL_PENDSTSET ∧
      NVIC_INT_CTRL_PEND_SV ≠ NVIC_INT_CTRL_PENDSTSET) := by
  refine ⟨?_, fun hn => IntPendSet_noop N id r hid h16 hn, by decide⟩
  intro m hm
  obtain ⟨b, hb, hmb⟩ := pend_set_mask_bit hm
  refine ⟨b, hb, hmb, Function.update r NVIC_INT_CTRL (u32 (u32 (r NVIC_INT_CTRL) ||| m)),
    ?_, ?_, ?_⟩
  · rw [Drv.exec, IntPendSet_fault N id m r hid hm]
  · intro x hx
    exact Function.update_noteq hx _ _
  · rw [Function.update_same, hmb]
    exact or_bit (r NVIC_INT_CTRL) b hb

theorem pend_set_dispatch_witness :
    (FAULT_PENDSV < 155 ∧ FAULT_PENDSV < 16) ∧
    ((∀ m, (FAULT_PENDSV, m) ∈ [(FAULT_NMI, NVIC_INT_CTRL_NMI_SET),
        (FAULT_PENDSV, NVIC_INT_CTRL_PEND_SV), (FAULT_SYSTICK, NVIC_INT_CTRL_PENDSTSET)] →
      ∃ b, b < 32 ∧ m = 2 ^ b ∧
        ∃ r', (IntPendSet 155 FAULT_PENDSV).exec (fun _ => 0) = .ok r' ∧
          (∀ x, x ≠ NVIC_INT_CTRL → r' x = (fun _ => 0) x) ∧
          (r' NVIC_INT_CTRL).testBit b = true ∧
          (∀ k, k < 32 → k ≠ b →
            (r' NVIC_INT_CTRL).testBit k = ((fun _ => 0) NVIC_INT_CTRL : Nat).testBit k) ∧
          r' NVIC_INT_CTRL < 2 ^ 32) ∧
    (FAULT_PENDSV ∉ [FAULT_NMI, FAULT_PENDSV, FAULT_SYSTICK] →
      IntPendSet 155 FAULT_PENDSV (fun _ => 0) = .ok ⟨(), fun _ => 0, []⟩) ∧
    (NVIC_INT_CTRL_NMI_SET ≠ NVIC_INT_CTRL_PEND_SV ∧
      NVIC_INT_CTRL_NMI_SET ≠ NVIC_INT_CTRL_PENDSTSET ∧
      NVIC_INT_CTRL_PEND_SV ≠ NVIC_INT_CTRL_PENDSTSET)) :=
  ⟨by decide, pend_set_dispatch 155 FAULT_PENDSV (fun _ => 0) (by decide) (by decide)⟩

/-- C15, counterexample. IntPendClear(FAULT_NMI) on the all-zero register file
performs no access and leaves the register file all zero: no un-pend bit is
written for the NMI. -/
theorem pend_clear_nmi_counterexample :
    (IntPendClear 155 FAULT_NMI).exec (fun _ => 0) = .ok (fun _ => 0) ∧
    (IntPendClear 155 FAULT_NMI).accesses (fun _ => 0) = .ok [] := by
  have hrun := IntPendClear_noop 155 FAULT_NMI (fun _ => 0) (by decide) (by decide) (by decide)
  constructor
  · rw [Drv.exec, hrun]
  · rw [Drv.accesses, hrun]

/-- C15, amended. PendClear dispatch: for (id, mask) one of
(FAULT_PENDSV, NVIC_INT_CTRL_UNPEND_SV) and
(FAULT_SYSTICK, NVIC_INT_CTRL_PENDSTCLR), the mask is a single bit b and
IntPendClear(id) sets bit b of NVIC_INT_CTRL (so the register file changes
whenever that bit was clear), leaving every other bit of NVIC_INT_CTRL and
every other register unchanged; for every other id below 16, FAULT_NMI
included, IntPendClear(id) performs no access and changes nothing. -/
theorem pend_clear_dispatch (N id : Nat) (r : Regs) (hid : id < N) (h16 : id < 16) :
    (∀ m, (id, m) ∈ [(FAULT_PENDSV, NVIC_INT_CTRL_UNPEND_SV),
        (FAULT_SYSTICK, NVIC_INT_CTRL_PENDSTCLR)] →
      ∃ b, b < 32 ∧ m = 2 ^ b ∧
        ∃ r', (IntPendClear N id).exec r = .ok r' ∧
          (∀ x, x ≠ NVIC_INT_CTRL → r' x = r x) ∧
          (r' NVIC_INT_CTRL).testBit b = true ∧
          (∀ k, k < 32 → k ≠ b →
            (r' NVIC_INT_CTRL).testBit k = (r NVIC_INT_CTRL).testBit k) ∧
          r' NVIC_INT_CTRL < 2 ^ 32 ∧
          ((r NVIC_INT_CTRL).testBit b = false → r' ≠ r)) ∧
    (id ∉ [FAULT_PENDSV, FAULT_SYSTICK] → IntPendClear N id r = .ok ⟨(), r, []⟩) ∧
    (id = FAULT_NMI → IntPendClear N id r = .ok ⟨(), r, []⟩) ∧
    NVIC_INT_CTRL_UNPEND_SV ≠ NVIC_INT_CTRL_PENDSTCLR := by
  refine ⟨?_, fun hn => IntPendClear_noop N id r hid h16 hn, ?_, by decide⟩
  · intro m hm
    obtain ⟨b, hb, hmb⟩ := pend_clear_mask_bit hm
    have hor := or_bit (r NVIC_INT_CTRL) b hb
    refine ⟨b, hb, hmb, Function.update r NVIC_INT_CTRL (u32 (u32 (r NVIC_INT_CTRL) ||| m)),
      ?_, ?_, ?_, ?_, ?_, ?_⟩
    · rw [Drv.exec, IntPendClear_fault N id m r hid hm]
    · intro x hx
      exact Function.update_noteq hx _ _
    · rw [Function.update_same, hmb]
      exact hor.1
    · rw [Function.update_same, hmb]
      exact hor.2.1
    · rw [Function.update_same, hmb]
      exact hor.2.2
    · intro hclear hsame
      have h2 := congrFun hsame NVIC_INT_CTRL
      rw [Function.update_same, hmb] at h2
      have h3 := hor.1
      rw [h2, hclear] at h3
      cases h3
  · intro hnmi
    apply IntPendClear_noop N id r hid h16
    rw [hnmi]
    decide

theorem pend_clear_dispatch_witness :
    (FAULT_PENDSV < 155 ∧ FAULT_PENDSV < 16) ∧
    ((∀ m, (FAULT_PENDSV, m) ∈ [(FAULT_PENDSV, NVIC_INT_CTRL_UNPEND_SV),
        (FAULT_SYSTICK, NVIC_INT_CTRL_PENDSTCLR)] →
      ∃ b, b < 32 ∧ m = 2 ^ b ∧
        ∃ r', (IntPendClear 155 FAULT_PENDSV).exec (fun _ => 0) = .ok r' ∧
          (∀ x, x ≠ NVIC_INT_CTRL → r' x = (fun _ => 0) x) ∧
          (r' NVIC_INT_CTRL).testBit b = true ∧
          (∀ k, k < 32 → k ≠ b →
            (r' NVIC_INT_CTRL).testBit k = ((fun _ => 0) NVIC_INT_CTRL : Nat).testBit k) ∧
          r' NVIC_INT_CTRL < 2 ^ 32 ∧
          (((fun _ => 0) NVIC_INT_CTRL : Nat).testBit b = false → r' ≠ (fun _ => 0))) ∧
    (FAULT_PENDSV ∉ [FAULT_PENDSV, FAULT_SYSTICK] →
      IntPendClear 155 FAULT_PENDSV (fun _ => 0) = .ok ⟨(), fun _ => 0, []⟩) ∧
    (FAULT_PENDSV = FAULT_NMI →
      IntPendClear 155 FAULT_PENDSV (fun _ => 0) = .ok ⟨(), fun _ => 0, []⟩) ∧
    NVIC_INT_CTRL_UNPEND_SV ≠ NVIC_INT_CTRL_PENDSTCLR) :=
  ⟨by decide, pend_clear_dispatch 155 FAULT_PENDSV (fun _ => 0) (by decide) (by decide)⟩

/-! ## Footprints of the line-control functions -/

theorem enable_pend_disjoint :
    ∀ x, x ∈ g_pui32EnRegs ++ g_pui32Dii16Regs ++ [NVIC_SYS_HND_CTRL, NVIC_ST_CTRL] →
      x ∉ g_pui32PendRegs ++ g_pui32UnpendRegs ++ [NVIC_INT_CTRL] := by
  decide

theorem pend_set_pair {id : Nat} (h : id ∈ [FAULT_NMI, FAULT_PENDSV, FAULT_SYSTICK]) :
    ∃ m, (id, m) ∈ [(FAULT_NMI, NVIC_INT_CTRL_NMI_SET), (FAULT_PENDSV, NVIC_INT_CTRL_PEND_SV),
      (FAULT_SYSTICK, NVIC_INT_CTRL_PENDSTSET)] := by
  simp only [List.mem_cons, List.mem_singleton, List.not_mem_nil, or_false] at h
  rcases h with h | h | h
  · exact ⟨NVIC_INT_CTRL_NMI_SET, by rw [h]; decide⟩
  · exact ⟨NVIC_INT_CTRL_PEND_SV, by rw [h]; decide⟩
  · exact ⟨NVIC_INT_CTRL_PENDSTSET, by rw [h]; decide⟩

theorem pend_clear_pair {id : Nat} (h : id ∈ [FAULT_PENDSV, FAULT_SYSTICK]) :
    ∃ m, (id, m) ∈ [(FAULT_PENDSV, NVIC_INT_CTRL_UNPEND_SV),
      (FAULT_SYSTICK, NVIC_INT_CTRL_PENDSTCLR)] := by
  simp only [List.mem_cons, List.mem_singleton, List.not_mem_nil, or_false] at h
  rcases h with h | h
  · exact ⟨NVIC_INT_CTRL_UNPEND_SV, by rw [h]; decide⟩
  · exact ⟨NVIC_INT_CTRL_PENDSTCLR, by rw [h]; decide⟩

/-- A completed call that is either without access, or a single store to a, or
a load of a followed by a store to a, touches only a. -/
theorem footprint_of_shape {S : List Nat} {r : Regs} {o : Outcome Unit} {a v : Nat}
    (ha : a ∈ S)
    (ho : o = ⟨(), Function.update r a v, [Access.store a v]⟩ ∨
      o = ⟨(), Function.update r a v, [Access.load a, Access.store a v]⟩ ∨
      o = ⟨(), r, []⟩) :
    (∀ x, x ∉ S → o.regs x = r x) ∧ (∀ b w, Access.store b w ∈ o.trace → b ∈ S) := by
  rcases ho with h | h | h <;> subst h
  · refine ⟨fun x hx => Function.update_noteq (fun (e : x = a) => hx (by rw [e]; exact ha)) _ _, ?_⟩
    intro b w hmem
    simp only [List.mem_singleton, Access.store.injEq] at hmem
    rw [hmem.1]
    exact ha
  · refine ⟨fun x hx => Function.update_noteq (fun (e : x = a) => hx (by rw [e]; exact ha)) _ _, ?_⟩
    intro b w hmem
    simp only [List.mem_cons, List.mem_singleton, Access.store.injEq, List.not_mem_nil,
      or_false, false_or, reduceCtorEq] at hmem
    rw [hmem.1]
    exact ha
  · exact ⟨fun _ _ => rfl, fun b w hmem => by cases hmem⟩

theorem IntPendSet_footprint (N id : Nat) (r : Regs) (hN : N ≤ 156) (hid : id < N) :
    ∃ o, IntPendSet N id r = .ok o ∧
      (∀ x, x ∉ g_pui32PendRegs ++ g_pui32UnpendRegs ++ [NVIC_INT_CTRL] → o.regs x = r x) ∧
      (∀ b w, Access.store b w ∈ o.trace →
        b ∈ g_pui32PendRegs ++ g_pui32UnpendRegs ++ [NVIC_INT_CTRL]) := by
  by_cases h16 : 16 ≤ id
  · obtain ⟨a, ha⟩ := bank_lookup g_pui32PendRegs rfl hN hid
    exact ⟨_, IntPendSet_general N id a r h16 hid ha,
      footprint_of_shape (a := a) (by simp [List.getElem?_mem ha]) (Or.inl rfl)⟩
  · by_cases hf : id ∈ [FAULT_NMI, FAULT_PENDSV, FAULT_SYSTICK]
    · obtain ⟨m, hm⟩ := pend_set_pair hf
      exact ⟨_, IntPendSet_fault N id m r hid hm,
        footprint_of_shape (a := NVIC_INT_CTRL) (by simp) (Or.inr (Or.inl rfl))⟩
    · exact ⟨_, IntPendSet_noop N id r hid (by omega) hf,
        footprint_of_shape (a := NVIC_INT_CTRL) (v := 0) (by simp) (Or.inr (Or.inr rfl))⟩

theorem IntPendClear_footprint (N id : Nat) (r : Regs) (hN : N ≤ 156) (hid : id < N) :
    ∃ o, IntPendClear N id r = .ok o ∧
      (∀ x, x ∉ g_pui32PendRegs ++ g_pui32UnpendRegs ++ [NVIC_INT_CTRL] → o.regs x = r x) ∧
      (∀ b w, Access.store b w ∈ o.trace →
        b ∈ g_pui32PendRegs ++ g_pui32UnpendRegs ++ [NVIC_INT_CTRL]) := by
  by_cases h16 : 16 ≤ id
  · obtain ⟨a, ha⟩ := bank_lookup g_pui32UnpendRegs rfl hN hid
    exact ⟨_, IntPendClear_general N id a r h16 hid ha,
      footprint_of_shape (a := a) (by simp [List.getElem?_mem ha]) (Or.inl rfl)⟩
  · by_cases hf : id ∈ [FAULT_PENDSV, FAULT_SYSTICK]
    · obtain ⟨m, hm⟩ := pend_clear_pair hf
      exact ⟨_, IntPendClear_fault N id m r hid hm,
        footprint_of_shape (a := NVIC_INT_CTRL) (by simp) (Or.inr (Or.inl rfl))⟩
    · exact ⟨_, IntPendClear_noop N id r hid (by omega) hf,
        footprint_of_shape (a := NVIC_INT_CTRL) (v := 0) (by simp) (Or.inr (Or.inr rfl))⟩

theorem fault_triple_addr {id a m : Nat}
    (hm : (id, a, m) ∈ [(FAULT_MPU, NVIC_SYS_HND_CTRL, NVIC_SYS_HND_CTRL_MEM),
      (FAULT_BUS, NVIC_SYS_HND_CTRL, NVIC_SYS_HND_CTRL_BUS),
      (FAULT_USAGE, NVIC_SYS_HND_CTRL, NVIC_SYS_HND_CTRL_USAGE),
      (FAULT_SYSTICK, NVIC_ST_CTRL, NVIC_ST_CTRL_INTEN)]) :
    a ∈ [NVIC_SYS_HND_CTRL, NVIC_ST_CTRL] := by
  simp only [List.mem_cons, Prod.mk.injEq, List.mem_singleton, List.not_mem_nil, or_false] at hm
  rcases hm with ⟨_, h, _⟩ | ⟨_, h, _⟩ | ⟨_, h, _⟩ | ⟨_, h, _⟩ <;> simp [h]

theorem IntEnable_footprint (N id : Nat) (r : Regs) (hN : N ≤ 156) (hid : id < N) :
    ∃ o, IntEnable N id r = .ok o ∧
      (∀ x, x ∉ g_pui32EnRegs ++ g_pui32Dii16Regs ++ [NVIC_SYS_HND_CTRL, NVIC_ST_CTRL] →
        o.regs x = r x) ∧
      (∀ b w, Access.store b w ∈ o.trace →
        b ∈ g_pui32EnRegs ++ g_pui32Dii16Regs ++ [NVIC_SYS_HND_CTRL, NVIC_ST_CTRL]) := by
  by_cases h16 : 16 ≤ id
  · obtain ⟨a, ha⟩ := bank_lookup g_pui32EnRegs rfl hN hid
    exact ⟨_, IntEnable_general N id a r h16 hid ha,
      footprint_of_shape (a := a) (by simp [List.getElem?_mem ha]) (Or.inl rfl)⟩
  · by_cases hf : id ∈ [FAULT_MPU, FAULT_BUS, FAULT_USAGE, FAULT_SYSTICK]
    · obtain ⟨a, b, _, hm⟩ := fault_triple hf
      have hmem := fault_triple_addr hm
      exact ⟨_, IntEnable_fault N id a (2 ^ b) r hid hm,
        footprint_of_shape (a := a) (List.mem_append_right _ hmem) (Or.inr (Or.inl rfl))⟩
    · exact ⟨_, IntEnable_noop N id r hid (by omega) hf,
        footprint_of_shape (a := NVIC_ST_CTRL) (v := 0) (by simp) (Or.inr (Or.inr rfl))⟩

theorem IntDisable_footprint (N id : Nat) (r : Regs) (hN : N ≤ 156) (hid : id < N) :
    ∃ o, IntDisable N id r = .ok o ∧
      (∀ x, x ∉ g_pui32EnRegs ++ g_pui32Dii16Regs ++ [NVIC_SYS_HND_CTRL, NVIC_ST_CTRL] →
        o.regs x = r x) ∧
      (∀ b w, Access.store b w ∈ o.trace →
        b ∈ g_pui32EnRegs ++ g_pui32Dii16Regs ++ [NVIC_SYS_HND_CTRL, NVIC_ST_CTRL]) := by
  by_cases h16 : 16 ≤ id
  · obtain ⟨a, ha⟩ := bank_lookup g_pui32Dii16Regs rfl hN hid
    exact ⟨_, IntDisable_general N id a r h16 hid ha,
      footprint_of_shape (a := a) (by simp [List.getElem?_mem ha]) (Or.inl rfl)⟩
  · by_cases hf : id ∈ [FAULT_MPU, FAULT_BUS, FAULT_USAGE, FAULT_SYSTICK]
    · obtain ⟨a, b, _, hm⟩ := fault_triple hf
      have hmem := fault_triple_addr hm
      exact ⟨_, IntDisable_fault N id a (2 ^ b) r hid hm,
        footprint_of_shape (a := a) (List.mem_append_right _ hmem) (Or.inr (Or.inl rfl))⟩
    · exact ⟨_, IntDisable_noop N id r hid (by omega) hf,
        footprint_of_shape (a := NVIC_ST_CTRL) (v := 0) (by simp) (Or.inr (Or.inr rfl))⟩

/-- IntIsEnabled completes, and its value depends only on the enable-set
registers, NVIC_SYS_HND_CTRL and NVIC_ST_CTRL. -/
theorem IntIsEnabled_reads (N id : Nat) (r1 r2 : Regs) (hN : N ≤ 156) (hid : id < N)
    (hagree : ∀ x, x ∈ g_pui32EnRegs ++ g_pui32Dii16Regs ++ [NVIC_SYS_HND_CTRL, NVIC_ST_CTRL] →
      r1 x = r2 x) :
    ∃ v t, IntIsEnabled N id r1 = .ok ⟨v, r1, t⟩ ∧ IntIsEnabled N id r2 = .ok ⟨v, r2, t⟩ := by
  by_cases h16 : 16 ≤ id
  · obtain ⟨a, ha⟩ := bank_lookup g_pui32EnRegs rfl hN hid
    have hmem : a ∈ g_pui32EnRegs ++ g_pui32Dii16Regs ++ [NVIC_SYS_HND_CTRL, NVIC_ST_CTRL] := by
      simp [List.getElem?_mem ha]
    refine ⟨u32 (r2 a) &&& 2 ^ ((id - 16) % 32), [Access.load a], ?_, ?_⟩
    · rw [IntIsEnabled_general N id a r1 h16 hid ha, hagree a hmem]
    · rw [IntIsEnabled_general N id a r2 h16 hid ha]
  · by_cases hf : id ∈ [FAULT_MPU, FAULT_BUS, FAULT_USAGE, FAULT_SYSTICK]
    · obtain ⟨a, b, _, hm⟩ := fault_triple hf
      have hmem := List.mem_append_right (g_pui32EnRegs ++ g_pui32Dii16Regs)
        (fault_triple_addr hm)
      refine ⟨u32 (r2 a) &&& 2 ^ b, [Access.load a], ?_, ?_⟩
      · rw [IntIsEnabled_fault N id a (2 ^ b) r1 hid hm, hagree a hmem]
      · rw [IntIsEnabled_fault N id a (2 ^ b) r2 hid hm]
    · exact ⟨0, [], IntIsEnabled_noop N id r1 hid (by omega) hf,
        IntIsEnabled_noop N id r2 hid (by omega) hf⟩

/-- C16. Enable state and pending state are independent: for every register
file and all ids id, id2 below N, IntPendSet(id) and IntPendClear(id) complete,
store to no enable-set register, enable-clear register, NVIC_SYS_HND_CTRL or
NVIC_ST_CTRL, and leave the value of IntIsEnabled(id2) unchanged; IntEnable(id)
and IntDisable(id) complete, store to no pend-set register, pend-clear
register or NVIC_INT_CTRL, and leave those registers unchanged; so after
IntPendSet(id) followed by IntEnable(id) every pend-set register, pend-clear
register and NVIC_INT_CTRL holds what IntPendSet(id) left there. -/
theorem enable_pend_independent (N id id2 : Nat) (r : Regs) (hN : N ≤ 156) (hid : id < N)
    (hid2 : id2 < N) :
    (∃ o, IntPendSet N id r = .ok o ∧
      (∀ b w, Access.store b w ∈ o.trace →
        b ∉ g_pui32EnRegs ++ g_pui32Dii16Regs ++ [NVIC_SYS_HND_CTRL, NVIC_ST_CTRL]) ∧
      ∃ v, (IntIsEnabled N id2).eval o.regs = .ok v ∧ (IntIsEnabled N id2).eval r = .ok v) ∧
    (∃ o, IntPendClear N id r = .ok o ∧
      (∀ b w, Access.store b w ∈ o.trace →
        b ∉ g_pui32EnRegs ++ g_pui32Dii16Regs ++ [NVIC_SYS_HND_CTRL, NVIC_ST_CTRL]) ∧
      ∃ v, (IntIsEnabled N id2).eval o.regs = .ok v ∧ (IntIsEnabled N id2).eval r = .ok v) ∧
    (∃ o, IntEnable N id r = .ok o ∧
      (∀ b w, Access.store b w ∈ o.trace →
        b ∉ g_pui32PendRegs ++ g_pui32UnpendRegs ++ [NVIC_INT_CTRL]) ∧
      ∀ x, x ∈ g_pui32PendRegs ++ g_pui32UnpendRegs ++ [NVIC_INT_CTRL] → o.regs x = r x) ∧
    (∃ o, IntDisable N id r = .ok o ∧
      (∀ b w, Access.store b w ∈ o.trace →
        b ∉ g_pui32PendRegs ++ g_pui32UnpendRegs ++ [NVIC_INT_CTRL]) ∧
      ∀ x, x ∈ g_pui32PendRegs ++ g_pui32UnpendRegs ++ [NVIC_INT_CTRL] → o.regs x = r x) ∧
    (∃ r1 r2, (IntPendSet N id).exec r = .ok r1 ∧ (IntEnable N id).exec r1 = .ok r2 ∧
      ∀ x, x ∈ g_pui32PendRegs ++ g_pui32UnpendRegs ++ [NVIC_INT_CTRL] → r2 x = r1 x) := by
  have hPE : ∀ x, x ∈ g_pui32PendRegs ++ g_pui32UnpendRegs ++ [NVIC_INT_CTRL] →
      x ∉ g_pui32EnRegs ++ g_pui32Dii16Regs ++ [NVIC_SYS_HND_CTRL, NVIC_ST_CTRL] :=
    fun x hp he => enable_pend_disjoint x he hp
  have isEn : ∀ r1 : Regs, (∀ x, x ∉ g_pui32PendRegs ++ g_pui32UnpendRegs ++ [NVIC_INT_CTRL] →
      r1 x = r x) →
      ∃ v, (IntIsEnabled N id2).eval r1 = .ok v ∧ (IntIsEnabled N id2).eval r = .ok v := by
    intro r1 hframe
    obtain ⟨v, t, h1, h2⟩ := IntIsEnabled_reads N id2 r1 r hN hid2
      (fun x hx => hframe x (enable_pend_disjoint x hx))
    exact ⟨v, by rw [Drv.eval, h1], by rw [Drv.eval, h2]⟩
  obtain ⟨oS, hS, hSf, hSt⟩ := IntPendSet_footprint N id r hN hid
  obtain ⟨oC, hC, hCf, hCt⟩ := IntPendClear_footprint N id r hN hid
  obtain ⟨oE, hE, hEf, hEt⟩ := IntEnable_footprint N id r hN hid
  obtain ⟨oD, hD, hDf, hDt⟩ := IntDisable_footprint N id r hN hid
  obtain ⟨oE2, hE2, hE2f, _⟩ := IntEnable_footprint N id oS.regs hN hid
  refine ⟨⟨oS, hS, fun b w hm => hPE b (hSt b w hm), isEn oS.regs hSf⟩,
    ⟨oC, hC, fun b w hm => hPE b (hCt b w hm), isEn oC.regs hCf⟩,
    ⟨oE, hE, fun b w hm => enable_pend_disjoint b (hEt b w hm), fun x hx => hEf x (hPE x hx)⟩,
    ⟨oD, hD, fun b w hm => enable_pend_disjoint b (hDt b w hm), fun x hx => hDf x (hPE x hx)⟩,
    ⟨oS.regs, oE2.regs, by rw [Drv.exec, hS], by rw [Drv.exec, hE2],
      fun x hx => hE2f x (hPE x hx)⟩⟩

theorem enable_pend_independent_witness :
    (155 ≤ 156 ∧ INT_UART0 < 155 ∧ INT_UART0 < 155) ∧
    ((∃ o, IntPendSet 155 INT_UART0 (fun _ => 0) = .ok o ∧
      (∀ b w, Access.store b w ∈ o.trace →
        b ∉ g_pui32EnRegs ++ g_pui32Dii16Regs ++ [NVIC_SYS_HND_CTRL, NVIC_ST_CTRL]) ∧
      ∃ v, (IntIsEnabled 155 INT_UART0).eval o.regs = .ok v ∧
        (IntIsEnabled 155 INT_UART0).eval (fun _ => 0) = .ok v) ∧
    (∃ o, IntPendClear 155 INT_UART0 (fun _ => 0) = .ok o ∧
      (∀ b w, Access.store b w ∈ o.trace →
        b ∉ g_pui32EnRegs ++ g_pui32Dii16Regs ++ [NVIC_SYS_HND_CTRL, NVIC_ST_CTRL]) ∧
      ∃ v, (IntIsEnabled 155 INT_UART0).eval o.regs = .ok v ∧
        (IntIsEnabled 155 INT_UART0).eval (fun _ => 0) = .ok v) ∧
    (∃ o, IntEnable 155 INT_UART0 (fun _ => 0) = .ok o ∧
      (∀ b w, Access.store b w ∈ o.trace →
        b ∉ g_pui32PendRegs ++ g_pui32UnpendRegs ++ [NVIC_INT_CTRL]) ∧
      ∀ x, x ∈ g_pui32PendRegs ++ g_pui32UnpendRegs ++ [NVIC_INT_CTRL] →
        o.regs x = (fun _ => 0) x) ∧
    (∃ o, IntDisable 155 INT_UART0 (fun _ => 0) = .ok o ∧
      (∀ b w, Access.store b w ∈ o.trace →
        b ∉ g_pui32PendRegs ++ g_pui32UnpendRegs ++ [NVIC_INT_CTRL]) ∧
      ∀ x, x ∈ g_pui32PendRegs ++ g_pui32UnpendRegs ++ [NVIC_INT_CTRL] →
        o.regs x = (fun _ => 0) x) ∧
    (∃ r1 r2, (IntPendSet 155 INT_UART0).exec (fun _ => 0) = .ok r1 ∧
      (IntEnable 155 INT_UART0).exec r1 = .ok r2 ∧
      ∀ x, x ∈ g_pui32PendRegs ++ g_pui32UnpendRegs ++ [NVIC_INT_CTRL] → r2 x = r1 x)) :=
  ⟨by decide, enable_pend_independent 155 INT_UART0 INT_UART0 (fun _ => 0) (by decide)
    (by decide) (by decide)⟩

/-! ## Software trigger -/

theorem IntTrigger_run (N id : Nat) (r : Regs) (hN : N ≤ 156) (h16 : 16 ≤ id)
    (hid : id < N) :
    IntTrigger N id r = .ok ⟨(), Function.update r NVIC_SW_TRIG (id - 16),
      [Access.store NVIC_SW_TRIG (id - 16)]⟩ := by
  have hu : u32 (id - 16) = id - 16 := by
    unfold u32
    omega
  simp [IntTrigger, bind_run, Drv.bind, ASSERT, HWREG_store, h16, hid, hu]

/-- C17. For every id with 16 <= id < N, IntTrigger(id) performs exactly one
access, a store of the value id - 16 (which is below 256) to NVIC_SW_TRIG; it
reads no register and changes no other register. -/
theorem trigger_single_store (N id : Nat) (r : Regs) (hN : N ≤ 156) (h16 : 16 ≤ id)
    (hid : id < N) :
    IntTrigger N id r = .ok ⟨(), Function.update r NVIC_SW_TRIG (id - 16),
      [Access.store NVIC_SW_TRIG (id - 16)]⟩ ∧
    id - 16 < 256 ∧
    (∀ x, x ≠ NVIC_SW_TRIG → Function.update r NVIC_SW_TRIG (id - 16) x = r x) := by
  refine ⟨IntTrigger_run N id r hN h16 hid, by omega, ?_⟩
  intro x hx
  exact Function.update_noteq hx _ _

theorem trigger_single_store_witness :
    (155 ≤ 156 ∧ 16 ≤ INT_UART0 ∧ INT_UART0 < 155) ∧
    (IntTrigger 155 INT_UART0 (fun _ => 0) =
      .ok ⟨(), Function.update (fun _ => 0) NVIC_SW_TRIG (INT_UART0 - 16),
        [Access.store NVIC_SW_TRIG (INT_UART0 - 16)]⟩ ∧
    INT_UART0 - 16 < 256 ∧
    (∀ x, x ≠ NVIC_SW_TRIG →
      Function.update (fun _ => 0) NVIC_SW_TRIG (INT_UART0 - 16) x = (fun _ => 0) x)) :=
  ⟨by decide, trigger_single_store 155 INT_UART0 (fun _ => 0) (by decide) (by decide)
    (by decide)⟩

/-! ## Argument checks -/

/-- A call that halts on its entry ASSERT exactly when c holds, and completes
otherwise, fails iff c; every failure is the assertion fault, raised in the
initial register file before any access. -/
theorem reject_iff {α : Type} (m : Drv α) (r : Regs) (c : Prop)
    (hok : ¬ c → ∃ o, m r = .ok o)
    (herr : c → m r = .error ⟨Fault.assertion, r, []⟩) :
    ((∃ h, m r = .error h) ↔ c) ∧
    (∀ h, m r = .error h → h.fault = Fault.assertion ∧ h.regs = r ∧ h.trace = []) := by
  constructor
  · constructor
    · rintro ⟨h, hh⟩
      by_contra hc
      obtain ⟨o, ho⟩ := hok hc
      rw [ho] at hh
      cases hh
    · intro hc
      exact ⟨_, herr hc⟩
  · intro h hh
    by_cases hc : c
    · rw [herr hc] at hh
      cases hh
      exact ⟨rfl, rfl, rfl⟩
    · obtain ⟨o, ho⟩ := hok hc
      rw [ho] at hh
      cases hh

theorem IntIsEnabled_total (N id : Nat) (r : Regs) (hN : N ≤ 156) (hid : id < N) :
    ∃ o, IntIsEnabled N id r = .ok o := by
  obtain ⟨v, t, h, _⟩ := IntIsEnabled_reads N id r r hN hid (fun _ _ => rfl)
  exact ⟨_, h⟩

/-- C18. Out-of-range rejection in a debug build, for N at most 156:
IntPrioritySet(id, p) and IntPriorityGet(id) fail iff id < 4 or id >= N;
IntPriorityGroupingSet(bits) fails iff bits >= 8; IntEnable, IntDisable,
IntIsEnabled, IntPendSet and IntPendClear fail iff id >= N; IntTrigger(id)
fails iff id < 16 or id >= N; and every failure is the assertion fault, with
the register file unchanged and no access performed. In particular
IntPrioritySet(3, 0) and IntPriorityGroupingSet(8) fail. -/
theorem out_of_range_rejection (N id p bits : Nat) (r : Regs) (hN : N ≤ 156) :
    ((∃ h, IntPrioritySet N id p r = .error h) ↔ (id < 4 ∨ N ≤ id)) ∧
    ((∃ h, IntPriorityGet N id r = .error h) ↔ (id < 4 ∨ N ≤ id)) ∧
    ((∃ h, IntPriorityGroupingSet bits r = .error h) ↔ 8 ≤ bits) ∧
    ((∃ h, IntEnable N id r = .error h) ↔ N ≤ id) ∧
    ((∃ h, IntDisable N id r = .error h) ↔ N ≤ id) ∧
    ((∃ h, IntIsEnabled N id r = .error h) ↔ N ≤ id) ∧
    ((∃ h, IntPendSet N id r = .error h) ↔ N ≤ id) ∧
    ((∃ h, IntPendClear N id r = .error h) ↔ N ≤ id) ∧
    ((∃ h, IntTrigger N id r = .error h) ↔ (id < 16 ∨ N ≤ id)) ∧
    (∀ h, (IntPrioritySet N id p r = .error h ∨ IntPriorityGet N id r = .error h ∨
        IntPriorityGroupingSet bits r = .error h ∨ IntEnable N id r = .error h ∨
        IntDisable N id r = .error h ∨ IntIsEnabled N id r = .error h ∨
        IntPendSet N id r = .error h ∨ IntPendClear N id r = .error h ∨
        IntTrigger N id r = .error h) →
      h.fault = Fault.assertion ∧ h.regs = r ∧ h.trace = []) ∧
    (∃ h, IntPrioritySet N 3 0 r = .error h) ∧
    (∃ h, IntPriorityGroupingSet 8 r = .error h) := by
  have hPS := reject_iff (IntPrioritySet N id p) r (id < 4 ∨ N ≤ id)
    (fun hc => by
      have h4 : 4 ≤ id := by omega
      have hid : id < N := by omega
      obtain ⟨a, ha⟩ := g_pui32Regs_lookup hN hid
      exact ⟨_, IntPrioritySet_run N id p a r h4 hid ha⟩)
    (fun hc => by
      have : ¬ (4 ≤ id ∧ id < N) := by omega
      simp [IntPrioritySet, bind_run, Drv.bind, ASSERT, this])
  have hPG := reject_iff (IntPriorityGet N id) r (id < 4 ∨ N ≤ id)
    (fun hc => by
      have h4 : 4 ≤ id := by omega
      have hid : id < N := by omega
      obtain ⟨a, ha⟩ := g_pui32Regs_lookup hN hid
      exact ⟨_, IntPriorityGet_run N id a r h4 hid ha⟩)
    (fun hc => by
      have : ¬ (4 ≤ id ∧ id < N) := by omega
      simp [IntPriorityGet, bind_run, Drv.bind, ASSERT, this])
  have hGS := reject_iff (IntPriorityGroupingSet bits) r (8 ≤ bits)
    (fun hc => by
      have h8 : bits < 8 := by omega
      exact ⟨_, IntPriorityGroupingSet_run bits _ r h8 (g_pui32Priority_value h8)⟩)
    (fun hc => by
      have : ¬ bits < 8 := by omega
      simp [IntPriorityGroupingSet, bind_run, Drv.bind, ASSERT, NUM_PRIORITY, this])
  have hE := reject_iff (IntEnable N id) r (N ≤ id)
    (fun hc => by
      obtain ⟨o, ho, _⟩ := IntEnable_footprint N id r hN (by omega)
      exact ⟨o, ho⟩)
    (fun hc => by
      have : ¬ id < N := by omega
      simp [IntEnable, bind_run, Drv.bind, ASSERT, this])
  have hD := reject_iff (IntDisable N id) r (N ≤ id)
    (fun hc => by
      obtain ⟨o, ho, _⟩ := IntDisable_footprint N id r hN (by omega)
      exact ⟨o, ho⟩)
    (fun hc => by
      have : ¬ id < N := by omega
      simp [IntDisable, bind_run, Drv.bind, ASSERT, this])
  have hI := reject_iff (IntIsEnabled N id) r (N ≤ id)
    (fun hc => IntIsEnabled_total N id r hN (by omega))
    (fun hc => by
      have : ¬ id < N := by omega
      simp [IntIsEnabled, bind_run, Drv.bind, ASSERT, this])
  have hS := reject_iff (IntPendSet N id) r (N ≤ id)
    (fun hc => by
      obtain ⟨o, ho, _⟩ := IntPendSet_footprint N id r hN (by omega)
      exact ⟨o, ho⟩)
    (fun hc => by
      have : ¬ id < N := by omega
      simp [IntPendSet, bind_run, Drv.bind, ASSERT, this])
  have hC := reject_iff (IntPendClear N id) r (N ≤ id)
    (fun hc => by
      obtain ⟨o, ho, _⟩ := IntPendClear_footprint N id r hN (by omega)
      exact ⟨o, ho⟩)
    (fun hc => by
      have : ¬ id < N := by omega
      simp [IntPendClear, bind_run, Drv.bind, ASSERT, this])
  have hT := reject_iff (IntTrigger N id) r (id < 16 ∨ N ≤ id)
    (fun hc => ⟨_, IntTrigger_run N id r hN (by omega) (by omega)⟩)
    (fun hc => by
      have : ¬ (16 ≤ id ∧ id < N) := by omega
      simp [IntTrigger, bind_run, Drv.bind, ASSERT, this])
  refine ⟨hPS.1, hPG.1, hGS.1, hE.1, hD.1, hI.1, hS.1, hC.1, hT.1, ?_, ?_, ?_⟩
  · intro h hh
    rcases hh with hh | hh | hh | hh | hh | hh | hh | hh | hh
    · exact hPS.2 h hh
    · exact hPG.2 h hh
    · exact hGS.2 h hh
    · exact hE.2 h hh
    · exact hD.2 h hh
    · exact hI.2 h hh
    · exact hS.2 h hh
    · exact hC.2 h hh
    · exact hT.2 h hh
  · exact ⟨⟨Fault.assertion, r, []⟩, by simp [IntPrioritySet, bind_run, Drv.bind, ASSERT]⟩
  · exact ⟨⟨Fault.assertion, r, []⟩,
      by simp [IntPriorityGroupingSet, bind_run, Drv.bind, ASSERT, NUM_PRIORITY]⟩

theorem out_of_range_rejection_witness :
    (155 ≤ 156) ∧
    (((∃ h, IntPrioritySet 155 3 0 (fun _ => 0) = .error h) ↔ (3 < 4 ∨ 155 ≤ 3)) ∧
    ((∃ h, IntPriorityGet 155 3 (fun _ => 0) = .error h) ↔ (3 < 4 ∨ 155 ≤ 3)) ∧
    ((∃ h, IntPriorityGroupingSet 8 (fun _ => 0) = .error h) ↔ 8 ≤ 8) ∧
    ((∃ h, IntEnable 155 3 (fun _ => 0) = .error h) ↔ 155 ≤ 3) ∧
    ((∃ h, IntDisable 155 3 (fun _ => 0) = .error h) ↔ 155 ≤ 3) ∧
    ((∃ h, IntIsEnabled 155 3 (fun _ => 0) = .error h) ↔ 155 ≤ 3) ∧
    ((∃ h, IntPendSet 155 3 (fun _ => 0) = .error h) ↔ 155 ≤ 3) ∧
    ((∃ h, IntPendClear 155 3 (fun _ => 0) = .error h) ↔ 155 ≤ 3) ∧
    ((∃ h, IntTrigger 155 3 (fun _ => 0) = .error h) ↔ (3 < 16 ∨ 155 ≤ 3)) ∧
    (∀ h, (IntPrioritySet 155 3 0 (fun _ => 0) = .error h ∨
        IntPriorityGet 155 3 (fun _ => 0) = .error h ∨
        IntPriorityGroupingSet 8 (fun _ => 0) = .error h ∨
        IntEnable 155 3 (fun _ => 0) = .error h ∨
        IntDisable 155 3 (fun _ => 0) = .error h ∨
        IntIsEnabled 155 3 (fun _ => 0) = .error h ∨
        IntPendSet 155 3 (fun _ => 0) = .error h ∨
        IntPendClear 155 3 (fun _ => 0) = .error h ∨
        IntTrigger 155 3 (fun _ => 0) = .error h) →
      h.fault = Fault.assertion ∧ h.regs = (fun _ => 0) ∧ h.trace = []) ∧
    (∃ h, IntPrioritySet 155 3 0 (fun _ => 0) = .error h) ∧
    (∃ h, IntPriorityGroupingSet 8 (fun _ => 0) = .error h)) :=
  ⟨by decide, out_of_range_rejection 155 3 0 8 (fun _ => 0) (by decide)⟩

/-! ## Interleaved priority writes -/

/-- The two steps, run back to back, are IntPrioritySet. -/
theorem IntPrioritySet_split (N id p : Nat) (r : Regs) :
    (IntPrioritySet.load N id >>= IntPrioritySet.store id p) r = IntPrioritySet N id p r := by
  by_cases hc : 4 ≤ id ∧ id < N
  · cases hl : g_pui32Regs[id >>> 2]? with
    | none =>
      simp [IntPrioritySet, IntPrioritySet.load, IntPrioritySet.store, bind_run, Drv.bind,
        ASSERT, tableAt, hc, hl]
    | some a =>
      simp [IntPrioritySet, IntPrioritySet.load, IntPrioritySet.store, bind_run, Drv.bind,
        ASSERT, tableAt, HWREG, HWREG_store, hc, hl]
  · simp [IntPrioritySet, IntPrioritySet.load, IntPrioritySet.store, bind_run, Drv.bind,
      ASSERT, hc]

theorem SetCall_step_load (N id p t a : Nat) (r : Regs) (h4 : 4 ≤ id) (hid : id < N)
    (ha : g_pui32Regs[id >>> 2]? = some a) :
    SetCall.step N ⟨id, p, 0, t⟩ r = .ok ⟨⟨id, p, 1, u32 (r a)⟩, r, [Access.load a]⟩ := by
  simp [SetCall.step, IntPrioritySet.load, bind_run, Drv.bind, Drv.pure, ASSERT, tableAt,
    HWREG, h4, hid, ha]

theorem SetCall_step_store (N id p t a : Nat) (r : Regs)
    (ha : g_pui32Regs[id >>> 2]? = some a) :
    SetCall.step N ⟨id, p, 1, t⟩ r =
      .ok ⟨⟨id, p, 2, t⟩, Function.update r a (setLane t (id &&& 3) p),
        [Access.store a (setLane t (id &&& 3) p)]⟩ := by
  simp [SetCall.step, IntPrioritySet.store, bind_run, Drv.bind, Drv.pure, tableAt,
    HWREG_store, ha, setLane]

/-- The schedule load 1, load 2, store 1, store 2. -/
theorem interleave_racy (N id1 p1 id2 p2 a1 a2 : Nat) (r : Regs)
    (h1 : 4 ≤ id1) (hid1 : id1 < N) (h2 : 4 ≤ id2) (hid2 : id2 < N)
    (ha1 : g_pui32Regs[id1 >>> 2]? = some a1) (ha2 : g_pui32Regs[id2 >>> 2]? = some a2) :
    interleave N [true, false, true, false] ⟨id1, p1, 0, 0⟩ ⟨id2, p2, 0, 0⟩ r =
      .ok ⟨(⟨id1, p1, 2, u32 (r a1)⟩, ⟨id2, p2, 2, u32 (r a2)⟩),
        Function.update (Function.update r a1 (setLane (u32 (r a1)) (id1 &&& 3) p1)) a2
          (setLane (u32 (r a2)) (id2 &&& 3) p2),
        [Access.load a1, Access.load a2,
          Access.store a1 (setLane (u32 (r a1)) (id1 &&& 3) p1),
          Access.store a2 (setLane (u32 (r a2)) (id2 &&& 3) p2)]⟩ := by
  simp only [interleave, bind_run, Drv.bind, Drv.pure,
    SetCall_step_load N id1 p1 0 a1 r h1 hid1 ha1,
    SetCall_step_load N id2 p2 0 a2 r h2 hid2 ha2,
    SetCall_step_store N id1 p1 _ a1 _ ha1, SetCall_step_store N id2 p2 _ a2 _ ha2,
    List.append_nil, List.cons_append, List.nil_append]

/-- The schedule that runs the first call to its end and then the second leaves
the register file that the two calls leave when made in sequence. -/
theorem interleave_sequential (N id1 p1 id2 p2 : Nat) (r : Regs) (hN : N ≤ 156)
    (h1 : 4 ≤ id1) (hid1 : id1 < N) (h2 : 4 ≤ id2) (hid2 : id2 < N) :
    (interleave N [true, true, false, false] ⟨id1, p1, 0, 0⟩ ⟨id2, p2, 0, 0⟩).exec r
      = (IntPrioritySet N id1 p1 >>= fun _ => IntPrioritySet N id2 p2).exec r := by
  obtain ⟨a1, ha1⟩ := g_pui32Regs_lookup hN hid1
  obtain ⟨a2, ha2⟩ := g_pui32Regs_lookup hN hid2
  simp only [Drv.exec, interleave, bind_run, Drv.bind, Drv.pure,
    SetCall_step_load N id1 p1 0 a1 r h1 hid1 ha1,
    SetCall_step_load N id2 p2 0 a2 _ h2 hid2 ha2,
    SetCall_step_store N id1 p1 _ a1 _ ha1, SetCall_step_store N id2 p2 _ a2 _ ha2,
    IntPrioritySet_run N id1 p1 a1 r h1 hid1 ha1, IntPrioritySet_run N id2 p2 a2 _ h2 hid2 ha2]

theorem IntPrioritySet_load_run (N id a : Nat) (r : Regs) (h4 : 4 ≤ id) (hid : id < N)
    (ha : g_pui32Regs[id >>> 2]? = some a) :
    IntPrioritySet.load N id r = .ok ⟨u32 (r a), r, [Access.load a]⟩ := by
  simp [IntPrioritySet.load, bind_run, Drv.bind, ASSERT, tableAt, HWREG, h4, hid, ha]

theorem IntPrioritySet_store_run (id p t a : Nat) (r : Regs)
    (ha : g_pui32Regs[id >>> 2]? = some a) :
    IntPrioritySet.store id p t r =
      .ok ⟨(), Function.update r a (setLane t (id &&& 3) p),
        [Access.store a (setLane t (id &&& 3) p)]⟩ := by
  simp [IntPrioritySet.store, bind_run, Drv.bind, tableAt, HWREG_store, ha, setLane]

/-- The schedule load 1, store 1, load 2, store 2. -/
theorem interleave_in_order (N id1 p1 id2 p2 a1 a2 : Nat) (r : Regs)
    (h1 : 4 ≤ id1) (hid1 : id1 < N) (h2 : 4 ≤ id2) (hid2 : id2 < N)
    (ha1 : g_pui32Regs[id1 >>> 2]? = some a1) (ha2 : g_pui32Regs[id2 >>> 2]? = some a2) :
    interleave N [true, true, false, false] ⟨id1, p1, 0, 0⟩ ⟨id2, p2, 0, 0⟩ r =
      .ok ⟨(⟨id1, p1, 2, u32 (r a1)⟩,
          ⟨id2, p2, 2,
            u32 (Function.update r a1 (setLane (u32 (r a1)) (id1 &&& 3) p1) a2)⟩),
        Function.update (Function.update r a1 (setLane (u32 (r a1)) (id1 &&& 3) p1)) a2
          (setLane (u32 (Function.update r a1 (setLane (u32 (r a1)) (id1 &&& 3) p1) a2))
            (id2 &&& 3) p2),
        [Access.load a1, Access.store a1 (setLane (u32 (r a1)) (id1 &&& 3) p1),
          Access.load a2,
          Access.store a2
            (setLane (u32 (Function.update r a1 (setLane (u32 (r a1)) (id1 &&& 3) p1) a2))
              (id2 &&& 3) p2)]⟩ := by
  simp only [interleave, bind_run, Drv.bind, Drv.pure,
    SetCall_step_load N id1 p1 0 a1 r h1 hid1 ha1,
    SetCall_step_load N id2 p2 0 a2 _ h2 hid2 ha2,
    SetCall_step_store N id1 p1 _ a1 _ ha1, SetCall_step_store N id2 p2 _ a2 _ ha2,
    List.append_nil, List.cons_append, List.nil_append]

/-- Read-back after the two schedules, for two identifiers that share a
register word: under load 1, load 2, store 1, store 2 the first priority reads
back as it was before the calls and the second as written; under load 1,
store 1, load 2, store 2 both read back as written. -/
theorem shared_word_readback (N id1 id2 p1 p2 : Nat) (r : Regs) (hN : N ≤ 156)
    (h1 : 4 ≤ id1) (hid1 : id1 < N) (h2 : 4 ≤ id2) (hid2 : id2 < N) (hne : id1 ≠ id2)
    (hw : id1 >>> 2 = id2 >>> 2) (hp1 : p1 < 256) (hp2 : p2 < 256) :
    ∃ o os v0 a,
      g_pui32Regs[id1 >>> 2]? = some a ∧
      interleave N [true, false, true, false] ⟨id1, p1, 0, 0⟩ ⟨id2, p2, 0, 0⟩ r = .ok o ∧
      o.ret.1.pc = 2 ∧ o.ret.2.pc = 2 ∧
      o.trace = [Access.load a, Access.load a,
        Access.store a (setLane (u32 (r a)) (id1 &&& 3) p1),
        Access.store a (setLane (u32 (r a)) (id2 &&& 3) p2)] ∧
      (IntPriorityGet N id1).eval r = .ok v0 ∧
      (IntPriorityGet N id1).eval o.regs = .ok v0 ∧
      (IntPriorityGet N id2).eval o.regs = .ok p2 ∧
      interleave N [true, true, false, false] ⟨id1, p1, 0, 0⟩ ⟨id2, p2, 0, 0⟩ r = .ok os ∧
      os.ret.1.pc = 2 ∧ os.ret.2.pc = 2 ∧
      (IntPriorityGet N id1).eval os.regs = .ok p1 ∧
      (IntPriorityGet N id2).eval os.regs = .ok p2 := by
  obtain ⟨a, ha1⟩ := g_pui32Regs_lookup hN hid1
  have ha2 : g_pui32Regs[id2 >>> 2]? = some a := by rw [← hw]; exact ha1
  have hj1 := and_three_lt id1
  have hj2 := and_three_lt id2
  have hlane : id1 &&& 3 ≠ id2 &&& 3 := by
    intro h
    apply hne
    rw [split_id id1, split_id id2, hw, h]
  refine ⟨_, _, lane (u32 (r a)) (id1 &&& 3), a, ha1,
    interleave_racy N id1 p1 id2 p2 a a r h1 hid1 h2 hid2 ha1 ha2, rfl, rfl, rfl, ?_, ?_, ?_,
    interleave_in_order N id1 p1 id2 p2 a a r h1 hid1 h2 hid2 ha1 ha2, rfl, rfl, ?_, ?_⟩
  · rw [Drv.eval, IntPriorityGet_run N id1 a r h1 hid1 ha1]
  · rw [Drv.eval, IntPriorityGet_run N id1 a _ h1 hid1 ha1]
    simp only [Function.update_same]
    rw [lane_u32 _ _ hj1, lane_setLane_other _ _ _ _ hj2 hj1 hlane hp2]
  · rw [Drv.eval, IntPriorityGet_run N id2 a _ h2 hid2 ha2]
    simp only [Function.update_same]
    rw [lane_u32 _ _ hj2, lane_setLane_same _ _ _ hj2 hp2]
  · rw [Drv.eval, IntPriorityGet_run N id1 a _ h1 hid1 ha1]
    simp only [Function.update_same]
    rw [lane_u32 _ _ hj1, lane_setLane_other _ _ _ _ hj2 hj1 hlane hp2, lane_u32 _ _ hj1,
      lane_setLane_same _ _ _ hj1 hp1]
  · rw [Drv.eval, IntPriorityGet_run N id2 a _ h2 hid2 ha2]
    simp only [Function.update_same]
    rw [lane_u32 _ _ hj2, lane_setLane_same _ _ _ hj2 hp2]

/-- C19. Lost update under interleaving. IntPrioritySet is its load step
followed by its store step: the load step checks the arguments and loads the
register word, the store step stores the word with the byte lane replaced. For
N between 6 and 156 and any two different identifiers id1, id2 in [4,N) that
share a register word, under the schedule load 1, load 2, store 1, store 2
both calls return, the access trace is two loads then two stores of that word,
IntPriorityGet(id2) returns p2 and IntPriorityGet(id1) returns the priority id1
had before the calls: the first update is overwritten. Under the schedule
load 1, store 1, load 2, store 2 both priorities read back as written. On the
all-zero register file with ids 4 and 5 and priorities 0xE0 and 0x20 the racy
schedule reads back (0, 0x20) and the sequential one (0xE0, 0x20). Hence there
are a register file, identifiers, priorities and a schedule of the steps, each
call running both its steps in order, after which IntPriorityGet(id1) is not
p1 or IntPriorityGet(id2) is not p2. -/
theorem priority_set_lost_update (N : Nat) (hN : N ≤ 156) (h6 : 6 ≤ N) :
    (∀ (id p : Nat) (r : Regs),
      (IntPrioritySet.load N id >>= IntPrioritySet.store id p) r = IntPrioritySet N id p r) ∧
    (∀ (id p t a : Nat) (r : Regs), 4 ≤ id → id < N → g_pui32Regs[id >>> 2]? = some a →
      IntPrioritySet.load N id r = .ok ⟨u32 (r a), r, [Access.load a]⟩ ∧
      IntPrioritySet.store id p t r =
        .ok ⟨(), Function.update r a (setLane t (id &&& 3) p),
          [Access.store a (setLane t (id &&& 3) p)]⟩ ∧
      (p < 256 → lane (setLane t (id &&& 3) p) (id &&& 3) = p ∧
        ∀ k, k < 4 → k ≠ id &&& 3 → lane (setLane t (id &&& 3) p) k = lane t k)) ∧
    (∀ (id1 id2 p1 p2 : Nat) (r : Regs), 4 ≤ id1 → id1 < N → 4 ≤ id2 → id2 < N →
      id1 ≠ id2 → id1 >>> 2 = id2 >>> 2 → p1 < 256 → p2 < 256 →
      ∃ o os v0 a,
        g_pui32Regs[id1 >>> 2]? = some a ∧
        interleave N [true, false, true, false] ⟨id1, p1, 0, 0⟩ ⟨id2, p2, 0, 0⟩ r = .ok o ∧
        o.ret.1.pc = 2 ∧ o.ret.2.pc = 2 ∧
        o.trace = [Access.load a, Access.load a,
          Access.store a (setLane (u32 (r a)) (id1 &&& 3) p1),
          Access.store a (setLane (u32 (r a)) (id2 &&& 3) p2)] ∧
        (IntPriorityGet N id1).eval r = .ok v0 ∧
        (IntPriorityGet N id1).eval o.regs = .ok v0 ∧
        (IntPriorityGet N id2).eval o.regs = .ok p2 ∧
        interleave N [true, true, false, false] ⟨id1, p1, 0, 0⟩ ⟨id2, p2, 0, 0⟩ r = .ok os ∧
        os.ret.1.pc = 2 ∧ os.ret.2.pc = 2 ∧
        (IntPriorityGet N id1).eval os.regs = .ok p1 ∧
        (IntPriorityGet N id2).eval os.regs = .ok p2) ∧
    (∃ o os,
      interleave N [true, false, true, false] ⟨4, 0xE0, 0, 0⟩ ⟨5, 0x20, 0, 0⟩ (fun _ => 0)
        = .ok o ∧
      (IntPriorityGet N 4).eval o.regs = .ok 0 ∧
      (IntPriorityGet N 5).eval o.regs = .ok 0x20 ∧
      interleave N [true, true, false, false] ⟨4, 0xE0, 0, 0⟩ ⟨5, 0x20, 0, 0⟩ (fun _ => 0)
        = .ok os ∧
      (IntPriorityGet N 4).eval os.regs = .ok 0xE0 ∧
      (IntPriorityGet N 5).eval os.regs = .ok 0x20) ∧
    ∃ (r : Regs) (id1 id2 p1 p2 : Nat) (sched : List Bool),
      id1 ≠ id2 ∧ 4 ≤ id1 ∧ id1 < N ∧ 4 ≤ id2 ∧ id2 < N ∧ id1 >>> 2 = id2 >>> 2 ∧
      p1 < 256 ∧ p2 < 256 ∧ sched.count true = 2 ∧ sched.count false = 2 ∧
      ∃ o, interleave N sched ⟨id1, p1, 0, 0⟩ ⟨id2, p2, 0, 0⟩ r = .ok o ∧
        o.ret.1.pc = 2 ∧ o.ret.2.pc = 2 ∧
        ((IntPriorityGet N id1).eval o.regs ≠ .ok p1 ∨
          (IntPriorityGet N id2).eval o.regs ≠ .ok p2) := by
  have h4 : 4 < N := by omega
  have h5 : 5 < N := by omega
  have ha4 : g_pui32Regs[4 >>> 2]? = some NVIC_SYS_PRI1 := rfl
  obtain ⟨o, os, v0, a, ha, hrun, hpc1, hpc2, _, hv0, hg1, hg2, hseq, _, _, hs1, hs2⟩ :=
    shared_word_readback N 4 5 0xE0 0x20 (fun _ => 0) hN (by decide) h4 (by decide) h5
      (by decide) (by decide) (by decide) (by decide)
  have hv : v0 = 0 := by
    rw [Drv.eval, IntPriorityGet_run N 4 NVIC_SYS_PRI1 _ (by decide) h4 ha4] at hv0
    have h := Except.ok.inj hv0
    rw [← h]
    decide
  rw [hv] at hg1
  refine ⟨fun id p r => IntPrioritySet_split N id p r, ?_,
    fun id1 id2 p1 p2 r h1 hid1 h2 hid2 hne hw hp1 hp2 =>
      shared_word_readback N id1 id2 p1 p2 r hN h1 hid1 h2 hid2 hne hw hp1 hp2,
    ⟨o, os, hrun, hg1, hg2, hseq, hs1, hs2⟩, ?_⟩
  · intro id p t a r h4' hid ha'
    refine ⟨IntPrioritySet_load_run N id a r h4' hid ha', IntPrioritySet_store_run id p t a r ha',
      fun hp => ⟨lane_setLane_same t _ p (and_three_lt id) hp, ?_⟩⟩
    intro k hk hne
    exact lane_setLane_other t _ k p (and_three_lt id) hk hne hp
  · refine ⟨fun _ => 0, 4, 5, 0xE0, 0x20, [true, false, true, false], by decide, by decide, h4,
      by decide, h5, by decide, by decide, by decide, by decide, by decide, o, hrun, hpc1, hpc2,
      ?_⟩
    left
    rw [hg1]
    intro h
    have h2 := Except.ok.inj h
    revert h2
    decide

theorem priority_set_lost_update_witness :
    (155 ≤ 156 ∧ 6 ≤ 155) ∧
    ((∀ (id p : Nat) (r : Regs),
      (IntPrioritySet.load 155 id >>= IntPrioritySet.store id p) r
        = IntPrioritySet 155 id p r) ∧
    (∀ (id p t a : Nat) (r : Regs), 4 ≤ id → id < 155 → g_pui32Regs[id >>> 2]? = some a →
      IntPrioritySet.load 155 id r = .ok ⟨u32 (r a), r, [Access.load a]⟩ ∧
      IntPrioritySet.store id p t r =
        .ok ⟨(), Function.update r a (setLane t (id &&& 3) p),
          [Access.store a (setLane t (id &&& 3) p)]⟩ ∧
      (p < 256 → lane (setLane t (id &&& 3) p) (id &&& 3) = p ∧
        ∀ k, k < 4 → k ≠ id &&& 3 → lane (setLane t (id &&& 3) p) k = lane t k)) ∧
    (∀ (id1 id2 p1 p2 : Nat) (r : Regs), 4 ≤ id1 → id1 < 155 → 4 ≤ id2 → id2 < 155 →
      id1 ≠ id2 → id1 >>> 2 = id2 >>> 2 → p1 < 256 → p2 < 256 →
      ∃ o os v0 a,
        g_pui32Regs[id1 >>> 2]? = some a ∧
        interleave 155 [true, false, true, false] ⟨id1, p1, 0, 0⟩ ⟨id2, p2, 0, 0⟩ r = .ok o ∧
        o.ret.1.pc = 2 ∧ o.ret.2.pc = 2 ∧
        o.trace = [Access.load a, Access.load a,
          Access.store a (setLane (u32 (r a)) (id1 &&& 3) p1),
          Access.store a (setLane (u32 (r a)) (id2 &&& 3) p2)] ∧
        (IntPriorityGet 155 id1).eval r = .ok v0 ∧
        (IntPriorityGet 155 id1).eval o.regs = .ok v0 ∧
        (IntPriorityGet 155 id2).eval o.regs = .ok p2 ∧
        interleave 155 [true, true, false, false] ⟨id1, p1, 0, 0⟩ ⟨id2, p2, 0, 0⟩ r
          = .ok os ∧
        os.ret.1.pc = 2 ∧ os.ret.2.pc = 2 ∧
        (IntPriorityGet 155 id1).eval os.regs = .ok p1 ∧
        (IntPriorityGet 155 id2).eval os.regs = .ok p2) ∧
    (∃ o os,
      interleave 155 [true, false, true, false] ⟨4, 0xE0, 0, 0⟩ ⟨5, 0x20, 0, 0⟩ (fun _ => 0)
        = .ok o ∧
      (IntPriorityGet 155 4).eval o.regs = .ok 0 ∧
      (IntPriorityGet 155 5).eval o.regs = .ok 0x20 ∧
      interleave 155 [true, true, false, false] ⟨4, 0xE0, 0, 0⟩ ⟨5, 0x20, 0, 0⟩ (fun _ => 0)
        = .ok os ∧
      (IntPriorityGet 155 4).eval os.regs = .ok 0xE0 ∧
      (IntPriorityGet 155 5).eval os.regs = .ok 0x20) ∧
    ∃ (r : Regs) (id1 id2 p1 p2 : Nat) (sched : List Bool),
      id1 ≠ id2 ∧ 4 ≤ id1 ∧ id1 < 155 ∧ 4 ≤ id2 ∧ id2 < 155 ∧ id1 >>> 2 = id2 >>> 2 ∧
      p1 < 256 ∧ p2 < 256 ∧ sched.count true = 2 ∧ sched.count false = 2 ∧
      ∃ o, interleave 155 sched ⟨id1, p1, 0, 0⟩ ⟨id2, p2, 0, 0⟩ r = .ok o ∧
        o.ret.1.pc = 2 ∧ o.ret.2.pc = 2 ∧
        ((IntPriorityGet 155 id1).eval o.regs ≠ .ok p1 ∨
          (IntPriorityGet 155 id2).eval o.regs ≠ .ok p2)) :=
  ⟨by decide, priority_set_lost_update 155 (by decide) (by decide)⟩

/-! ## Range of the grouping read-back -/

theorem prigroup_field (w : Nat) :
    w &&& NVIC_APINT_PRIGROUP_M = ((w >>> 8) &&& 7) * 256 := by
  have hM : NVIC_APINT_PRIGROUP_M = (2 ^ 3 - 1) <<< 8 := rfl
  have h7 : (7 : Nat) = 2 ^ 3 - 1 := rfl
  have h256 : ((w >>> 8) &&& 7) * 256 = ((w >>> 8) &&& 7) <<< 8 := by
    rw [Nat.shiftLeft_eq]
  rw [h256, hM, h7]
  apply Nat.eq_of_testBit_eq
  intro i
  simp only [Nat.testBit_and, Nat.testBit_shiftLeft, Nat.testBit_shiftRight,
    Nat.testBit_two_pow_sub_one]
  by_cases h8 : 8 ≤ i
  · have : 8 + (i - 8) = i := by omega
    simp [h8, this, Bool.and_comm]
  · simp [h8]

theorem field_lt (w : Nat) : (w >>> 8) &&& 7 < 8 := by
  have : (w >>> 8) &&& 7 = (w >>> 8) % 8 := Nat.and_pow_two_sub_one_eq_mod (w >>> 8) 3
  omega

/-- C20. The grouping sentinel is unreachable: for every content of
NVIC_APINT, IntPriorityGroupingGet() returns 7 - ((NVIC_APINT >> 8) & 7), a
value in 0..7 and never NUM_PRIORITY, because the eight entries of
g_pui32Priority are pairwise distinct and cover every value of the 3-bit field
selected by NVIC_APINT_PRIGROUP_M. -/
theorem grouping_sentinel_unreachable (r : Regs) :
    ∃ n, IntPriorityGroupingGet r = .ok ⟨n, r, [Access.load NVIC_APINT]⟩ ∧
      n = 7 - ((u32 (r NVIC_APINT) >>> 8) &&& 7) ∧ n < NUM_PRIORITY ∧
      g_pui32Priority.Nodup ∧ g_pui32Priority.length = 8 ∧
      NVIC_APINT_PRIGROUP_M = 7 <<< 8 ∧
      (∀ f, f < 8 → ∃ i, i < 8 ∧ g_pui32Priority[i]? = some (f <<< 8)) := by
  obtain ⟨n, hrun, h8, hhit, hmiss⟩ := IntPriorityGroupingGet_spec r
  have hk := field_lt (u32 (r NVIC_APINT))
  have hval := g_pui32Priority_value (show 7 - ((u32 (r NVIC_APINT) >>> 8) &&& 7) < 8 by omega)
  have hfield : (7 - (7 - ((u32 (r NVIC_APINT) >>> 8) &&& 7))) * 256
      = u32 (r NVIC_APINT) &&& NVIC_APINT_PRIGROUP_M := by
    rw [prigroup_field]
    congr 1
    omega
  rw [hfield] at hval
  have hle : n ≤ 7 - ((u32 (r NVIC_APINT) >>> 8) &&& 7) := by
    by_contra hcon
    exact hmiss _ (by omega) hval
  have hn : n = 7 - ((u32 (r NVIC_APINT) >>> 8) &&& 7) :=
    List.getElem?_inj (by show n < 8; omega) g_pui32Priority_nodup
      ((hhit (by omega)).trans hval.symm)
  refine ⟨n, hrun, hn, by show n < 8; omega, g_pui32Priority_nodup, rfl, rfl, ?_⟩
  intro f hf
  refine ⟨7 - f, by omega, ?_⟩
  rw [g_pui32Priority_value (show 7 - f < 8 by omega), Nat.shiftLeft_eq]
  congr 2
  omega

/-! ## Table bounds -/

theorem g_pui32Regs_nonzero {i a : Nat} (h1 : 1 ≤ i) (ha : g_pui32Regs[i]? = some a) :
    a ≠ 0 := by
  intro h0
  rw [h0] at ha
  have h00 : g_pui32Regs[0]? = some 0 := rfl
  have := g_pui32Regs_inj ha h00
  omega

/-- C21. Table indexing is in bounds under the asserted preconditions, for N at
most 156: for id in [4,N) the index id >> 2 is at least 1 and below 39, the
length of g_pui32Regs, so the read of the table succeeds and never yields the
placeholder entry 0; for id in [16,N) the index (id-16)/32 is below 5, the
length of g_pui32EnRegs, g_pui32Dii16Regs, g_pui32PendRegs and
g_pui32UnpendRegs, so the reads of these tables succeed; and every bits below
NUM_PRIORITY is below 8, the length of g_pui32Priority, so that read succeeds
too. -/
theorem table_index_in_bounds (N id bits : Nat) (r : Regs) (hN : N ≤ 156) :
    (g_pui32Regs.length = 39 ∧ g_pui32EnRegs.length = 5 ∧ g_pui32Dii16Regs.length = 5 ∧
      g_pui32PendRegs.length = 5 ∧ g_pui32UnpendRegs.length = 5 ∧
      g_pui32Priority.length = 8 ∧ g_pui32Regs[0]? = some 0) ∧
    (4 ≤ id → id < N →
      1 ≤ id >>> 2 ∧ id >>> 2 < g_pui32Regs.length ∧
      ∃ a, a ≠ 0 ∧ tableAt g_pui32Regs (id >>> 2) r = .ok ⟨a, r, []⟩) ∧
    (16 ≤ id → id < N →
      (id - 16) / 32 < g_pui32EnRegs.length ∧ (id - 16) / 32 < g_pui32Dii16Regs.length ∧
      (id - 16) / 32 < g_pui32PendRegs.length ∧ (id - 16) / 32 < g_pui32UnpendRegs.length ∧
      (∃ a, tableAt g_pui32EnRegs ((id - 16) / 32) r = .ok ⟨a, r, []⟩) ∧
      (∃ a, tableAt g_pui32Dii16Regs ((id - 16) / 32) r = .ok ⟨a, r, []⟩) ∧
      (∃ a, tableAt g_pui32PendRegs ((id - 16) / 32) r = .ok ⟨a, r, []⟩) ∧
      (∃ a, tableAt g_pui32UnpendRegs ((id - 16) / 32) r = .ok ⟨a, r, []⟩)) ∧
    (bits < NUM_PRIORITY →
      bits < g_pui32Priority.length ∧
      ∃ e, tableAt g_pui32Priority bits r = .ok ⟨e, r, []⟩) := by
  have hsh : id >>> 2 = id / 4 := Nat.shiftRight_eq_div_pow id 2
  have hlR : g_pui32Regs.length = 39 := rfl
  have hlE : g_pui32EnRegs.length = 5 := rfl
  have hlD : g_pui32Dii16Regs.length = 5 := rfl
  have hlP : g_pui32PendRegs.length = 5 := rfl
  have hlU : g_pui32UnpendRegs.length = 5 := rfl
  have bank : ∀ t : List Nat, t.length = 5 → id < N →
      ∃ a, tableAt t ((id - 16) / 32) r = .ok ⟨a, r, []⟩ := by
    intro t ht hid
    obtain ⟨a, ha⟩ := bank_lookup t ht hN hid
    exact ⟨a, by simp [tableAt, ha]⟩
  refine ⟨⟨hlR, hlE, hlD, hlP, hlU, rfl, rfl⟩, ?_, ?_, ?_⟩
  · intro h4 hid
    obtain ⟨a, ha⟩ := g_pui32Regs_lookup hN hid
    have h1 : 1 ≤ id >>> 2 := by omega
    exact ⟨h1, by omega, a, g_pui32Regs_nonzero h1 ha, by simp [tableAt, ha]⟩
  · intro h16 hid
    exact ⟨by omega, by omega, by omega, by omega, bank _ hlE hid, bank _ hlD hid,
      bank _ hlP hid, bank _ hlU hid⟩
  · intro hb
    have h8 : bits < 8 := hb
    obtain ⟨e, he⟩ := g_pui32Priority_lookup h8
    exact ⟨h8, e, by simp [tableAt, he]⟩

theorem table_index_in_bounds_witness :
    (155 ≤ 156) ∧
    ((g_pui32Regs.length = 39 ∧ g_pui32EnRegs.length = 5 ∧ g_pui32Dii16Regs.length = 5 ∧
      g_pui32PendRegs.length = 5 ∧ g_pui32UnpendRegs.length = 5 ∧
      g_pui32Priority.length = 8 ∧ g_pui32Regs[0]? = some 0) ∧
    (4 ≤ 154 → 154 < 155 →
      1 ≤ 154 >>> 2 ∧ 154 >>> 2 < g_pui32Regs.length ∧
      ∃ a, a ≠ 0 ∧ tableAt g_pui32Regs (154 >>> 2) (fun _ => 0) = .ok ⟨a, fun _ => 0, []⟩) ∧
    (16 ≤ 154 → 154 < 155 →
      (154 - 16) / 32 < g_pui32EnRegs.length ∧ (154 - 16) / 32 < g_pui32Dii16Regs.length ∧
      (154 - 16) / 32 < g_pui32PendRegs.length ∧ (154 - 16) / 32 < g_pui32UnpendRegs.length ∧
      (∃ a, tableAt g_pui32EnRegs ((154 - 16) / 32) (fun _ => 0) = .ok ⟨a, fun _ => 0, []⟩) ∧
      (∃ a, tableAt g_pui32Dii16Regs ((154 - 16) / 32) (fun _ => 0)
        = .ok ⟨a, fun _ => 0, []⟩) ∧
      (∃ a, tableAt g_pui32PendRegs ((154 - 16) / 32) (fun _ => 0) = .ok ⟨a, fun _ => 0, []⟩) ∧
      (∃ a, tableAt g_pui32UnpendRegs ((154 - 16) / 32) (fun _ => 0)
        = .ok ⟨a, fun _ => 0, []⟩)) ∧
    (7 < NUM_PRIORITY →
      7 < g_pui32Priority.length ∧
      ∃ e, tableAt g_pui32Priority 7 (fun _ => 0) = .ok ⟨e, fun _ => 0, []⟩)) :=
  ⟨by decide, table_index_in_bounds 155 154 7 (fun _ => 0) (by decide)⟩

/-! ## Sequential priority writes -/

theorem setLane_overwrite (t j p q : Nat) (hj : j < 4) (hp : p < 256) (hq : q < 256) :
    setLane (u32 (setLane t j p)) j q = setLane t j q := by
  apply Nat.eq_of_testBit_eq
  intro i
  rw [testBit_setLane _ j q i hj hq, testBit_setLane t j q i hj hq, testBit_u32,
    testBit_setLane t j p i hj hp]
  by_cases hl : 8 * j ≤ i ∧ i < 8 * j + 8
  · simp [hl]
  · by_cases h32 : i < 32 <;> simp [hl, h32]

theorem setLane_comm (t j k p q : Nat) (hj : j < 4) (hk : k < 4) (hjk : j ≠ k)
    (hp : p < 256) (hq : q < 256) :
    setLane (u32 (setLane t j p)) k q = setLane (u32 (setLane t k q)) j p := by
  apply Nat.eq_of_testBit_eq
  intro i
  rw [testBit_setLane _ k q i hk hq, testBit_setLane _ j p i hj hp, testBit_u32, testBit_u32,
    testBit_setLane t j p i hj hp, testBit_setLane t k q i hk hq]
  by_cases hlj : 8 * j ≤ i ∧ i < 8 * j + 8
  · have hlk : ¬ (8 * k ≤ i ∧ i < 8 * k + 8) := by omega
    have h32 : i < 32 := by omega
    simp [hlj, hlk, h32]
  · by_cases hlk : 8 * k ≤ i ∧ i < 8 * k + 8
    · have h32 : i < 32 := by omega
      simp [hlj, hlk, h32]
    · simp [hlj, hlk]

/-- Two calls of IntPrioritySet in sequence. -/
theorem IntPrioritySet_twice (N id1 p1 a1 id2 p2 a2 : Nat) (r : Regs)
    (h1 : 4 ≤ id1) (hid1 : id1 < N) (h2 : 4 ≤ id2) (hid2 : id2 < N)
    (ha1 : g_pui32Regs[id1 >>> 2]? = some a1) (ha2 : g_pui32Regs[id2 >>> 2]? = some a2) :
    (IntPrioritySet N id1 p1 >>= fun _ => IntPrioritySet N id2 p2).exec r =
      .ok (Function.update (Function.update r a1 (setLane (u32 (r a1)) (id1 &&& 3) p1)) a2
        (setLane (u32 (Function.update r a1 (setLane (u32 (r a1)) (id1 &&& 3) p1) a2))
          (id2 &&& 3) p2)) := by
  simp only [Drv.exec, bind_run, Drv.bind, IntPrioritySet_run N id1 p1 a1 r h1 hid1 ha1,
    IntPrioritySet_run N id2 p2 a2 _ h2 hid2 ha2]

/-- C22. Sequential priority writes commute and the last write wins: for every
register file, all id1, id2 in [4,N) with id1 different from id2 and all p1,
p2, q in 0..255, IntPrioritySet(id1, p1) followed by IntPrioritySet(id2, p2)
completes and leaves the same register file as IntPrioritySet(id2, p2)
followed by IntPrioritySet(id1, p1), also when id1 and id2 share a register
word; and IntPrioritySet(id1, p1) followed by IntPrioritySet(id1, q) leaves
the same register file as IntPrioritySet(id1, q) alone. -/
theorem priority_set_commute (N id1 id2 p1 p2 q : Nat) (r : Regs) (hN : N ≤ 156)
    (h1 : 4 ≤ id1) (hid1 : id1 < N) (h2 : 4 ≤ id2) (hid2 : id2 < N) (hne : id1 ≠ id2)
    (hp1 : p1 < 256) (hp2 : p2 < 256) (hq : q < 256) :
    (∃ r', (IntPrioritySet N id1 p1 >>= fun _ => IntPrioritySet N id2 p2).exec r = .ok r' ∧
      (IntPrioritySet N id2 p2 >>= fun _ => IntPrioritySet N id1 p1).exec r = .ok r') ∧
    (∃ r', (IntPrioritySet N id1 p1 >>= fun _ => IntPrioritySet N id1 q).exec r = .ok r' ∧
      (IntPrioritySet N id1 q).exec r = .ok r') := by
  obtain ⟨a1, ha1⟩ := g_pui32Regs_lookup hN hid1
  obtain ⟨a2, ha2⟩ := g_pui32Regs_lookup hN hid2
  have hj1 := and_three_lt id1
  have hj2 := and_three_lt id2
  constructor
  · refine ⟨_, IntPrioritySet_twice N id1 p1 a1 id2 p2 a2 r h1 hid1 h2 hid2 ha1 ha2, ?_⟩
    rw [IntPrioritySet_twice N id2 p2 a2 id1 p1 a1 r h2 hid2 h1 hid1 ha2 ha1]
    congr 1
    by_cases hab : a1 = a2
    · subst hab
      have hidx : id1 >>> 2 = id2 >>> 2 := g_pui32Regs_inj ha1 ha2
      have hlane : id1 &&& 3 ≠ id2 &&& 3 := by
        intro h
        apply hne
        rw [split_id id1, split_id id2, hidx, h]
      simp only [Function.update_same, Function.update_idem]
      rw [setLane_comm _ _ _ _ _ hj1 hj2 hlane hp1 hp2]
    · have hba : a2 ≠ a1 := fun h => hab h.symm
      rw [Function.update_noteq hab, Function.update_noteq hba]
      exact (Function.update_comm hab _ _ r).symm
  · refine ⟨_, IntPrioritySet_twice N id1 p1 a1 id1 q a1 r h1 hid1 h1 hid1 ha1 ha1, ?_⟩
    rw [Drv.exec, IntPrioritySet_run N id1 q a1 r h1 hid1 ha1]
    simp only [Function.update_same, Function.update_idem]
    rw [setLane_overwrite _ _ _ _ hj1 hp1 hq]

theorem priority_set_commute_witness :
    (155 ≤ 156 ∧ 4 ≤ 4 ∧ 4 < 155 ∧ 4 ≤ 5 ∧ 5 < 155 ∧ 4 ≠ 5 ∧ 0xE0 < 256 ∧ 0x20 < 256 ∧
      0x40 < 256) ∧
    ((∃ r', (IntPrioritySet 155 4 0xE0 >>= fun _ => IntPrioritySet 155 5 0x20).exec
        (fun _ => 0) = .ok r' ∧
      (IntPrioritySet 155 5 0x20 >>= fun _ => IntPrioritySet 155 4 0xE0).exec
        (fun _ => 0) = .ok r') ∧
    (∃ r', (IntPrioritySet 155 4 0xE0 >>= fun _ => IntPrioritySet 155 4 0x40).exec
        (fun _ => 0) = .ok r' ∧
      (IntPrioritySet 155 4 0x40).exec (fun _ => 0) = .ok r')) :=
  ⟨by decide, priority_set_commute 155 4 5 0xE0 0x20 0x40 (fun _ => 0) (by decide) (by decide)
    (by decide) (by decide) (by decide) (by decide) (by decide) (by decide) (by decide)⟩

end Interrupt
